import Mathlib

/-!
# Whatsapp-server: session registry, task scheduler and log buffers

A shallow embedding of the stateful core of `index.js`: the per-task send loop
`sendMessagesLoop`, the request handlers that create and stop tasks and sessions,
the connection listeners, and the periodic cleanup.  JavaScript objects that are
shared by reference (`clientInfo`, `taskInfo`, the per-task `logs` array) live in
explicit object stores and are addressed by their position in the store.
-/

namespace WhatsappServer

/-! ## JavaScript string primitives -/

/-- Code points removed by `String.prototype.trim` (WhiteSpace and LineTerminator). -/
def isJsWhiteSpace (c : Char) : Bool :=
  let n := c.toNat
  n == 9 || n == 10 || n == 11 || n == 12 || n == 13 || n == 32 || n == 160 || n == 5760
    || (decide (8192 ≤ n) && decide (n ≤ 8202)) || n == 8232 || n == 8233 || n == 8239
    || n == 8287 || n == 12288 || n == 65279

/-- The characters of `s.trim()`. -/
def trimChars (cs : List Char) : List Char :=
  ((cs.dropWhile isJsWhiteSpace).reverse.dropWhile isJsWhiteSpace).reverse

/-- JavaScript `s.trim()`. -/
def jsTrim (s : String) : String := String.mk (trimChars s.data)

/-- Substring test on character lists: `sub` occurs somewhere in the list. -/
def includesChars : List Char → List Char → Bool
  | [], sub => sub.isEmpty
  | c :: cs, sub => sub.isPrefixOf (c :: cs) || includesChars cs sub

/-- JavaScript `s.includes(sub)` (case-sensitive). -/
def jsIncludes (s sub : String) : Bool := includesChars s.data sub.data

/-- JavaScript `s.split("\n")` on character lists: always yields at least one piece. -/
def splitNewline (cs : List Char) : List (List Char) :=
  cs.foldr
    (fun c acc =>
      if c = Char.ofNat 10 then [] :: acc
      else match acc with
        | [] => [[c]]
        | p :: ps => (c :: p) :: ps)
    [[]]

/-- The message list of an uploaded file:
`text.split("\n").filter(msg => msg.trim() !== "")`. -/
def parseMessages (text : String) : List String :=
  ((splitNewline text.data).map String.mk).filter (fun msg => jsTrim msg != "")

/-- Truthiness of a value that is either `undefined` or a string. -/
def jsTruthy : Option String → Bool
  | some s => s != ""
  | none => false

/-- Rendering of a possibly-`undefined` string inside a template literal. -/
def jsTemplate : Option String → String
  | some s => s
  | none => "undefined"

/-- `str.replace(/[^0-9]/g, "")`: keep the decimal digits only. -/
def digitsOnly (s : String) : String := String.mk (s.data.filter Char.isDigit)

/-! ## Data model -/

/-- One reading of the clock: `Date.now()` together with the text that
`new Date().toLocaleString()` produces for the same instant. -/
structure Instant where
  epochMs : Nat
  localeString : String
  deriving DecidableEq, Repr

/-- The `type` field of a log entry. -/
inductive LogType
  | info
  | success
  | error
  deriving DecidableEq, Repr

/-- An entry of a task's `logs` array. -/
structure LogEntry where
  type : LogType
  message : String
  details : String
  timestamp : Nat
  deriving DecidableEq, Repr

/-- The object built by `/send-message` (`taskInfo`), with the properties the loop
adds later (`currentCycle`, `endTime`, `error`) as optional fields. -/
structure TaskInfo where
  taskId : String
  target : String
  targetType : String
  messages : List String
  delaySec : String
  pfx : Option String
  isSending : Bool
  stopRequested : Bool
  totalMessages : Nat
  sentMessages : Nat
  currentMessageIndex : Nat
  startTime : Nat
  currentCycle : Option Nat
  endTime : Option Nat
  error : Option String
  deriving DecidableEq, Repr

/-- The global `systemStats` counters (`uptime` is the process start time). -/
structure SystemStats where
  totalMessagesSent : Nat
  totalSessions : Nat
  totalTasks : Nat
  uptime : Nat
  errors : Nat
  successfulTasks : Nat
  failedTasks : Nat
  deriving DecidableEq, Repr

/-- How the promise returned by `waClient.sendMessage` settles.  A rejection is
represented by the `message` property of the rejection value: `some s` when it is
a string, `none` when the value carries no such property. -/
inductive SendOutcome
  | ok
  | rejected (message : Option String)
  deriving DecidableEq, Repr

/-! ## The send loop on the objects it touches -/

/-- The arguments of one call of `sendMessagesLoop`. -/
structure LoopArgs where
  sessionId : String
  taskId : String
  messages : List String
  waClient : Nat
  target : String
  targetType : String
  delaySec : String
  pfx : Option String
  senderNumber : String
  deriving DecidableEq, Repr

/-- Where a call of `sendMessagesLoop` is suspended. -/
inductive LoopPc
  /-- Inside one of the `await delay(...)`; the `while` condition is evaluated next. -/
  | delaying
  /-- Inside `await waClient.sendMessage(recipient, { text: msg })`, with the locals
  computed before the call. -/
  | sending (msg : Option String) (timestamp : String) (messageNumber cycleNumber : Nat)
  /-- The function has returned. -/
  | done
  deriving DecidableEq, Repr

/-- Everything one call of `sendMessagesLoop` reads or writes: two fields of its
`clientInfo`, its `taskInfo`, its `logs` array, the global counters, and its own
local `index` and suspension point. -/
structure LoopView where
  isConnected : Bool
  lastActivity : Nat
  taskInfo : TaskInfo
  logs : List LogEntry
  systemStats : SystemStats
  index : Nat
  pc : LoopPc
  deriving DecidableEq, Repr

/-- The text sent: `messages[index]`, preceded by the trimmed prefix and one space
when the prefix is truthy and not blank. -/
def composeText (pfx : Option String) (msg : Option String) : Option String :=
  match pfx with
  | some p =>
    if p != "" && jsTrim p != "" then some (jsTrim p ++ " " ++ jsTemplate msg) else msg
  | none => msg

/-- The address of the receiver of a task. -/
def recipient (target targetType : String) : String :=
  if targetType = "group" then target ++ "@g.us" else target ++ "@s.whatsapp.net"

/-- `Math.floor(sentMessages / messages.length) + 1`. -/
def cycleNumber (sentMessages len : Nat) : Nat := sentMessages / len + 1

/-- `logs.unshift(entry); if (logs.length > 100) logs.pop();` -/
def unshiftCapped (entry : LogEntry) (logs : List LogEntry) : List LogEntry :=
  if (entry :: logs).length > 100 then (entry :: logs).dropLast else entry :: logs

/-- The entry logged while the session is not connected. -/
def waitingLog (now : Instant) : LogEntry :=
  { type := .info
    message := "[" ++ now.localeString ++ "] Waiting for connection to be restored..."
    details := "Pausing message sending until reconnected"
    timestamp := now.epochMs }

/-- The entry logged after a send that resolved. -/
def successLog (a : LoopArgs) (now : Instant) (msg : Option String) (timestamp : String)
    (messageNumber cycle : Nat) : LogEntry :=
  { type := .success
    message := "[" ++ timestamp ++ "] Message #" ++ toString messageNumber ++ " (Cycle "
      ++ toString cycle ++ ") sent successfully from " ++ a.senderNumber ++ " to " ++ a.target
    details := "Message: " ++ String.singleton (Char.ofNat 34) ++ jsTemplate msg
      ++ String.singleton (Char.ofNat 34)
    timestamp := now.epochMs }

/-- The entry logged after a send that rejected. -/
def sendErrorLog (a : LoopArgs) (now : Instant) (errMessage : Option String)
    (timestamp : String) (messageNumber : Nat) : LogEntry :=
  { type := .error
    message := "[" ++ timestamp ++ "] Failed to send message #" ++ toString messageNumber
      ++ " from " ++ a.senderNumber ++ " to " ++ a.target
    details := "Error: " ++ jsTemplate errMessage
    timestamp := now.epochMs }

/-- The entry logged when the `while` loop is left. -/
def completionLog (now : Instant) (t : TaskInfo) : LogEntry :=
  { type := .info
    message := "[" ++ now.localeString ++ "] Task stopped by user"
    details := "Total messages sent: " ++ toString t.sentMessages ++ " in "
      ++ toString (match t.currentCycle with
          | some c => if c = 0 then 1 else c
          | none => 1)
      ++ " cycle(s)"
    timestamp := now.epochMs }

/-- The entry logged by the outer `catch`. -/
def criticalLog (now : Instant) (errMessage : String) : LogEntry :=
  { type := .error
    message := "[" ++ now.localeString ++ "] Critical error in task execution"
    details := "Error: " ++ errMessage
    timestamp := now.epochMs }

/-- The `message` of the `TypeError` raised by `sendError.message.includes(...)` when
`sendError.message` is `undefined`. -/
def includesTypeErrorMessage : String :=
  "Cannot read properties of undefined (reading 'includes')"

/-- The test that classifies a rejection as a connection problem. -/
def isConnectionIssue (m : String) : Bool :=
  jsIncludes m "connection" || jsIncludes m "socket" || jsIncludes m "timeout"
    || jsIncludes m "not connected"

/-- The code after the `while` loop: the task is closed and a final entry is logged
(without the length check of the in-loop appends). -/
def loopExit (now : Instant) (v : LoopView) : LoopView :=
  let t := { v.taskInfo with endTime := some now.epochMs, isSending := false }
  { v with
    taskInfo := t
    systemStats :=
      if t.stopRequested then { v.systemStats with failedTasks := v.systemStats.failedTasks + 1 }
      else { v.systemStats with successfulTasks := v.systemStats.successfulTasks + 1 }
    logs := completionLog now t :: v.logs
    pc := .done }

/-- The outer `catch (error)` of `sendMessagesLoop`. -/
def loopCrash (now : Instant) (errMessage : String) (v : LoopView) : LoopView :=
  { v with
    systemStats :=
      { v.systemStats with
        errors := v.systemStats.errors + 1
        failedTasks := v.systemStats.failedTasks + 1 }
    logs := criticalLog now errMessage :: v.logs
    taskInfo :=
      { v.taskInfo with error := some errMessage, isSending := false, endTime := some now.epochMs }
    pc := .done }

/-- One evaluation of the `while` condition and the code up to the next `await`:
leave the loop, or log and wait when the session is not connected, or compose the
next text and start sending it. -/
def loopCheck (a : LoopArgs) (now : Instant) (v : LoopView) : LoopView :=
  if v.taskInfo.isSending && !v.taskInfo.stopRequested then
    if !v.isConnected then
      { v with logs := unshiftCapped (waitingLog now) v.logs, pc := .delaying }
    else
      { v with
        pc := .sending (composeText a.pfx (a.messages[v.index]?)) now.localeString
          (v.taskInfo.sentMessages + 1) (cycleNumber v.taskInfo.sentMessages a.messages.length) }
  else loopExit now v

/-- The code that runs when the awaited `sendMessage` settles, up to the next
`await delay(...)` (or to the end of the function when the handler itself throws). -/
def loopSendSettled (a : LoopArgs) (now : Instant) (outcome : SendOutcome) (msg : Option String)
    (timestamp : String) (messageNumber cycle : Nat) (v : LoopView) : LoopView :=
  match outcome with
  | .ok =>
    let index := (v.index + 1) % a.messages.length
    { v with
      logs := unshiftCapped (successLog a now msg timestamp messageNumber cycle) v.logs
      taskInfo :=
        { v.taskInfo with
          sentMessages := v.taskInfo.sentMessages + 1
          currentMessageIndex := index
          currentCycle := some cycle }
      systemStats :=
        { v.systemStats with totalMessagesSent := v.systemStats.totalMessagesSent + 1 }
      index := index
      lastActivity := now.epochMs
      pc := .delaying }
  | .rejected errMessage =>
    let v1 : LoopView :=
      { v with
        logs := unshiftCapped (sendErrorLog a now errMessage timestamp messageNumber) v.logs
        systemStats := { v.systemStats with errors := v.systemStats.errors + 1 } }
    match errMessage with
    | some m =>
      if isConnectionIssue m then { v1 with isConnected := false, pc := .delaying }
      else { v1 with pc := .delaying }
    | none => loopCrash now includesTypeErrorMessage v1

/-- The start of `sendMessagesLoop` once `clientInfo`, `taskInfo` and `logs` are
found: `let index = taskInfo.currentMessageIndex`, then the first pass of the loop. -/
def loopStart (a : LoopArgs) (now : Instant) (v : LoopView) : LoopView :=
  loopCheck a now { v with index := v.taskInfo.currentMessageIndex }

/-- The three assignments that stop a task:
`stopRequested = true; isSending = false; endTime = new Date()`. -/
def stopTaskInfo (now : Instant) (t : TaskInfo) : TaskInfo :=
  { t with stopRequested := true, isSending := false, endTime := some now.epochMs }

/-- The entry `/stop-task` puts at the head of the task's log. -/
def stopLog (now : Instant) (t : TaskInfo) : LogEntry :=
  { type := .info
    message := "[" ++ now.localeString ++ "] Task stopped by user"
    details := "Total messages sent: " ++ toString t.sentMessages
    timestamp := now.epochMs }

/-- What can happen to a running call of `sendMessagesLoop` and the objects it holds. -/
inductive LoopEvent
  /-- A connection listener sets `clientInfo.isConnected` (and `lastActivity` on open). -/
  | connectionUpdate (up : Bool) (now : Instant)
  /-- The pending `delay` elapses. -/
  | wake (now : Instant)
  /-- The pending `sendMessage` settles. -/
  | sendSettled (now : Instant) (outcome : SendOutcome)
  /-- `/stop-task` stops the task and puts its entry at the head of the log. -/
  | stopTask (now : Instant)
  deriving DecidableEq, Repr

/-- The effect of an event on the loop; an event that the loop is not waiting for
leaves it as it is. -/
def loopStep (a : LoopArgs) (v : LoopView) : LoopEvent → LoopView
  | .connectionUpdate up now =>
    { v with isConnected := up, lastActivity := if up then now.epochMs else v.lastActivity }
  | .wake now =>
    match v.pc with
    | .delaying => loopCheck a now v
    | _ => v
  | .sendSettled now outcome =>
    match v.pc with
    | .sending msg timestamp messageNumber cycle =>
      loopSendSettled a now outcome msg timestamp messageNumber cycle v
    | _ => v
  | .stopTask now =>
    { v with
      taskInfo := stopTaskInfo now v.taskInfo
      logs := stopLog now (stopTaskInfo now v.taskInfo) :: v.logs }

/-- The loop after a sequence of events. -/
def loopRun (a : LoopArgs) (v : LoopView) (es : List LoopEvent) : LoopView :=
  es.foldl (loopStep a) v

/-- The event is a send that resolves while the loop is waiting for it. -/
def isSuccessfulSend (v : LoopView) : LoopEvent → Bool
  | .sendSettled _ .ok =>
    match v.pc with
    | .sending .. => true
    | _ => false
  | _ => false

/-- Number of successful sends during a sequence of events. -/
def successfulSends (a : LoopArgs) : LoopView → List LoopEvent → Nat
  | _, [] => 0
  | v, e :: es => (if isSuccessfulSend v e then 1 else 0) + successfulSends a (loopStep a v e) es

/-! ## The process state: object stores, maps and suspended calls -/

/-- The object stored in `activeClients` (`clientInfo`); `client` names the socket. -/
structure ClientInfo where
  client : Nat
  number : String
  authPath : String
  isConnected : Bool
  tasks : List TaskInfo
  lastActivity : Nat
  deriving DecidableEq, Repr

/-- Which `connection.update` listener a socket carries: the one registered by
`/code`, or the one registered by `initializeClient` (which closes over its
`clientInfo` object). -/
inductive ListenerKind
  | pairing
  | reconnect (clientInfo : Nat)
  deriving DecidableEq, Repr

/-- A socket created by `makeWASocket` together with the variables its listener
closes over. -/
structure Socket where
  sessionId : String
  num : String
  sessionPath : String
  listener : ListenerKind
  deriving DecidableEq, Repr

/-- A suspended call of `sendMessagesLoop`: its arguments, the objects it holds
(`clientInfo`, the position of `taskInfo` in `clientInfo.tasks`, `logs`), and its
local state. -/
structure LoopProc where
  args : LoopArgs
  clientRef : Nat
  taskPos : Nat
  logsRef : Nat
  index : Nat
  pc : LoopPc
  deriving DecidableEq, Repr

/-- A scheduled call `initializeClient(sessionId, num, sessionPath)`. -/
structure PendingInit where
  sessionId : String
  num : String
  sessionPath : String
  deriving DecidableEq, Repr

/-- The state of the server process.  `clientStore` and `logStore` hold every
`clientInfo` object and every `logs` array ever created; the three maps are the
JavaScript `Map`s of the same names, in insertion order. -/
structure SystemState where
  clientStore : List ClientInfo
  logStore : List (List LogEntry)
  sockets : List Socket
  activeClients : List (String × Nat)
  userSessions : List (String × String)
  taskLogs : List (String × Nat)
  systemStats : SystemStats
  loops : List LoopProc
  pendingInits : List PendingInit
  deriving DecidableEq, Repr

/-- The state at process start, with the counters loaded from `data/stats.json`
(or the literal defaults). -/
def initialState (stats : SystemStats) : SystemState :=
  { clientStore := [], logStore := [], sockets := [], activeClients := [], userSessions := [],
    taskLogs := [], systemStats := stats, loops := [], pendingInits := [] }

/-- The counters of a process that starts without saved statistics. -/
def freshStats (startedAt : Nat) : SystemStats :=
  { totalMessagesSent := 0, totalSessions := 0, totalTasks := 0, uptime := startedAt, errors := 0,
    successfulTasks := 0, failedTasks := 0 }

/-- `Map.prototype.get`. -/
def mapGet {β : Type} (m : List (String × β)) (k : String) : Option β := m.lookup k

/-- `Map.prototype.has`. -/
def mapHas {β : Type} (m : List (String × β)) (k : String) : Bool := (m.lookup k).isSome

/-- `Map.prototype.set`: an existing key keeps its place, a new key goes last. -/
def mapSet {β : Type} : List (String × β) → String → β → List (String × β)
  | [], k, v => [(k, v)]
  | (k1, v1) :: m, k, v => if k1 = k then (k, v) :: m else (k1, v1) :: mapSet m k v

/-- `Map.prototype.delete`. -/
def mapDelete {β : Type} : List (String × β) → String → List (String × β)
  | [], _ => []
  | (k1, v1) :: m, k => if k1 = k then m else (k1, v1) :: mapDelete m k

/-- The loop over `userSessions.entries()` that deletes the first entry whose value
is `sessionId` and then breaks. -/
def deleteFirstOwner : List (String × String) → String → List (String × String)
  | [], _ => []
  | (ip, sessId) :: m, sessionId =>
    if sessId = sessionId then m else (ip, sessId) :: deleteFirstOwner m sessionId

/-- The objects a suspended call holds, read from the stores. -/
def viewOf (s : SystemState) (p : LoopProc) : Option LoopView :=
  match s.clientStore[p.clientRef]?, s.logStore[p.logsRef]? with
  | some c, some logs =>
    match c.tasks[p.taskPos]? with
    | some t =>
      some { isConnected := c.isConnected, lastActivity := c.lastActivity, taskInfo := t,
             logs := logs, systemStats := s.systemStats, index := p.index, pc := p.pc }
    | none => none
  | _, _ => none

/-- Store the objects of a view back. -/
def storeView (s : SystemState) (p : LoopProc) (v : LoopView) : SystemState :=
  match s.clientStore[p.clientRef]? with
  | some c =>
    { s with
      clientStore := s.clientStore.set p.clientRef
        { c with isConnected := v.isConnected, lastActivity := v.lastActivity,
                 tasks := c.tasks.set p.taskPos v.taskInfo }
      logStore := s.logStore.set p.logsRef v.logs
      systemStats := v.systemStats }
  | none => s

/-- `taskLogs.set(taskId, logs)` for the array a call holds. -/
def registerLogs (s : SystemState) (p : LoopProc) : SystemState :=
  { s with taskLogs := mapSet s.taskLogs p.args.taskId p.logsRef }

/-- After a pass of the loop: store the objects, and perform the
`taskLogs.set(taskId, logs)` that follows every append (every path except the one
that starts a send). -/
def commitCheck (s : SystemState) (p : LoopProc) (v : LoopView) : SystemState :=
  match v.pc with
  | .sending .. => storeView s p v
  | _ => registerLogs (storeView s p v) p

/-- The call `sendMessagesLoop(...)` up to its first `await`: look up `clientInfo`
by session id, the first task with the given id, and the `logs` array (a new array
when `taskLogs` has none), then run the first pass of the loop. -/
def sendMessagesLoop (a : LoopArgs) (now : Instant) (s : SystemState) : SystemState :=
  match mapGet s.activeClients a.sessionId with
  | none => s
  | some cref =>
    match s.clientStore[cref]? with
    | none => s
    | some c =>
      match c.tasks.findIdx? (fun t => t.taskId == a.taskId) with
      | none => s
      | some pos =>
        let s1 : SystemState :=
          match mapGet s.taskLogs a.taskId with
          | some _ => s
          | none => { s with logStore := s.logStore ++ [[]] }
        let lref : Nat :=
          match mapGet s.taskLogs a.taskId with
          | some r => r
          | none => s.logStore.length
        let p : LoopProc :=
          { args := a, clientRef := cref, taskPos := pos, logsRef := lref, index := 0,
            pc := .delaying }
        match viewOf s1 p with
        | none => s
        | some v =>
          let v1 := loopStart a now v
          let s2 := commitCheck s1 p v1
          { s2 with loops := s2.loops ++ [{ p with index := v1.index, pc := v1.pc }] }

/-- The `i`-th suspended call resumes after a `delay`. -/
def loopWake (i : Nat) (now : Instant) (s : SystemState) : SystemState :=
  match s.loops[i]? with
  | none => s
  | some p =>
    match p.pc, viewOf s p with
    | .delaying, some v =>
      let v1 := loopCheck p.args now v
      let s1 := commitCheck s p v1
      { s1 with loops := s1.loops.set i { p with index := v1.index, pc := v1.pc } }
    | _, _ => s

/-- The send awaited by the `i`-th suspended call settles. -/
def loopSettle (i : Nat) (now : Instant) (outcome : SendOutcome) (s : SystemState) :
    SystemState :=
  match s.loops[i]? with
  | none => s
  | some p =>
    match p.pc, viewOf s p with
    | .sending msg timestamp messageNumber cycle, some v =>
      let v1 := loopSendSettled p.args now outcome msg timestamp messageNumber cycle v
      let s1 := registerLogs (storeView s p v1) p
      { s1 with loops := s1.loops.set i { p with index := v1.index, pc := v1.pc } }
    | _, _ => s

/-! ## Request handlers -/

/-- What `/code` receives and what its collaborators answer: the `number` query
parameter, the caller's address, the identifier produced by
`generateShortSessionId`, whether creating the socket succeeds, whether the stored
credentials are already registered, and the pairing code (`none` when
`requestPairingCode` throws). -/
structure CodeRequest where
  number : String
  userIP : String
  sessionId : String
  socketOk : Bool
  registered : Bool
  pairingCode : Option String
  deriving DecidableEq, Repr

/-- The page sent by `/code`. -/
inductive CodeResponse
  | pairingCode (code : String) (sessionId : String)
  | noBody
  | pairingError
  deriving DecidableEq, Repr

/-- `app.get("/code")`: create a socket; for unregistered credentials request a
pairing code, register the session under the new id and point the caller's address
at it; then attach the connection listener. -/
def codeHandler (r : CodeRequest) (now : Instant) (s : SystemState) :
    CodeResponse × SystemState :=
  let num := digitsOnly r.number
  let sessionPath := "temp/" ++ r.sessionId
  let waClient := s.sockets.length
  let sock : Socket :=
    { sessionId := r.sessionId, num := num, sessionPath := sessionPath, listener := .pairing }
  if !r.socketOk then (.pairingError, s)
  else if r.registered then (.noBody, { s with sockets := s.sockets ++ [sock] })
  else
    match r.pairingCode with
    | none => (.pairingError, s)
    | some code =>
      (.pairingCode code r.sessionId,
        { s with
          clientStore := s.clientStore ++
            [{ client := waClient, number := num, authPath := sessionPath, isConnected := false,
               tasks := [], lastActivity := now.epochMs }]
          activeClients := mapSet s.activeClients r.sessionId s.clientStore.length
          userSessions := mapSet s.userSessions r.userIP r.sessionId
          sockets := s.sockets ++ [sock] })

/-- The uploaded `messageFile` as `/send-message` sees it. -/
inductive UploadedFile
  /-- No file in the request (`req.file` is `undefined`). -/
  | missing
  /-- A file whose `readFileSync` throws an error with the given message. -/
  | unreadable (errMessage : String)
  /-- A file with the given UTF-8 text. -/
  | readable (text : String)
  deriving DecidableEq, Repr

/-- The fields of a `/send-message` request. -/
structure SendMessageRequest where
  userIP : String
  target : Option String
  targetType : Option String
  delaySec : Option String
  pfx : Option String
  messageFile : UploadedFile
  deriving DecidableEq, Repr

/-- The page sent by `/send-message`. -/
inductive SendMessageResponse
  | noActiveSession
  | missingFields
  | emptyFile
  | redirectToStatus (sessionId : String)
  | error (errMessage : String)
  deriving DecidableEq, Repr

/-- The `taskInfo` object literal of `/send-message`. -/
def newTask (taskId target targetType : String) (messages : List String) (delaySec : String)
    (pfx : Option String) (now : Instant) : TaskInfo :=
  { taskId := taskId, target := target, targetType := targetType, messages := messages,
    delaySec := delaySec, pfx := pfx, isSending := true, stopRequested := false,
    totalMessages := messages.length, sentMessages := 0, currentMessageIndex := 0,
    startTime := now.epochMs, currentCycle := none, endTime := none, error := none }

/-- `app.post("/send-message")`, with `taskId` the identifier produced by
`generateShortTaskId`. -/
def sendMessageHandler (r : SendMessageRequest) (taskId : String) (now : Instant)
    (s : SystemState) : SendMessageResponse × SystemState :=
  match mapGet s.userSessions r.userIP with
  | none => (.noActiveSession, s)
  | some sessionId =>
    if sessionId = "" || !mapHas s.activeClients sessionId then (.noActiveSession, s)
    else
      match mapGet s.activeClients sessionId with
      | none => (.noActiveSession, s)
      | some cref =>
        match s.clientStore[cref]? with
        | none => (.noActiveSession, s)
        | some clientInfo =>
          if !jsTruthy r.target || r.messageFile == .missing || !jsTruthy r.targetType
              || !jsTruthy r.delaySec then (.missingFields, s)
          else
            match r.target, r.targetType, r.delaySec, r.messageFile with
            | some _, some _, some _, .unreadable errMessage =>
              (.error errMessage,
                { s with systemStats := { s.systemStats with errors := s.systemStats.errors + 1 } })
            | some target, some targetType, some delaySec, .readable text =>
              let messages := parseMessages text
              if messages.length = 0 then (.emptyFile, s)
              else
                let taskInfo := newTask taskId target targetType messages delaySec r.pfx now
                let s1 : SystemState :=
                  { s with
                    clientStore := s.clientStore.set cref
                      { clientInfo with
                        tasks := clientInfo.tasks ++ [taskInfo]
                        lastActivity := now.epochMs }
                    logStore := s.logStore ++ [[]]
                    taskLogs := mapSet s.taskLogs taskId s.logStore.length
                    systemStats :=
                      { s.systemStats with
                        totalMessagesSent := s.systemStats.totalMessagesSent + messages.length
                        totalTasks := s.systemStats.totalTasks + 1 } }
                (.redirectToStatus sessionId,
                  sendMessagesLoop
                    { sessionId := sessionId, taskId := taskId, messages := messages,
                      waClient := clientInfo.client, target := target,
                      targetType := targetType, delaySec := delaySec, pfx := r.pfx,
                      senderNumber := clientInfo.number }
                    now s1)
            | _, _, _, _ => (.missingFields, s)

/-- The page sent by `/stop-session` and `/stop-task`. -/
inductive StopResponse
  | invalidSession
  | taskNotFound
  | stopped
  deriving DecidableEq, Repr

/-- `app.post("/stop-session")`: every task of the session is stopped, the session is
deleted from `activeClients`, and the first `userSessions` entry pointing to it is
deleted (`client.end()` is taken not to throw). -/
def stopSessionHandler (sessionId : String) (now : Instant) (s : SystemState) :
    StopResponse × SystemState :=
  match mapGet s.activeClients sessionId with
  | none => (.invalidSession, s)
  | some cref =>
    (.stopped,
      { s with
        clientStore :=
          match s.clientStore[cref]? with
          | some c => s.clientStore.set cref { c with tasks := c.tasks.map (stopTaskInfo now) }
          | none => s.clientStore
        activeClients := mapDelete s.activeClients sessionId
        userSessions := deleteFirstOwner s.userSessions sessionId })

/-- `logs.unshift(entry); taskLogs.set(taskId, logs)` where `logs` is
`taskLogs.get(taskId) || []`. -/
def unshiftTaskLog (taskId : String) (entry : LogEntry) (s : SystemState) : SystemState :=
  match mapGet s.taskLogs taskId with
  | some ref =>
    { s with
      logStore :=
        match s.logStore[ref]? with
        | some logs => s.logStore.set ref (entry :: logs)
        | none => s.logStore
      taskLogs := mapSet s.taskLogs taskId ref }
  | none =>
    { s with
      logStore := s.logStore ++ [[entry]]
      taskLogs := mapSet s.taskLogs taskId s.logStore.length }

/-- `app.post("/stop-task")`. -/
def stopTaskHandler (sessionId taskId : String) (now : Instant) (s : SystemState) :
    StopResponse × SystemState :=
  match mapGet s.activeClients sessionId with
  | none => (.invalidSession, s)
  | some cref =>
    match s.clientStore[cref]? with
    | none => (.invalidSession, s)
    | some c =>
      match c.tasks.findIdx? (fun t => t.taskId == taskId) with
      | none => (.taskNotFound, s)
      | some pos =>
        match c.tasks[pos]? with
        | none => (.taskNotFound, s)
        | some t =>
          let t1 := stopTaskInfo now t
          let s1 : SystemState :=
            { s with clientStore := s.clientStore.set cref { c with tasks := c.tasks.set pos t1 } }
          (.stopped, unshiftTaskLog taskId (stopLog now t1) s1)

/-! ## Periodic work -/

/-- The idle threshold of the cleanup timer, `24 * 60 * 60 * 1000` ms. -/
def idleLimitMs : Nat := 24 * 60 * 60 * 1000

/-- The first loop of the cleanup timer: every session whose `lastActivity` is set
and older than the limit is deleted from `activeClients`, together with the first
`userSessions` entry that points to it (`client.end()` is taken not to throw; the
natural-number subtraction agrees with the comparison in the source, which is false
when `now` is before `lastActivity`). -/
def cleanupSessions (now : Nat) (s : SystemState) : SystemState :=
  s.activeClients.foldl
    (fun st entry =>
      match st.clientStore[entry.2]? with
      | some clientInfo =>
        if clientInfo.lastActivity ≠ 0 ∧ now - clientInfo.lastActivity > idleLimitMs then
          { st with
            activeClients := mapDelete st.activeClients entry.1
            userSessions := deleteFirstOwner st.userSessions entry.1 }
        else st
      | none => st)
    s

/-- `if (logs.length > 200) logs.splice(200)`. -/
def truncateLogs (logs : List LogEntry) : List LogEntry :=
  if logs.length > 200 then logs.take 200 else logs

/-- The second loop of the cleanup timer: every array in `taskLogs` is cut to 200. -/
def cleanupLogs (s : SystemState) : SystemState :=
  { s with
    logStore :=
      s.taskLogs.foldl
        (fun store entry =>
          match store[entry.2]? with
          | some logs => store.set entry.2 (truncateLogs logs)
          | none => store)
        s.logStore }

/-- One run of the hourly cleanup timer. -/
def cleanupTick (now : Nat) (s : SystemState) : SystemState :=
  cleanupLogs (cleanupSessions now s)

/-- One run of the five-minute monitoring timer: `totalSessions` and `totalTasks`
are overwritten with the current sizes. -/
def monitorTick (s : SystemState) : SystemState :=
  { s with
    systemStats :=
      { s.systemStats with
        totalSessions := s.activeClients.length
        totalTasks :=
          s.activeClients.foldl
            (fun acc entry =>
              acc + (match s.clientStore[entry.2]? with
                | some clientInfo => clientInfo.tasks.length
                | none => 0))
            0 } }

/-! ## Connection listeners and reconnection -/

/-- A `connection.update` event: `open`, `close` with the status code found at
`lastDisconnect?.error?.output?.statusCode` (if any), or any other update. -/
inductive ConnUpdate
  | opened
  | closed (statusCode : Option Nat)
  | other
  deriving DecidableEq, Repr

/-- The `forEach` of the reconnect listener: every task of the listener's
`clientInfo` with `isSending && !stopRequested` and a non-empty message list gets a
new call of `sendMessagesLoop`. -/
def resumeTasks (sessionId : String) (waClient cref : Nat) (now : Instant) (s : SystemState) :
    SystemState :=
  match s.clientStore[cref]? with
  | none => s
  | some c0 =>
    (List.range c0.tasks.length).foldl
      (fun st pos =>
        match st.clientStore[cref]? with
        | some c =>
          match c.tasks[pos]? with
          | some task =>
            if task.isSending && !task.stopRequested && decide (task.messages.length > 0) then
              sendMessagesLoop
                { sessionId := sessionId, taskId := task.taskId, messages := task.messages,
                  waClient := waClient, target := task.target, targetType := task.targetType,
                  delaySec := task.delaySec, pfx := task.pfx, senderNumber := c.number }
                now st
            else st
          | none => st
        | none => st)
      s

/-- Schedule `initializeClient(sessionId, num, sessionPath)` unless the close carries
status code 401. -/
def scheduleReconnect (sock : Socket) (statusCode : Option Nat) (s : SystemState) :
    SystemState :=
  if statusCode ≠ some 401 then
    { s with
      pendingInits := s.pendingInits ++
        [{ sessionId := sock.sessionId, num := sock.num, sessionPath := sock.sessionPath }] }
  else s

/-- Set `isConnected` (and `lastActivity` when given) on a stored `clientInfo`. -/
def setConnected (cref : Nat) (up : Bool) (activity : Option Nat) (s : SystemState) :
    SystemState :=
  match s.clientStore[cref]? with
  | some c =>
    { s with
      clientStore := s.clientStore.set cref
        { c with isConnected := up, lastActivity := activity.getD c.lastActivity } }
  | none => s

/-- The `connection.update` listener of socket `h` receives an update. -/
def connectionUpdate (h : Nat) (u : ConnUpdate) (now : Instant) (s : SystemState) :
    SystemState :=
  match s.sockets[h]? with
  | none => s
  | some sock =>
    match sock.listener, u with
    | .pairing, .opened =>
      match mapGet s.activeClients sock.sessionId with
      | some cref => setConnected cref true (some now.epochMs) s
      | none => s
    | .pairing, .closed statusCode =>
      match mapGet s.activeClients sock.sessionId with
      | some cref => scheduleReconnect sock statusCode (setConnected cref false none s)
      | none => s
    | .reconnect cref, .opened =>
      resumeTasks sock.sessionId h cref now (setConnected cref true (some now.epochMs) s)
    | .reconnect cref, .closed statusCode =>
      scheduleReconnect sock statusCode (setConnected cref false none s)
    | _, .other => s

/-- The `i`-th scheduled `initializeClient` runs.  When creating the socket fails
the call is scheduled again; otherwise the session's `clientInfo` (the registered
one, or a new object when the id is not registered) gets the new socket, is
(re-)registered under the session id, and the reconnect listener is attached. -/
def initializeClient (i : Nat) (socketOk : Bool) (now : Instant) (s : SystemState) :
    SystemState :=
  match s.pendingInits[i]? with
  | none => s
  | some p =>
    if !socketOk then s
    else
      let waClient := s.sockets.length
      let cref : Nat :=
        match mapGet s.activeClients p.sessionId with
        | some r => r
        | none => s.clientStore.length
      let store : List ClientInfo :=
        match mapGet s.activeClients p.sessionId with
        | some r =>
          match s.clientStore[r]? with
          | some c => s.clientStore.set r { c with client := waClient }
          | none => s.clientStore
        | none =>
          s.clientStore ++
            [{ client := waClient, number := p.num, authPath := p.sessionPath,
               isConnected := false, tasks := [], lastActivity := now.epochMs }]
      { s with
        clientStore := store
        activeClients := mapSet s.activeClients p.sessionId cref
        sockets := s.sockets ++
          [{ sessionId := p.sessionId, num := p.num, sessionPath := p.sessionPath,
             listener := .reconnect cref }]
        pendingInits := s.pendingInits.eraseIdx i }

/-! ## The process as a transition system -/

/-- Everything that can happen to the process. -/
inductive SysEvent
  | code (r : CodeRequest) (now : Instant)
  | sendMessage (r : SendMessageRequest) (taskId : String) (now : Instant)
  | stopSession (sessionId : String) (now : Instant)
  | stopTask (sessionId taskId : String) (now : Instant)
  | cleanup (now : Nat)
  | monitor
  | connection (socket : Nat) (u : ConnUpdate) (now : Instant)
  | reconnect (i : Nat) (socketOk : Bool) (now : Instant)
  | wake (i : Nat) (now : Instant)
  | settle (i : Nat) (now : Instant) (outcome : SendOutcome)
  deriving DecidableEq, Repr

/-- The state after an event. -/
def sysStep (s : SystemState) : SysEvent → SystemState
  | .code r now => (codeHandler r now s).2
  | .sendMessage r taskId now => (sendMessageHandler r taskId now s).2
  | .stopSession sessionId now => (stopSessionHandler sessionId now s).2
  | .stopTask sessionId taskId now => (stopTaskHandler sessionId taskId now s).2
  | .cleanup now => cleanupTick now s
  | .monitor => monitorTick s
  | .connection h u now => connectionUpdate h u now s
  | .reconnect i socketOk now => initializeClient i socketOk now s
  | .wake i now => loopWake i now s
  | .settle i now outcome => loopSettle i now outcome s

/-- The state after a sequence of events. -/
def sysRun (s : SystemState) (es : List SysEvent) : SystemState := es.foldl sysStep s

/-- The log array registered for a task id, if any. -/
def taskLogOf (s : SystemState) (taskId : String) : Option (List LogEntry) :=
  match mapGet s.taskLogs taskId with
  | some ref => s.logStore[ref]?
  | none => none

/-! ## Observations and specification-side definitions -/

/-- The text the `i`-th call of the loop is sending right now, if it is sending. -/
def textInFlight (s : SystemState) (i : Nat) : Option String :=
  match s.loops[i]? with
  | some p =>
    match p.pc with
    | .sending msg _ _ _ => msg
    | _ => none
  | none => none

/-- The `tasks` array of a registered session (empty when the id is not registered). -/
def tasksOf (s : SystemState) (sessionId : String) : List TaskInfo :=
  match mapGet s.activeClients sessionId with
  | some cref =>
    match s.clientStore[cref]? with
    | some c => c.tasks
    | none => []
  | none => []

/-- The buffer after the scheduler has appended the given entries, oldest first, to
`logs`. -/
def appendAll (logs : List LogEntry) (entries : List LogEntry) : List LogEntry :=
  entries.foldl (fun acc e => unshiftCapped e acc) logs

/-- A prefix that is only white space. -/
def isBlank (p : String) : Bool := p.data.all isJsWhiteSpace

/-- The composition as the specification words it: the message alone when the
prefix is absent, empty or blank, and otherwise the prefix followed directly by the
message. -/
def specComposeText (pfx : Option String) (m : String) : String :=
  match pfx with
  | some p => if isBlank p then m else p ++ m
  | none => m

/-- Invariant of a task driven by a single call of the loop: the local `index` is the
stored cursor, the cursor is the sent count modulo the number of messages, and the
locals of a send in flight were computed from the current counters. -/
def LoopInv (a : LoopArgs) (v : LoopView) : Prop :=
  v.index = v.taskInfo.currentMessageIndex ∧
  v.taskInfo.currentMessageIndex = v.taskInfo.sentMessages % a.messages.length ∧
  ∀ msg ts mn cy, v.pc = .sending msg ts mn cy →
    mn = v.taskInfo.sentMessages + 1 ∧ cy = v.taskInfo.sentMessages / a.messages.length + 1 ∧
    msg = composeText a.pfx (a.messages[v.index]?)

/-- The value of `currentCycle` on a task of `n` messages after `k` successful sends by
one call of the loop: unset before the first send, then the 1-based number of the
pass over the list that contains the `k`-th send. -/
def recordedCycle (k n : Nat) : Option Nat :=
  if k = 0 then none else some ((k - 1) / n + 1)

/-! ## Concrete inputs used in examples -/

/-- A clock reading at `n` ms. -/
def at_ (n : Nat) : Instant := { epochMs := n, localeString := "T" ++ toString n }

/-- A pairing request from address `10.0.0.1` that yields session `s1`. -/
def pairingRequest : CodeRequest :=
  { number := "+91 80000 00000", userIP := "10.0.0.1", sessionId := "s1", socketOk := true,
    registered := false, pairingCode := some "ABCD-1234" }

/-- The submission of the two-message example:
`target = "9190000000"`, kind user, messages `a`, `b`, delay 5, prefix `Hi `. -/
def twoMessageRequest : SendMessageRequest :=
  { userIP := "10.0.0.1", target := some "9190000000", targetType := some "number",
    delaySec := some "5", pfx := some "Hi ", messageFile := .readable "a\nb" }

/-- A submission of five messages without prefix. -/
def fiveMessageRequest : SendMessageRequest :=
  { userIP := "10.0.0.1", target := some "9190000000", targetType := some "number",
    delaySec := some "5", pfx := none, messageFile := .readable "m0\nm1\nm2\nm3\nm4" }

/-- A submission whose file has only blank lines. -/
def blankFileRequest : SendMessageRequest :=
  { userIP := "10.0.0.1", target := some "9190000000", targetType := some "number",
    delaySec := some "5", pfx := some "Hi ", messageFile := .readable " \n\n\t" }

/-- The process after pairing from `10.0.0.1` and the socket opening. -/
def pairedState : SystemState :=
  sysRun (initialState (freshStats 0))
    [.code pairingRequest (at_ 1), .connection 0 .opened (at_ 2)]

/-- The process after the two-message task has been submitted to the paired,
connected session. -/
def twoMessageState : SystemState :=
  sysRun pairedState [.sendMessage twoMessageRequest "t1" (at_ 3)]

/-- The five-message task after three successful sends, a connection loss observed
by the loop, a reconnection attempt and the re-opening of the new socket. -/
def reconnectedState : SystemState :=
  sysRun pairedState
    [.sendMessage fiveMessageRequest "t1" (at_ 3),
     .settle 0 (at_ 4) .ok, .wake 0 (at_ 5), .settle 0 (at_ 6) .ok, .wake 0 (at_ 7),
     .settle 0 (at_ 8) .ok,
     .connection 0 (.closed (some 428)) (at_ 9), .wake 0 (at_ 10),
     .reconnect 0 true (at_ 11), .connection 1 .opened (at_ 12)]

/-- A task submitted to a session that is not yet connected, then stopped 201 times. -/
def repeatedStopEvents : List SysEvent :=
  [.code pairingRequest (at_ 1), .sendMessage twoMessageRequest "t1" (at_ 3)]
    ++ List.replicate 201 (.stopTask "s1" "t1" (at_ 10))

/-- The view of a fresh two-message task on a connected session. -/
def twoMessageView : LoopView :=
  { isConnected := true, lastActivity := 3
    taskInfo := newTask "t1" "9190000000" "number" ["a", "b"] "5" (some "Hi ") (at_ 3)
    logs := [], systemStats := freshStats 0, index := 0, pc := .delaying }

/-- The arguments of the loop of the two-message task. -/
def twoMessageArgs : LoopArgs :=
  { sessionId := "s1", taskId := "t1", messages := ["a", "b"], waClient := 0,
    target := "9190000000", targetType := "number", delaySec := "5", pfx := some "Hi ",
    senderNumber := "918000000000" }

/-- The view of a five-message task at cursor 3 whose session has lost its
connection. -/
def fiveMessageView : LoopView :=
  { isConnected := false, lastActivity := 8
    taskInfo :=
      { newTask "t1" "9190000000" "number" ["m0", "m1", "m2", "m3", "m4"] "5" none (at_ 3) with
        sentMessages := 3, currentMessageIndex := 3, currentCycle := some 1 }
    logs := [], systemStats := freshStats 0, index := 3, pc := .delaying }

/-- The arguments of the loop of the five-message task. -/
def fiveMessageArgs : LoopArgs :=
  { sessionId := "s1", taskId := "t1", messages := ["m0", "m1", "m2", "m3", "m4"], waClient := 0,
    target := "9190000000", targetType := "number", delaySec := "5", pfx := none,
    senderNumber := "918000000000" }

/-- Three successful sends of loop 0, with the inter-message delays between them. -/
def threeSends : List SysEvent :=
  [.settle 0 (at_ 4) .ok, .wake 0 (at_ 5), .settle 0 (at_ 6) .ok, .wake 0 (at_ 7),
   .settle 0 (at_ 8) .ok]

/-- The `currentCycle` of every task of session `s1`. -/
def cyclesOf (s : SystemState) : List (Option Nat) :=
  (tasksOf s "s1").map (fun t => t.currentCycle)

/-- Log entries numbered `0 .. n-1`, in the order they are appended. -/
def numberedEntries (n : Nat) : List LogEntry :=
  (List.range n).map (fun i => waitingLog (at_ i))

/-! ## Status pages -/

/-- The status label of a task on `/session-status`. -/
inductive TaskStatus
  | running
  | stopped
  | completed
  deriving DecidableEq, Repr

/-- The label chosen by `task.isSending ? ... : task.stopRequested ? ... : ...`. -/
def taskStatus (t : TaskInfo) : TaskStatus :=
  if t.isSending then .running else if t.stopRequested then .stopped else .completed

/-- The values `/session-status` shows for one task (the cycle only when it is
truthy); the progress bar, computed from `sentMessages` and `totalMessages`, is left
out. -/
structure TaskRow where
  taskId : String
  target : String
  targetType : String
  status : TaskStatus
  sentMessages : Nat
  shownCycle : Option Nat
  totalMessages : Nat
  startTime : Nat
  deriving DecidableEq, Repr

/-- The row of a task. -/
def taskRow (t : TaskInfo) : TaskRow :=
  { taskId := t.taskId, target := t.target, targetType := t.targetType, status := taskStatus t,
    sentMessages := t.sentMessages,
    shownCycle :=
      match t.currentCycle with
      | some c => if c = 0 then none else some c
      | none => none
    totalMessages := t.totalMessages, startTime := t.startTime }

/-- The page sent by `/session-status`. -/
inductive SessionStatusResponse
  | sessionNotFound
  | page (sessionId number : String) (isConnected : Bool) (lastActivity : Nat)
      (tasks : List TaskRow)
  deriving DecidableEq, Repr

/-- `app.get("/session-status")`; an absent `sessionId` parameter is given as the
empty string (both are falsy). -/
def sessionStatusHandler (sessionId : String) (s : SystemState) : SessionStatusResponse :=
  if sessionId = "" || !mapHas s.activeClients sessionId then .sessionNotFound
  else
    match mapGet s.activeClients sessionId with
    | some cref =>
      match s.clientStore[cref]? with
      | some clientInfo =>
        .page sessionId clientInfo.number clientInfo.isConnected clientInfo.lastActivity
          (clientInfo.tasks.map taskRow)
      | none => .sessionNotFound
    | none => .sessionNotFound

/-- One element of the array sent by `/api/sessions`. -/
structure SessionSummary where
  sessionId : String
  number : String
  isConnected : Bool
  lastActivity : Nat
  taskCount : Nat
  deriving DecidableEq, Repr

/-- `app.get("/api/sessions")`: one summary per entry of `activeClients`, in order. -/
def listSessions (s : SystemState) : List SessionSummary :=
  s.activeClients.filterMap
    (fun entry =>
      match s.clientStore[entry.2]? with
      | some clientInfo =>
        some { sessionId := entry.1, number := clientInfo.number,
               isConnected := clientInfo.isConnected, lastActivity := clientInfo.lastActivity,
               taskCount := clientInfo.tasks.length }
      | none => none)

/-- Representation invariant of the registry: `activeClients` is a `Map` (its keys are
distinct) whose values are objects of the store. -/
def RegistryOk (s : SystemState) : Prop :=
  (s.activeClients.map Prod.fst).Nodup ∧ ∀ e ∈ s.activeClients, e.2 < s.clientStore.length

/-- The session is idle for the cleanup timer at time `now`. -/
def isIdle (now : Nat) (c : ClientInfo) : Prop :=
  c.lastActivity ≠ 0 ∧ now - c.lastActivity > idleLimitMs

/-- A task that has been stopped: stop requested and not sending. -/
def isStopped (t : TaskInfo) : Prop := t.stopRequested = true ∧ t.isSending = false

/-- A task that is running: sending and no stop requested. -/
def isRunning (t : TaskInfo) : Prop := t.isSending = true ∧ t.stopRequested = false

/-- The step from `s` to `s1` leaves the registry, the owner index and the number of
stored `clientInfo` objects as they are. -/
def SameRegistry (s s1 : SystemState) : Prop :=
  s1.activeClients = s.activeClients ∧ s1.userSessions = s.userSessions ∧
    s1.clientStore.length = s.clientStore.length

/-- One pass of the first loop of the cleanup timer, for one registry entry. -/
def evictIfIdle (now : Nat) (st : SystemState) (entry : String × Nat) : SystemState :=
  match st.clientStore[entry.2]? with
  | some clientInfo =>
    if clientInfo.lastActivity ≠ 0 ∧ now - clientInfo.lastActivity > idleLimitMs then
      { st with
        activeClients := mapDelete st.activeClients entry.1
        userSessions := deleteFirstOwner st.userSessions entry.1 }
    else st
  | none => st

/-- The state `/send-message` has built when it calls `sendMessagesLoop`: the new task
pushed on the session's `tasks`, `lastActivity` updated, an empty array registered in
`taskLogs`, and the two counters increased. -/
def registerTask (cref : Nat) (clientInfo : ClientInfo) (taskInfo : TaskInfo) (now : Instant)
    (s : SystemState) : SystemState :=
  { s with
    clientStore := s.clientStore.set cref
      { clientInfo with
        tasks := clientInfo.tasks ++ [taskInfo]
        lastActivity := now.epochMs }
    logStore := s.logStore ++ [[]]
    taskLogs := mapSet s.taskLogs taskInfo.taskId s.logStore.length
    systemStats :=
      { s.systemStats with
        totalMessagesSent := s.systemStats.totalMessagesSent + taskInfo.messages.length
        totalTasks := s.systemStats.totalTasks + 1 } }

/-- The arguments `/send-message` passes to `sendMessagesLoop` for a new task. -/
def submitArgs (sessionId : String) (clientInfo : ClientInfo) (taskInfo : TaskInfo) : LoopArgs :=
  { sessionId := sessionId, taskId := taskInfo.taskId, messages := taskInfo.messages,
    waClient := clientInfo.client, target := taskInfo.target, targetType := taskInfo.targetType,
    delaySec := taskInfo.delaySec, pfx := taskInfo.pfx, senderNumber := clientInfo.number }

/-- The view a new call of the loop has of its objects before its first pass. -/
def initialView (c : ClientInfo) (t : TaskInfo) (logs : List LogEntry) (stats : SystemStats) :
    LoopView :=
  { isConnected := c.isConnected, lastActivity := c.lastActivity, taskInfo := t, logs := logs,
    systemStats := stats, index := 0, pc := .delaying }

/-! ## Further concrete inputs -/

/-- The two-message submission with the given delay field. -/
def delayRequest (d : String) : SendMessageRequest :=
  { twoMessageRequest with delaySec := some d }

/-- The two-message submission with the given target kind. -/
def kindRequest (k : String) : SendMessageRequest :=
  { twoMessageRequest with targetType := some k }

/-- The process after pairing from `10.0.0.1`, before the socket has opened. -/
def unopenedState : SystemState :=
  sysRun (initialState (freshStats 0)) [.code pairingRequest (at_ 1)]

/-- A clock reading more than 24 hours after the submission at 3 ms. -/
def nextDay : Nat := 3 + idleLimitMs + 1

/-- The two-message task whose first send fails, and then the cleanup timer running
more than 24 hours after the last activity of the session. -/
def idleSweepState : SystemState :=
  sysRun twoMessageState
    [.settle 0 (at_ 4) (.rejected (some "rate-overlimit")), .cleanup nextDay]

/-- The two-message task, then a close of the socket with status code 401. -/
def unauthorizedState : SystemState :=
  sysRun twoMessageState [.connection 0 (.closed (some 401)) (at_ 4)]

/-- The flags and end time of the tasks of the `i`-th stored `clientInfo`. -/
def taskFlags (s : SystemState) (i : Nat) : List (Bool × Bool × Option Nat) :=
  match s.clientStore[i]? with
  | some c => c.tasks.map (fun t => (t.isSending, t.stopRequested, t.endTime))
  | none => []

/-- The `clientInfo` of session `s1` in `pairedState`. -/
def pairedClient : ClientInfo :=
  { client := 0, number := "918000000000", authPath := "temp/s1", isConnected := true,
    tasks := [], lastActivity := 2 }

/-- The process after the two-message task's first send has failed. -/
def failedSendState : SystemState :=
  sysRun twoMessageState [.settle 0 (at_ 4) (.rejected (some "rate-overlimit"))]

/-- The `clientInfo` of session `s1` in `twoMessageState`. -/
def twoMessageClient : ClientInfo :=
  { pairedClient with
    tasks := [newTask "t1" "9190000000" "number" ["a", "b"] "5" (some "Hi ") (at_ 3)]
    lastActivity := 3 }

/-- The socket created by the pairing request of session `s1`, with the pairing
listener attached. -/
def pairingSocket : Socket :=
  { sessionId := "s1", num := "918000000000", sessionPath := "temp/s1", listener := .pairing }

/-! ## Stopped tasks -/

/-- The call is suspended inside `waClient.sendMessage`. -/
def LoopPc.inFlight : LoopPc → Bool
  | .sending .. => true
  | _ => false

/-- Number of sends the call has started and not yet seen settle (0 or 1). -/
def sendsInFlight (v : LoopView) : Nat := if v.pc.inFlight then 1 else 0

/-- The two-message task right after its loop has started on a connected session:
the first send is in flight. -/
def sendingView : LoopView := loopStart twoMessageArgs (at_ 3) twoMessageView

/-- The send in flight resolves and the delay after it elapses. -/
def settleThenWake : List LoopEvent := [.sendSettled (at_ 5) .ok, .wake (at_ 6)]

/-- Later timer and settle events reaching a call that has ended. -/
def lateEvents : List LoopEvent :=
  [.wake (at_ 7), .sendSettled (at_ 8) .ok, .connectionUpdate true (at_ 9), .wake (at_ 10)]

/-- The two-message task stopped while its first send is in flight, followed by the
send resolving, the delay elapsing, and further timer and settle events. -/
def stoppedInFlightEvents : List SysEvent :=
  [.stopTask "s1" "t1" (at_ 4), .settle 0 (at_ 5) .ok, .wake 0 (at_ 6), .wake 0 (at_ 7),
   .settle 0 (at_ 8) .ok, .wake 0 (at_ 9)]

/-- The types of the entries in the log array registered for a task id, newest
first. -/
def logTypes (s : SystemState) (taskId : String) : List LogType :=
  ((taskLogOf s taskId).getD []).map (fun e => e.type)

/-- The pair `(sentMessages, currentMessageIndex)` of every task of a session. -/
def countersOf (s : SystemState) (sessionId : String) : List (Nat × Nat) :=
  (tasksOf s sessionId).map (fun t => (t.sentMessages, t.currentMessageIndex))

/-! ## Definitions for reconnection, owners, counters and group ids -/

/-- `s.replace(pat, "")` on character lists, for a string pattern: the first
occurrence of `pat` is removed. -/
def removeFirstChars (pat : List Char) : List Char → List Char
  | [] => []
  | c :: cs =>
    if pat.isPrefixOf (c :: cs) then (c :: cs).drop pat.length
    else c :: removeFirstChars pat cs

/-- JavaScript `s.replace(pat, "")` with a string pattern. -/
def jsRemoveFirst (s pat : String) : String := String.mk (removeFirstChars pat.data s.data)

/-- The UID shown by `/get-groups`: `groupId.replace('@g.us', '')`. -/
def cleanGroupId (groupId : String) : String := jsRemoveFirst groupId "@g.us"

/-- The first send of the two-message task rejects with the given message text. -/
def rejectedWith (m : String) : List SysEvent := [.settle 0 (at_ 4) (.rejected (some m))]

/-- The `isConnected` flag of every stored client. -/
def connectedFlags (s : SystemState) : List Bool := s.clientStore.map (fun c => c.isConnected)

/-- The flags, end time and error of every task of a session. -/
def taskOutcomes (s : SystemState) (sessionId : String) :
    List (Bool × Bool × Option Nat × Option String) :=
  (tasksOf s sessionId).map (fun t => (t.isSending, t.stopRequested, t.endTime, t.error))

/-- The call `initializeClient(sessionId, num, sessionPath)` that the listener of a
socket schedules. -/
def reconnectCall (sock : Socket) : PendingInit :=
  { sessionId := sock.sessionId, num := sock.num, sessionPath := sock.sessionPath }

/-- The same close event delivered `n` times to the listener of socket `h`. -/
def repeatedClose (h : Nat) (statusCode : Option Nat) (now : Instant) (n : Nat) : List SysEvent :=
  List.replicate n (.connection h (.closed statusCode) now)

/-- Three rounds of close (status code 428), reconnection and re-opening for session
`s1`, each close arriving on the socket of the latest reconnection. -/
def threeReconnects : List SysEvent :=
  [.connection 0 (.closed (some 428)) (at_ 4), .reconnect 0 true (at_ 5),
   .connection 1 .opened (at_ 6),
   .connection 1 (.closed (some 428)) (at_ 7), .reconnect 0 true (at_ 8),
   .connection 2 .opened (at_ 9),
   .connection 2 (.closed (some 428)) (at_ 10)]

/-- Consistency of the owner index: `userSessions` is a `Map` (distinct keys), no two
owners point to the same session id, and every entry points to a registered
session. -/
def OwnersOk (s : SystemState) : Prop :=
  (s.userSessions.map Prod.fst).Nodup ∧ (s.userSessions.map Prod.snd).Nodup ∧
    ∀ e ∈ s.userSessions, e.2 ∈ s.activeClients.map Prod.fst

/-- A pairing request arrives with a session id that is not registered (the id
produced by `generateShortSessionId` is new); other events are not constrained. -/
def freshCode (s : SystemState) : SysEvent → Bool
  | .code r _ => !mapHas s.activeClients r.sessionId
  | _ => true

/-- Every pairing request of the run arrives with a session id that is not registered
at that moment. -/
def freshRun : SystemState → List SysEvent → Bool
  | _, [] => true
  | s, e :: es => freshCode s e && freshRun (sysStep s e) es

/-- The test of the reconnect listener's `forEach`:
`task.isSending && !task.stopRequested`, then `messages.length > 0`. -/
def resumable (task : TaskInfo) : Bool :=
  task.isSending && !task.stopRequested && decide (task.messages.length > 0)

/-- The arguments the reconnect listener passes to `sendMessagesLoop` for a task. -/
def resumeArgs (sessionId : String) (waClient : Nat) (c : ClientInfo) (task : TaskInfo) :
    LoopArgs :=
  { sessionId := sessionId, taskId := task.taskId, messages := task.messages,
    waClient := waClient, target := task.target, targetType := task.targetType,
    delaySec := task.delaySec, pfx := task.pfx, senderNumber := c.number }

/-- The suspended call that a resumed task of a connected session gets: it holds the
task at position `pos` and is sending the message at the task's stored cursor. -/
def resumedCall (sessionId : String) (waClient cref : Nat) (c : ClientInfo) (now : Instant)
    (taskLogs : List (String × Nat)) (pos : Nat) (task : TaskInfo) : LoopProc :=
  { args := resumeArgs sessionId waClient c task, clientRef := cref, taskPos := pos,
    logsRef := (mapGet taskLogs task.taskId).getD 0, index := task.currentMessageIndex,
    pc := .sending (composeText task.pfx (task.messages[task.currentMessageIndex]?))
      now.localeString (task.sentMessages + 1)
      (cycleNumber task.sentMessages task.messages.length) }

/-- One call for every resumable task of the list, in order; `pos` is the position of
the first task of the list. -/
def resumedCalls (mk : Nat → TaskInfo → LoopProc) : Nat → List TaskInfo → List LoopProc
  | _, [] => []
  | pos, t :: ts => (if resumable t then [mk pos t] else []) ++ resumedCalls mk (pos + 1) ts

/-- The task at position `pos` of the stored client `cref` is stopped. -/
def StoppedAt (s : SystemState) (cref pos : Nat) : Prop :=
  ∃ c t, s.clientStore[cref]? = some c ∧ c.tasks[pos]? = some t ∧ isStopped t

/-- Every task that is stopped in `s` is stopped in `s1`. -/
def KeepsStopped (s s1 : SystemState) : Prop :=
  ∀ cref pos, StoppedAt s cref pos → StoppedAt s1 cref pos

/-- The state of `reconnectedState` just before the new socket opens. -/
def beforeReopen : SystemState :=
  sysRun pairedState
    [.sendMessage fiveMessageRequest "t1" (at_ 3),
     .settle 0 (at_ 4) .ok, .wake 0 (at_ 5), .settle 0 (at_ 6) .ok, .wake 0 (at_ 7),
     .settle 0 (at_ 8) .ok,
     .connection 0 (.closed (some 428)) (at_ 9), .wake 0 (at_ 10),
     .reconnect 0 true (at_ 11)]

/-- The socket created by the reconnection of session `s1`, with the reconnect
listener that closes over the stored client 0. -/
def reconnectSocket : Socket :=
  { sessionId := "s1", num := "918000000000", sessionPath := "temp/s1",
    listener := .reconnect 0 }

/-- The `clientInfo` of session `s1` in `beforeReopen`. -/
def beforeReopenClient : ClientInfo :=
  { client := 1, number := "918000000000", authPath := "temp/s1", isConnected := false,
    tasks := [fiveMessageView.taskInfo], lastActivity := 8 }

/-- As `reconnectedState`, but the task is stopped before the reconnection. -/
def stoppedBeforeReconnect : SystemState :=
  sysRun pairedState
    [.sendMessage fiveMessageRequest "t1" (at_ 3),
     .settle 0 (at_ 4) .ok, .wake 0 (at_ 5), .settle 0 (at_ 6) .ok, .wake 0 (at_ 7),
     .settle 0 (at_ 8) .ok,
     .connection 0 (.closed (some 428)) (at_ 9), .wake 0 (at_ 10),
     .stopTask "s1" "t1" (at_ 11),
     .reconnect 0 true (at_ 12), .connection 1 .opened (at_ 13)]

/-- A second pairing request from the address `10.0.0.1`, which yields session `s2`. -/
def secondPairingRequest : CodeRequest := { pairingRequest with sessionId := "s2" }

/-- The process after the owner of session `s1` has paired again. -/
def repairedState : SystemState := sysRun pairedState [.code secondPairingRequest (at_ 5)]

/-- Two owners pair, the first owner pairs again, the first session is stopped, and the
cleanup timer runs. -/
def twoOwnersRun : List SysEvent :=
  [.code pairingRequest (at_ 1),
   .code { pairingRequest with userIP := "10.0.0.2", sessionId := "s2" } (at_ 2),
   .code { pairingRequest with sessionId := "s3" } (at_ 3),
   .stopSession "s1" (at_ 4), .cleanup 100]

/-- Number of suspended calls of the loop that hold the task at position `pos` of the
stored client `cref` and have not returned. -/
def activeCalls (s : SystemState) (cref pos : Nat) : Nat :=
  (s.loops.filter (fun p => p.clientRef == cref && p.taskPos == pos && p.pc != .done)).length

/-- Number of sends in flight for the task at position `pos` of the stored client
`cref`. -/
def sendsInFlightFor (s : SystemState) (cref pos : Nat) : Nat :=
  (s.loops.filter (fun p => p.clientRef == cref && p.taskPos == pos && p.pc.inFlight)).length

/-- Session `s1` has reconnected once; it is stopped, its socket reports the close
caused by `client.end()`, and the reconnection scheduled by that close runs. -/
def stoppedThenReconnected : SystemState :=
  sysRun reconnectedState
    [.stopSession "s1" (at_ 13), .connection 1 (.closed none) (at_ 14), .reconnect 0 true (at_ 15)]

/-- The socket of session `s1` closes with status code 428, the session is evicted by
the cleanup timer a day later, and the reconnection scheduled by the close runs. -/
def evictedThenReconnected : SystemState :=
  sysRun twoMessageState
    [.connection 0 (.closed (some 428)) (at_ 4), .cleanup nextDay,
     .reconnect 0 true (at_ (nextDay + 1))]

/-! ## The process steps act on a call's objects as the loop steps do -/

theorem viewOf_storeView (s : SystemState) (p : LoopProc) (v v1 : LoopView)
    (hv : viewOf s p = some v) :
    viewOf (storeView s p v1) { p with index := v1.index, pc := v1.pc } = some v1 := by
  unfold viewOf at hv
  cases hc : s.clientStore[p.clientRef]? with
  | none => simp [hc] at hv
  | some c =>
    cases hl : s.logStore[p.logsRef]? with
    | none => simp [hc, hl] at hv
    | some logs =>
      cases ht : c.tasks[p.taskPos]? with
      | none => simp [hc, hl, ht] at hv
      | some t =>
        unfold storeView viewOf
        simp only [hc]
        rw [List.getElem?_set_self', hc, List.getElem?_set_self', hl]
        simp only [Option.map_eq_map, Option.map_some', Function.const]
        rw [List.getElem?_set_self', ht]
        rfl

/-- When the `i`-th call resumes after a delay, the process step changes the objects
the call holds exactly as `loopCheck` does. -/
theorem loopWake_view (i : Nat) (now : Instant) (s : SystemState) (p : LoopProc) (v : LoopView)
    (hp : s.loops[i]? = some p) (hpc : p.pc = .delaying) (hv : viewOf s p = some v) :
    (loopWake i now s).loops[i]?
        = some { p with
            index := (loopCheck p.args now v).index, pc := (loopCheck p.args now v).pc } ∧
      viewOf (loopWake i now s)
          { p with index := (loopCheck p.args now v).index, pc := (loopCheck p.args now v).pc }
        = some (loopCheck p.args now v) := by
  have hstore := viewOf_storeView s p v (loopCheck p.args now v) hv
  have hloops : ∀ v1, (commitCheck s p v1).loops = s.loops := by
    intro v1
    unfold commitCheck storeView registerLogs
    cases v1.pc <;> cases s.clientStore[p.clientRef]? <;> rfl
  have hview : ∀ q, viewOf (commitCheck s p (loopCheck p.args now v)) q
      = viewOf (storeView s p (loopCheck p.args now v)) q := by
    intro q
    unfold commitCheck
    cases (loopCheck p.args now v).pc <;> rfl
  unfold loopWake
  simp only [hp, hpc, hv]
  constructor
  · simp only [hloops]
    rw [List.getElem?_set_self', hp]
    rfl
  · exact (hview _).trans hstore

/-- When the send awaited by the `i`-th call settles, the process step changes the
objects the call holds exactly as `loopSendSettled` does. -/
theorem loopSettle_view (i : Nat) (now : Instant) (outcome : SendOutcome) (s : SystemState)
    (p : LoopProc) (v : LoopView) (msg : Option String) (ts : String) (mn cy : Nat)
    (hp : s.loops[i]? = some p) (hpc : p.pc = .sending msg ts mn cy)
    (hv : viewOf s p = some v) :
    (loopSettle i now outcome s).loops[i]?
        = some { p with
            index := (loopSendSettled p.args now outcome msg ts mn cy v).index
            pc := (loopSendSettled p.args now outcome msg ts mn cy v).pc } ∧
      viewOf (loopSettle i now outcome s)
          { p with
            index := (loopSendSettled p.args now outcome msg ts mn cy v).index
            pc := (loopSendSettled p.args now outcome msg ts mn cy v).pc }
        = some (loopSendSettled p.args now outcome msg ts mn cy v) := by
  have hstore :=
    viewOf_storeView s p v (loopSendSettled p.args now outcome msg ts mn cy v) hv
  have hloops : ∀ v1, (registerLogs (storeView s p v1) p).loops = s.loops := by
    intro v1
    unfold storeView registerLogs
    cases s.clientStore[p.clientRef]? <;> rfl
  unfold loopSettle
  simp only [hp, hpc, hv]
  constructor
  · simp only [hloops]
    rw [List.getElem?_set_self', hp]
    rfl
  · exact hstore

/-! ## The cursor, the sent count and the recorded cycle -/

theorem loopCheck_inv (a : LoopArgs) (now : Instant) (v : LoopView)
    (h1 : v.index = v.taskInfo.currentMessageIndex)
    (h2 : v.taskInfo.currentMessageIndex = v.taskInfo.sentMessages % a.messages.length) :
    LoopInv a (loopCheck a now v) := by
  unfold loopCheck
  split_ifs
  · exact ⟨h1, h2, by intro _ _ _ _ hpc; simp at hpc⟩
  · refine ⟨h1, h2, ?_⟩
    intro msg ts mn cy hpc
    simp only [LoopPc.sending.injEq] at hpc
    obtain ⟨e1, _, e3, e4⟩ := hpc
    exact ⟨e3.symm, by rw [← e4]; rfl, e1.symm⟩
  · exact ⟨h1, h2, by intro _ _ _ _ hpc; simp [loopExit] at hpc⟩

theorem loopCheck_sent (a : LoopArgs) (now : Instant) (v : LoopView) :
    (loopCheck a now v).taskInfo.sentMessages = v.taskInfo.sentMessages := by
  unfold loopCheck
  split_ifs <;> simp [loopExit]

theorem loopCheck_cycle (a : LoopArgs) (now : Instant) (v : LoopView) :
    (loopCheck a now v).taskInfo.currentCycle = v.taskInfo.currentCycle := by
  unfold loopCheck
  split_ifs <;> simp [loopExit]

/-- One event keeps the single-loop invariant, adds one to the sent count exactly when
it is a successful send, and keeps the recorded cycle in step with the sent count. -/
theorem loopStep_inv (a : LoopArgs) (v : LoopView) (e : LoopEvent) (h : LoopInv a v) :
    LoopInv a (loopStep a v e) ∧
    (loopStep a v e).taskInfo.sentMessages =
      v.taskInfo.sentMessages + (if isSuccessfulSend v e then 1 else 0) ∧
    (v.taskInfo.currentCycle = recordedCycle v.taskInfo.sentMessages a.messages.length →
      (loopStep a v e).taskInfo.currentCycle =
        recordedCycle (loopStep a v e).taskInfo.sentMessages a.messages.length) := by
  cases e with
  | connectionUpdate up now =>
    exact ⟨h, by simp [loopStep, isSuccessfulSend], fun hy => hy⟩
  | wake now =>
    cases hpc : v.pc with
    | delaying =>
      simp only [loopStep, hpc, isSuccessfulSend]
      exact ⟨loopCheck_inv a now v h.1 h.2.1, by simp [loopCheck_sent],
        fun hy => by rw [loopCheck_cycle, loopCheck_sent]; exact hy⟩
    | sending msg ts mn cy =>
      simp only [loopStep, hpc, isSuccessfulSend]; exact ⟨h, by simp, fun hy => hy⟩
    | done => simp only [loopStep, hpc, isSuccessfulSend]; exact ⟨h, by simp, fun hy => hy⟩
  | stopTask now =>
    obtain ⟨h1, h2, h4⟩ := h
    exact ⟨⟨h1, h2, h4⟩, by simp [loopStep, isSuccessfulSend, stopTaskInfo], fun hy => hy⟩
  | sendSettled now outcome =>
    cases hpc : v.pc with
    | delaying =>
      simp only [loopStep, hpc, isSuccessfulSend]
      exact ⟨h, by cases outcome <;> simp, fun hy => hy⟩
    | done =>
      simp only [loopStep, hpc, isSuccessfulSend]
      exact ⟨h, by cases outcome <;> simp, fun hy => hy⟩
    | sending msg ts mn cy =>
      obtain ⟨h1, h2, h4⟩ := h
      obtain ⟨_, e2, _⟩ := h4 msg ts mn cy hpc
      cases outcome with
      | ok =>
        simp only [loopStep, hpc, isSuccessfulSend, loopSendSettled]
        refine ⟨⟨rfl, ?_, by intro _ _ _ _ hpc; simp at hpc⟩, by simp, fun _ => ?_⟩
        · show (v.index + 1) % a.messages.length
              = (v.taskInfo.sentMessages + 1) % a.messages.length
          rw [h1, h2, Nat.add_mod, Nat.mod_mod, ← Nat.add_mod]
        · show some cy = _
          simp [e2, recordedCycle]
      | rejected m =>
        cases m with
        | none =>
          simp only [loopStep, hpc, isSuccessfulSend, loopSendSettled, loopCrash]
          exact ⟨⟨h1, h2, by intro _ _ _ _ hpc; simp at hpc⟩, by simp, fun hy => hy⟩
        | some m =>
          simp only [loopStep, hpc, isSuccessfulSend, loopSendSettled]
          by_cases hc : isConnectionIssue m = true
          · simp only [hc, if_true]
            exact ⟨⟨h1, h2, by intro _ _ _ _ hpc; simp at hpc⟩, by simp, fun hy => hy⟩
          · simp only [hc, if_false]
            exact ⟨⟨h1, h2, by intro _ _ _ _ hpc; simp at hpc⟩, by simp, fun hy => hy⟩

theorem loopRun_inv (a : LoopArgs) (es : List LoopEvent) :
    ∀ v : LoopView, LoopInv a v →
      LoopInv a (loopRun a v es) ∧
      (loopRun a v es).taskInfo.sentMessages =
        v.taskInfo.sentMessages + successfulSends a v es ∧
      (v.taskInfo.currentCycle = recordedCycle v.taskInfo.sentMessages a.messages.length →
        (loopRun a v es).taskInfo.currentCycle =
          recordedCycle (loopRun a v es).taskInfo.sentMessages a.messages.length) := by
  induction es with
  | nil => intro v h; exact ⟨h, by simp [loopRun, successfulSends], fun hy => hy⟩
  | cons e es ih =>
    intro v h
    obtain ⟨hi, hs, hy⟩ := loopStep_inv a v e h
    obtain ⟨hi2, hs2, hy2⟩ := ih (loopStep a v e) hi
    have hrun : loopRun a v (e :: es) = loopRun a (loopStep a v e) es := rfl
    refine ⟨by rw [hrun]; exact hi2, ?_, fun h0 => by rw [hrun]; exact hy2 (hy h0)⟩
    rw [hrun, hs2, hs, successfulSends]
    omega

theorem loopStart_inv (a : LoopArgs) (now : Instant) (v : LoopView)
    (hc : v.taskInfo.currentMessageIndex = 0) (hs : v.taskInfo.sentMessages = 0) :
    LoopInv a (loopStart a now v) ∧ (loopStart a now v).taskInfo.sentMessages = 0 ∧
      (loopStart a now v).taskInfo.currentCycle = v.taskInfo.currentCycle := by
  unfold loopStart
  refine ⟨loopCheck_inv a now _ rfl ?_, by rw [loopCheck_sent]; exact hs, by rw [loopCheck_cycle]⟩
  simp [hc, hs]

/-- The recorded cycle of a fresh task after any run of its single loop. -/
theorem loopRun_recordedCycle (a : LoopArgs) (v0 : LoopView) (now : Instant)
    (es : List LoopEvent) (hc : v0.taskInfo.currentMessageIndex = 0)
    (hs : v0.taskInfo.sentMessages = 0) (hy : v0.taskInfo.currentCycle = none) :
    (loopRun a (loopStart a now v0) es).taskInfo.currentCycle
      = recordedCycle (successfulSends a (loopStart a now v0) es) a.messages.length := by
  obtain ⟨hi, h0, hcy⟩ := loopStart_inv a now v0 hc hs
  obtain ⟨_, hk, hrec⟩ := loopRun_inv a es _ hi
  rw [h0, Nat.zero_add] at hk
  rw [hrec (by rw [hcy, hy, h0]; rfl), hk]

/-- Claim C1: a task with at least one message that starts at cursor 0 with no message
sent and is driven by one call of `sendMessagesLoop` has, after any sequence of events
(passes of the loop that wait, send successfully or fail, connection changes, stop
requests), `sentMessages` equal to the number `k` of successful sends and
`currentMessageIndex` equal to `k mod N`, which is below `N`. -/
theorem cursor_is_sent_count_mod_length (a : LoopArgs) (v0 : LoopView) (now : Instant)
    (es : List LoopEvent) (hN : 1 ≤ a.messages.length)
    (hc : v0.taskInfo.currentMessageIndex = 0) (hs : v0.taskInfo.sentMessages = 0) :
    (loopRun a (loopStart a now v0) es).taskInfo.sentMessages
        = successfulSends a (loopStart a now v0) es ∧
      (loopRun a (loopStart a now v0) es).taskInfo.currentMessageIndex
        = successfulSends a (loopStart a now v0) es % a.messages.length ∧
      (loopRun a (loopStart a now v0) es).taskInfo.currentMessageIndex < a.messages.length := by
  obtain ⟨hi, h0, _⟩ := loopStart_inv a now v0 hc hs
  obtain ⟨⟨_, h2, _⟩, hk, _⟩ := loopRun_inv a es _ hi
  rw [h0, Nat.zero_add] at hk
  refine ⟨hk, by rw [h2, hk], ?_⟩
  rw [h2]
  exact Nat.mod_lt _ hN

/-- A run of the two-message task with a wait, a failure and three successful sends:
the hypotheses of C1 hold and its conclusion gives `sentMessages = 3`, cursor `1`. -/
theorem cursor_is_sent_count_mod_length_witness :
    1 ≤ twoMessageArgs.messages.length ∧
      twoMessageView.taskInfo.currentMessageIndex = 0 ∧
      twoMessageView.taskInfo.sentMessages = 0 ∧
      successfulSends twoMessageArgs (loopStart twoMessageArgs (at_ 3) twoMessageView)
        [.sendSettled (at_ 4) .ok, .connectionUpdate false (at_ 5), .wake (at_ 6),
         .connectionUpdate true (at_ 7), .wake (at_ 8),
         .sendSettled (at_ 9) (.rejected (some "rate-overlimit")), .wake (at_ 10),
         .sendSettled (at_ 11) .ok, .wake (at_ 12), .sendSettled (at_ 13) .ok] = 3 ∧
      (loopRun twoMessageArgs (loopStart twoMessageArgs (at_ 3) twoMessageView)
        [.sendSettled (at_ 4) .ok, .connectionUpdate false (at_ 5), .wake (at_ 6),
         .connectionUpdate true (at_ 7), .wake (at_ 8),
         .sendSettled (at_ 9) (.rejected (some "rate-overlimit")), .wake (at_ 10),
         .sendSettled (at_ 11) .ok, .wake (at_ 12),
         .sendSettled (at_ 13) .ok]).taskInfo.currentMessageIndex < 2 :=
  ⟨by decide, by decide, by decide, by decide,
    (cursor_is_sent_count_mod_length twoMessageArgs twoMessageView (at_ 3) _
      (by decide) (by decide) (by decide)).2.2⟩

/-- The recorded cycle after one successful send of a two-message task is 1, while
`k div N` is 0: the statement of C2 fails at `N = 2`, `k = 1`, both on the loop alone
and on the whole process. -/
theorem recorded_cycle_is_not_sent_div_length :
    successfulSends twoMessageArgs (loopStart twoMessageArgs (at_ 3) twoMessageView)
        [.sendSettled (at_ 4) .ok] = 1 ∧
      twoMessageArgs.messages.length = 2 ∧
      (loopRun twoMessageArgs (loopStart twoMessageArgs (at_ 3) twoMessageView)
        [.sendSettled (at_ 4) .ok]).taskInfo.currentCycle = some 1 ∧
      (loopRun twoMessageArgs (loopStart twoMessageArgs (at_ 3) twoMessageView)
        [.sendSettled (at_ 4) .ok]).taskInfo.currentCycle ≠ some (1 / 2) ∧
      (tasksOf (sysRun twoMessageState (threeSends.take 1)) "s1").map
        (fun t => (t.sentMessages, t.currentCycle)) = [(1, some 1)] := by
  decide

/-- Claim C2 (amended): for a task with `N ≥ 1` messages driven by one call of the
loop, `currentCycle` is unset before the first successful send and after `k ≥ 1`
successful sends equals `(k - 1) div N + 1`, the 1-based number `c` of the pass that
contains the `k`-th send: `N * (c - 1) < k ≤ N * c`. -/
theorem recorded_cycle_after_sends (a : LoopArgs) (v0 : LoopView) (now : Instant)
    (es : List LoopEvent) (hN : 1 ≤ a.messages.length)
    (hc : v0.taskInfo.currentMessageIndex = 0) (hs : v0.taskInfo.sentMessages = 0)
    (hy : v0.taskInfo.currentCycle = none) :
    (loopRun a (loopStart a now v0) es).taskInfo.currentCycle
        = (if successfulSends a (loopStart a now v0) es = 0 then none
           else some ((successfulSends a (loopStart a now v0) es - 1) / a.messages.length + 1)) ∧
      ∀ c, (loopRun a (loopStart a now v0) es).taskInfo.currentCycle = some c →
        a.messages.length * (c - 1) < successfulSends a (loopStart a now v0) es ∧
          successfulSends a (loopStart a now v0) es ≤ a.messages.length * c := by
  have h := loopRun_recordedCycle a v0 now es hc hs hy
  refine ⟨h, ?_⟩
  intro c hcy
  rw [h] at hcy
  unfold recordedCycle at hcy
  split_ifs at hcy with hk
  simp only [Option.some.injEq] at hcy
  subst hcy
  have h1 := Nat.mul_div_le (successfulSends a (loopStart a now v0) es - 1) a.messages.length
  have h2 := Nat.lt_mul_div_succ (successfulSends a (loopStart a now v0) es - 1) hN
  simp only [Nat.add_sub_cancel]
  constructor <;> omega

/-- The two-message task after three successful sends: the hypotheses of the amended C2
hold and the recorded cycle is `(3 - 1) div 2 + 1 = 2`. -/
theorem recorded_cycle_after_sends_witness :
    1 ≤ twoMessageArgs.messages.length ∧
      twoMessageView.taskInfo.currentMessageIndex = 0 ∧
      twoMessageView.taskInfo.sentMessages = 0 ∧
      twoMessageView.taskInfo.currentCycle = none ∧
      (loopRun twoMessageArgs (loopStart twoMessageArgs (at_ 3) twoMessageView)
        [.sendSettled (at_ 4) .ok, .wake (at_ 5), .sendSettled (at_ 6) .ok, .wake (at_ 7),
         .sendSettled (at_ 8) .ok]).taskInfo.currentCycle
        = (if successfulSends twoMessageArgs (loopStart twoMessageArgs (at_ 3) twoMessageView)
              [.sendSettled (at_ 4) .ok, .wake (at_ 5), .sendSettled (at_ 6) .ok, .wake (at_ 7),
               .sendSettled (at_ 8) .ok] = 0 then none
           else some ((successfulSends twoMessageArgs
              (loopStart twoMessageArgs (at_ 3) twoMessageView)
              [.sendSettled (at_ 4) .ok, .wake (at_ 5), .sendSettled (at_ 6) .ok, .wake (at_ 7),
               .sendSettled (at_ 8) .ok] - 1) / twoMessageArgs.messages.length + 1)) :=
  ⟨by decide, by decide, by decide, by decide,
    (recorded_cycle_after_sends twoMessageArgs twoMessageView (at_ 3) _
      (by decide) (by decide) (by decide) (by decide)).1⟩

/-! ## Disconnection and failed sends -/

theorem unshiftCapped_head (e : LogEntry) (logs : List LogEntry) :
    ∃ rest, unshiftCapped e logs = e :: rest ∧ rest <+: logs := by
  unfold unshiftCapped
  split_ifs with h
  · cases logs with
    | nil => simp at h
    | cons x xs =>
      exact ⟨(x :: xs).dropLast, by simp [List.dropLast], List.dropLast_prefix _⟩
  · exact ⟨logs, rfl, List.prefix_refl _⟩

/-- A pass of the loop on a running task whose session is not connected. -/
theorem loopCheck_disconnected (a : LoopArgs) (now : Instant) (v : LoopView)
    (hrun : v.taskInfo.isSending = true) (hstop : v.taskInfo.stopRequested = false)
    (hdis : v.isConnected = false) :
    loopCheck a now v
      = { v with logs := unshiftCapped (waitingLog now) v.logs, pc := .delaying } := by
  simp [loopCheck, hrun, hstop, hdis]

/-- The first pass of a call of the loop on a running task of a connected session. -/
theorem loopStart_connected (a : LoopArgs) (now : Instant) (v : LoopView)
    (hrun : v.taskInfo.isSending = true) (hstop : v.taskInfo.stopRequested = false)
    (hcon : v.isConnected = true) :
    loopStart a now v =
      { v with
        index := v.taskInfo.currentMessageIndex
        pc := .sending (composeText a.pfx (a.messages[v.taskInfo.currentMessageIndex]?))
          now.localeString (v.taskInfo.sentMessages + 1)
          (cycleNumber v.taskInfo.sentMessages a.messages.length) } := by
  simp [loopStart, loopCheck, hrun, hstop, hcon]

/-- The call `sendMessagesLoop(...)` on the process: for a running task of a connected,
registered session it adds one suspended call that is sending the message at the
task's stored cursor. -/
theorem sendMessagesLoop_loops (a : LoopArgs) (now : Instant) (s : SystemState) (cref pos lref : Nat)
    (c : ClientInfo) (t : TaskInfo) (logs : List LogEntry)
    (hs : mapGet s.activeClients a.sessionId = some cref)
    (hc : s.clientStore[cref]? = some c)
    (hp : c.tasks.findIdx? (fun t => t.taskId == a.taskId) = some pos)
    (ht : c.tasks[pos]? = some t)
    (hl : mapGet s.taskLogs a.taskId = some lref)
    (hg : s.logStore[lref]? = some logs)
    (hrun : t.isSending = true) (hstop : t.stopRequested = false)
    (hcon : c.isConnected = true) :
    (sendMessagesLoop a now s).loops = s.loops ++
      [{ args := a, clientRef := cref, taskPos := pos, logsRef := lref,
         index := t.currentMessageIndex,
         pc := .sending (composeText a.pfx (a.messages[t.currentMessageIndex]?))
           now.localeString (t.sentMessages + 1)
           (cycleNumber t.sentMessages a.messages.length) }] := by
  simp [sendMessagesLoop, hs, hc, hp, hl, viewOf, hg, ht, loopStart, loopCheck, hrun, hstop, hcon,
    commitCheck, storeView]

set_option maxRecDepth 100000 in
/-- Claim C3: a pass of the loop that finds the session not connected starts no send
(the call goes back to waiting), leaves the task (cursor and `sentMessages` included),
the counters and the local index unchanged, and puts exactly one Info entry, the
waiting entry, at the head of the log; a call of the loop started afterwards on the
same task, once the session is connected, sends the message at the stored cursor.  In
the example, the five-message task at cursor 3 keeps cursor 3 and `sentMessages` 3
through the disconnection, and the call started by the reconnect listener sends `m3`. -/
theorem disconnection_freezes_progress (a : LoopArgs) (now : Instant) (v : LoopView)
    (hrun : v.taskInfo.isSending = true) (hstop : v.taskInfo.stopRequested = false)
    (hdis : v.isConnected = false) :
    ((loopCheck a now v).pc = .delaying ∧
      (loopCheck a now v).taskInfo = v.taskInfo ∧
      (loopCheck a now v).index = v.index ∧
      (loopCheck a now v).systemStats = v.systemStats ∧
      (waitingLog now).type = .info ∧
      ∃ rest, (loopCheck a now v).logs = waitingLog now :: rest ∧ rest <+: v.logs) ∧
    (∀ (now2 : Instant) (v2 : LoopView),
      v2.taskInfo = (loopCheck a now v).taskInfo → v2.isConnected = true →
        (loopStart a now2 v2).index = v.taskInfo.currentMessageIndex ∧
        (loopStart a now2 v2).pc =
          .sending (composeText a.pfx (a.messages[v.taskInfo.currentMessageIndex]?))
            now2.localeString (v.taskInfo.sentMessages + 1)
            (cycleNumber v.taskInfo.sentMessages a.messages.length)) ∧
    ((tasksOf reconnectedState "s1").map
        (fun t => (t.messages.length, t.currentMessageIndex, t.sentMessages)) = [(5, 3, 3)] ∧
      textInFlight reconnectedState 1 = some "m3") := by
  have hcheck := loopCheck_disconnected a now v hrun hstop hdis
  refine ⟨?_, ?_, by decide⟩
  · rw [hcheck]
    exact ⟨rfl, rfl, rfl, rfl, rfl, unshiftCapped_head _ _⟩
  · intro now2 v2 ht hcon
    rw [hcheck] at ht
    have ht2 : v2.taskInfo = v.taskInfo := ht
    rw [loopStart_connected a now2 v2 (by rw [ht2]; exact hrun) (by rw [ht2]; exact hstop) hcon,
      ht2]
    exact ⟨rfl, rfl⟩

/-- The five-message task at cursor 3 on a disconnected session: the hypotheses of C3
hold, and the pass of the loop leaves cursor 3 and goes back to waiting. -/
theorem disconnection_freezes_progress_witness :
    fiveMessageView.taskInfo.isSending = true ∧
      fiveMessageView.taskInfo.stopRequested = false ∧
      fiveMessageView.isConnected = false ∧
      (loopCheck fiveMessageArgs (at_ 10) fiveMessageView).pc = .delaying ∧
      (loopCheck fiveMessageArgs (at_ 10) fiveMessageView).taskInfo = fiveMessageView.taskInfo :=
  ⟨by decide, by decide, by decide,
    (disconnection_freezes_progress fiveMessageArgs (at_ 10) fiveMessageView
      (by decide) (by decide) (by decide)).1.1,
    (disconnection_freezes_progress fiveMessageArgs (at_ 10) fiveMessageView
      (by decide) (by decide) (by decide)).1.2.1⟩

/-- A send that rejects with an error carrying a message text: the task and the sent
counter are unchanged, the error counter grows by one, one Error entry is put at the
head of the log, and the call goes back to waiting with the same local index, so its
next send uses the same message. -/
theorem send_rejection_with_message_retries (a : LoopArgs) (now : Instant) (m : String)
    (msg : Option String) (ts : String) (mn cy : Nat) (v : LoopView) :
    (loopSendSettled a now (.rejected (some m)) msg ts mn cy v).taskInfo = v.taskInfo ∧
      (loopSendSettled a now (.rejected (some m)) msg ts mn cy v).index = v.index ∧
      (loopSendSettled a now (.rejected (some m)) msg ts mn cy v).pc = .delaying ∧
      (loopSendSettled a now (.rejected (some m)) msg ts mn cy v).systemStats
        = { v.systemStats with errors := v.systemStats.errors + 1 } ∧
      (loopSendSettled a now (.rejected (some m)) msg ts mn cy v).logs
        = unshiftCapped (sendErrorLog a now (some m) ts mn) v.logs ∧
      (sendErrorLog a now (some m) ts mn).type = .error := by
  by_cases hc : isConnectionIssue m = true <;> simp [loopSendSettled, hc, sendErrorLog]

set_option maxRecDepth 100000 in
/-- Claim C4 (the code departs from it): when `sendMessage` rejects with a value that
has no `message` text, the inner handler logs its Error entry and counts the error,
then `sendError.message.includes` throws and the outer handler runs: the error counter
has grown by two, the failed-task counter by one, a second Error entry is at the head
of the log, the task is marked not sending with an error and an end time, and the call
has returned, so there is no next attempt.  The last part evaluates this on the whole
process for the first send of the two-message task. -/
theorem send_rejection_without_message_ends_loop (a : LoopArgs) (now : Instant)
    (msg : Option String) (ts : String) (mn cy : Nat) (v : LoopView) :
    (loopSendSettled a now (.rejected none) msg ts mn cy v).systemStats.errors
        = v.systemStats.errors + 2 ∧
      (loopSendSettled a now (.rejected none) msg ts mn cy v).systemStats.failedTasks
        = v.systemStats.failedTasks + 1 ∧
      (loopSendSettled a now (.rejected none) msg ts mn cy v).logs
        = criticalLog now includesTypeErrorMessage
            :: unshiftCapped (sendErrorLog a now none ts mn) v.logs ∧
      (criticalLog now includesTypeErrorMessage).type = .error ∧
      (sendErrorLog a now none ts mn).type = .error ∧
      (loopSendSettled a now (.rejected none) msg ts mn cy v).taskInfo
        = { v.taskInfo with
            error := some includesTypeErrorMessage, isSending := false
            endTime := some now.epochMs } ∧
      (loopSendSettled a now (.rejected none) msg ts mn cy v).pc = .done ∧
      (∀ now2, loopStep a (loopSendSettled a now (.rejected none) msg ts mn cy v) (.wake now2)
        = loopSendSettled a now (.rejected none) msg ts mn cy v) ∧
      ((sysRun twoMessageState [.settle 0 (at_ 4) (.rejected none)]).systemStats.errors = 2 ∧
        (taskLogOf (sysRun twoMessageState [.settle 0 (at_ 4) (.rejected none)]) "t1").map
          (fun logs => logs.map (fun e => e.type)) = some [.error, .error] ∧
        (tasksOf (sysRun twoMessageState [.settle 0 (at_ 4) (.rejected none)]) "s1").map
          (fun t => (t.isSending, t.stopRequested, t.sentMessages, t.currentMessageIndex))
          = [(false, false, 0, 0)] ∧
        (sysRun twoMessageState [.settle 0 (at_ 4) (.rejected none)]).loops.map
          (fun p => p.pc) = [.done]) := by
  refine ⟨rfl, rfl, rfl, rfl, rfl, rfl, rfl, fun _ => rfl, by decide⟩

/-! ## The outgoing text -/

theorem trimChars_eq_nil_iff (cs : List Char) :
    trimChars cs = [] ↔ cs.all isJsWhiteSpace = true := by
  unfold trimChars
  rw [List.reverse_eq_nil_iff]
  constructor
  · intro h
    by_cases hd : cs.dropWhile isJsWhiteSpace = []
    · rw [List.dropWhile_eq_nil_iff] at hd
      simpa using hd
    · exfalso
      rw [List.dropWhile_eq_nil_iff] at h
      have hhead := List.head_dropWhile_not isJsWhiteSpace cs hd
      have hmem :
          (cs.dropWhile isJsWhiteSpace).head hd ∈ (cs.dropWhile isJsWhiteSpace).reverse := by
        simp
      have := h _ hmem
      simp [this] at hhead
  · intro h
    have : cs.dropWhile isJsWhiteSpace = [] := by
      rw [List.dropWhile_eq_nil_iff]
      simpa using h
    simp [this]

/-- Trimming gives the empty string exactly for strings of white space only. -/
theorem jsTrim_eq_empty_iff (p : String) : jsTrim p = "" ↔ isBlank p = true := by
  unfold jsTrim isBlank
  rw [← trimChars_eq_nil_iff]
  constructor
  · intro h
    have := congrArg String.data h
    simpa using this
  · intro h
    rw [h]

/-- For prefix `Hi` (no trailing space) and message `a` the loop sends `Hi a`, not the
concatenation `Hia` that C5 states. -/
theorem outgoing_text_differs_from_concatenation :
    composeText (some "Hi") (some "a") = some "Hi a" ∧
      specComposeText (some "Hi") "a" = "Hia" ∧
      composeText (some "Hi") (some "a") ≠ some (specComposeText (some "Hi") "a") := by
  decide

/-- Claim C5 (amended): the text sent for message `m` is `m` itself when the prefix is
absent, empty or only white space; otherwise it is the trimmed prefix, one space, and
`m`.  It agrees with the plain concatenation `p ++ m` when `p` is its own trimmed form
followed by one space. -/
theorem outgoing_text_is_trimmed_prefix_space_message (p m : String) :
    composeText none (some m) = some m ∧
      (isBlank p = true → composeText (some p) (some m) = some m) ∧
      (isBlank p = false → composeText (some p) (some m) = some (jsTrim p ++ " " ++ m)) ∧
      (isBlank p = false → p = jsTrim p ++ " " →
        composeText (some p) (some m) = some (specComposeText (some p) m)) := by
  have hnb : isBlank p = false → composeText (some p) (some m) = some (jsTrim p ++ " " ++ m) := by
    intro hb
    have ht : jsTrim p ≠ "" := by
      intro h
      rw [(jsTrim_eq_empty_iff p).1 h] at hb
      exact Bool.noConfusion hb
    have hp : p ≠ "" := by
      rintro rfl
      exact ht (by decide)
    simp [composeText, ht, hp, jsTemplate]
  refine ⟨rfl, ?_, hnb, ?_⟩
  · intro hb
    have ht : jsTrim p = "" := (jsTrim_eq_empty_iff p).2 hb
    simp [composeText, ht]
  · intro hb hp
    rw [hnb hb, ← hp]
    simp [specComposeText, hb]

/-- The amended C5 at prefix `Hi ` and message `a`: the prefix is not blank and is its
trimmed form plus one space, and the text is `Hi a`. -/
theorem outgoing_text_is_trimmed_prefix_space_message_witness :
    isBlank "Hi " = false ∧ "Hi " = jsTrim "Hi " ++ " " ∧
      composeText (some "Hi ") (some "a") = some (jsTrim "Hi " ++ " " ++ "a") ∧
      composeText (some "Hi ") (some "a") = some (specComposeText (some "Hi ") "a") :=
  ⟨by decide, by decide,
    (outgoing_text_is_trimmed_prefix_space_message "Hi " "a").2.2.1 (by decide),
    (outgoing_text_is_trimmed_prefix_space_message "Hi " "a").2.2.2 (by decide) (by decide)⟩

set_option maxRecDepth 100000 in
/-- Claim C6: for the task submitted with messages `a`, `b` and prefix `Hi ` whose sends
all succeed, the texts sent are `Hi a`, `Hi b`, `Hi a` in that order and the recorded
cycle is 1, 1, 2 after the first, second and third successful send; in general, for a
task of `N ≥ 1` messages driven by one call of the loop, the recorded cycle is below 2
as long as at most `N` sends have succeeded and is 2 exactly from the `(N+1)`-th to the
`2N`-th successful send. -/
theorem second_cycle_starts_after_first_pass (a : LoopArgs) (v0 : LoopView) (now : Instant)
    (es : List LoopEvent) (hN : 1 ≤ a.messages.length)
    (hc : v0.taskInfo.currentMessageIndex = 0) (hs : v0.taskInfo.sentMessages = 0)
    (hy : v0.taskInfo.currentCycle = none) :
    (textInFlight twoMessageState 0 = some "Hi a" ∧
      cyclesOf (sysRun twoMessageState (threeSends.take 1)) = [some 1] ∧
      textInFlight (sysRun twoMessageState (threeSends.take 2)) 0 = some "Hi b" ∧
      cyclesOf (sysRun twoMessageState (threeSends.take 3)) = [some 1] ∧
      textInFlight (sysRun twoMessageState (threeSends.take 4)) 0 = some "Hi a" ∧
      cyclesOf (sysRun twoMessageState threeSends) = [some 2]) ∧
    (successfulSends a (loopStart a now v0) es ≤ a.messages.length →
      ∀ c, (loopRun a (loopStart a now v0) es).taskInfo.currentCycle = some c → c < 2) ∧
    ((loopRun a (loopStart a now v0) es).taskInfo.currentCycle = some 2 ↔
      a.messages.length + 1 ≤ successfulSends a (loopStart a now v0) es ∧
        successfulSends a (loopStart a now v0) es ≤ 2 * a.messages.length) := by
  have h := loopRun_recordedCycle a v0 now es hc hs hy
  have h1 := Nat.mul_div_le (successfulSends a (loopStart a now v0) es - 1) a.messages.length
  have h2 := Nat.lt_mul_div_succ (successfulSends a (loopStart a now v0) es - 1) hN
  refine ⟨by decide, ?_, ?_⟩
  · intro hk c hcy
    rw [h] at hcy
    unfold recordedCycle at hcy
    split_ifs at hcy with h0
    simp only [Option.some.injEq] at hcy
    have hdiv : (successfulSends a (loopStart a now v0) es - 1) / a.messages.length = 0 :=
      Nat.div_eq_of_lt (by omega)
    omega
  · rw [h]
    unfold recordedCycle
    constructor
    · intro hcy
      split_ifs at hcy with h0
      simp only [Option.some.injEq] at hcy
      have hdiv : (successfulSends a (loopStart a now v0) es - 1) / a.messages.length = 1 := by
        omega
      rw [hdiv] at h1 h2
      omega
    · intro hk
      have h0 : successfulSends a (loopStart a now v0) es ≠ 0 := by omega
      rw [if_neg h0]
      have hdiv : (successfulSends a (loopStart a now v0) es - 1) / a.messages.length = 1 :=
        Nat.div_eq_of_lt_le (by omega) (by omega)
      rw [hdiv]

/-- The general part of C6 at the two-message task after three successful sends: three
is `N + 1`, and the recorded cycle is 2. -/
theorem second_cycle_starts_after_first_pass_witness :
    1 ≤ twoMessageArgs.messages.length ∧
      twoMessageView.taskInfo.currentMessageIndex = 0 ∧
      twoMessageView.taskInfo.sentMessages = 0 ∧
      twoMessageView.taskInfo.currentCycle = none ∧
      (twoMessageArgs.messages.length + 1 ≤
          successfulSends twoMessageArgs (loopStart twoMessageArgs (at_ 3) twoMessageView)
            [.sendSettled (at_ 4) .ok, .wake (at_ 5), .sendSettled (at_ 6) .ok, .wake (at_ 7),
             .sendSettled (at_ 8) .ok] ∧
        successfulSends twoMessageArgs (loopStart twoMessageArgs (at_ 3) twoMessageView)
            [.sendSettled (at_ 4) .ok, .wake (at_ 5), .sendSettled (at_ 6) .ok, .wake (at_ 7),
             .sendSettled (at_ 8) .ok] ≤ 2 * twoMessageArgs.messages.length) ∧
      (loopRun twoMessageArgs (loopStart twoMessageArgs (at_ 3) twoMessageView)
        [.sendSettled (at_ 4) .ok, .wake (at_ 5), .sendSettled (at_ 6) .ok, .wake (at_ 7),
         .sendSettled (at_ 8) .ok]).taskInfo.currentCycle = some 2 :=
  ⟨by decide, by decide, by decide, by decide, by decide,
    ((second_cycle_starts_after_first_pass twoMessageArgs twoMessageView (at_ 3) _
      (by decide) (by decide) (by decide) (by decide)).2.2).2 (by decide)⟩

/-! ## Log buffers -/

theorem unshiftCapped_eq_take (e : LogEntry) (logs : List LogEntry) (h : logs.length ≤ 100) :
    unshiftCapped e logs = (e :: logs).take 100 := by
  unfold unshiftCapped
  split_ifs with hlen
  · have h100 : logs.length = 100 := by simp at hlen; omega
    rw [List.dropLast_eq_take]
    simp [h100]
  · rw [List.take_of_length_le]
    simp at hlen ⊢
    omega

/-- Appending to a buffer of at most 100 entries keeps the 100 newest, newest first. -/
theorem appendAll_eq (entries : List LogEntry) :
    ∀ logs : List LogEntry, logs.length ≤ 100 →
      appendAll logs entries = (entries.reverse ++ logs).take 100 := by
  induction entries with
  | nil => intro logs h; simp [appendAll, List.take_of_length_le h]
  | cons e es ih =>
    intro logs h
    have hstep : appendAll logs (e :: es) = appendAll (unshiftCapped e logs) es := rfl
    rw [hstep, ih _ (by rw [unshiftCapped_eq_take e logs h]; simp), unshiftCapped_eq_take e logs h]
    simp only [List.reverse_cons, List.append_assoc, List.singleton_append]
    rw [List.take_append_eq_append_take,
      @List.take_append_eq_append_take _ es.reverse (e :: logs) 100]
    congr 1
    rw [List.take_take]
    congr 1
    omega

theorem appendAll_nil (entries : List LogEntry) :
    appendAll [] entries = entries.reverse.take 100 := by
  have h := appendAll_eq entries [] (by simp)
  simpa using h

theorem numberedEntries_length (n : Nat) : (numberedEntries n).length = n := by
  simp [numberedEntries]

/-- An in-loop append never leaves a buffer longer than both 100 and its old length. -/
theorem unshiftCapped_length_le (e : LogEntry) (logs : List LogEntry) :
    (unshiftCapped e logs).length ≤ max 100 logs.length := by
  unfold unshiftCapped
  split_ifs with h
  · simp
  · simp at h ⊢
    omega

/-- Claim C7: starting from an empty buffer, the scheduler's append (insert at the head,
then drop the tail entry when the length exceeds 100) leaves, after `100 + K` appends,
exactly the 100 most recently appended entries, newest first, and after `n ≤ 100`
appends all `n` entries, newest first. -/
theorem log_append_keeps_newest_hundred (entries : List LogEntry) :
    (∀ K, entries.length = 100 + K →
        appendAll [] entries = (entries.drop K).reverse ∧
          (appendAll [] entries).length = 100) ∧
      (entries.length ≤ 100 → appendAll [] entries = entries.reverse) := by
  rw [appendAll_nil]
  constructor
  · intro K hK
    have hk : entries.length - 100 = K := by omega
    refine ⟨by rw [List.take_reverse, hk], ?_⟩
    rw [List.length_take, List.length_reverse, hK]
    simp
  · intro h
    rw [List.take_of_length_le (by simpa using h)]

/-- The statement of C7 at 103 numbered entries (`K = 3`) . -/
theorem log_append_keeps_newest_hundred_witness :
    (numberedEntries 103).length = 100 + 3 ∧
      appendAll [] (numberedEntries 103) = ((numberedEntries 103).drop 3).reverse ∧
      (appendAll [] (numberedEntries 103)).length = 100 :=
  ⟨numberedEntries_length 103,
    ((log_append_keeps_newest_hundred (numberedEntries 103)).1 3 (numberedEntries_length 103)).1,
    ((log_append_keeps_newest_hundred (numberedEntries 103)).1 3 (numberedEntries_length 103)).2⟩

theorem mem_of_mapGet {β : Type} (m : List (String × β)) (k : String) (v : β)
    (h : mapGet m k = some v) : (k, v) ∈ m := by
  induction m with
  | nil => simp [mapGet] at h
  | cons x xs ih =>
    obtain ⟨k1, v1⟩ := x
    unfold mapGet at h ih
    rw [List.lookup_cons] at h
    by_cases hk : k = k1
    · subst hk
      simp at h
      subst h
      exact List.mem_cons_self _ _
    · have : (k == k1) = false := by simpa using hk
      rw [this] at h
      exact List.mem_cons_of_mem _ (ih h)

/-- One step of the truncation loop of the cleanup timer bounds the array it visits and
keeps every bounded array bounded. -/
theorem truncateStep_bounded (store : List (List LogEntry)) (entry : String × Nat) (r : Nat)
    (hb : r = entry.2 ∨ ∀ logs, store[r]? = some logs → logs.length ≤ 200) :
    ∀ logs,
      (match store[entry.2]? with
        | some l => store.set entry.2 (truncateLogs l)
        | none => store)[r]? = some logs → logs.length ≤ 200 := by
  intro logs h
  cases hg : store[entry.2]? with
  | none =>
    rw [hg] at h
    rcases hb with rfl | hb
    · rw [hg] at h; cases h
    · exact hb logs h
  | some l =>
    rw [hg] at h
    simp only at h
    by_cases hr : entry.2 = r
    · subst hr
      rw [List.getElem?_set_self'] at h
      rw [hg] at h
      simp at h
      subst h
      unfold truncateLogs
      split_ifs with hl
      · simp
      · omega
    · rw [List.getElem?_set_ne hr] at h
      rcases hb with rfl | hb
      · exact absurd rfl hr
      · exact hb logs h

theorem truncateFold_bounded (entries : List (String × Nat)) :
    ∀ (store : List (List LogEntry)) (r : Nat),
      ((∃ k, (k, r) ∈ entries) ∨ ∀ logs, store[r]? = some logs → logs.length ≤ 200) →
      ∀ logs,
        (entries.foldl
          (fun store entry =>
            match store[entry.2]? with
            | some l => store.set entry.2 (truncateLogs l)
            | none => store)
          store)[r]? = some logs → logs.length ≤ 200 := by
  induction entries with
  | nil =>
    intro store r h logs hl
    rcases h with ⟨k, hk⟩ | h
    · cases hk
    · exact h logs hl
  | cons e es ih =>
    intro store r h logs hl
    simp only [List.foldl_cons] at hl
    refine ih _ r ?_ logs hl
    rcases h with ⟨k, hk⟩ | h
    · rcases List.mem_cons.1 hk with heq | hmem
      · right
        exact truncateStep_bounded store e r (Or.inl (by rw [← heq]))
      · left; exact ⟨k, hmem⟩
    · right
      exact truncateStep_bounded store e r (Or.inr h)

/-- After a run of the cleanup timer every registered log array has at most 200
entries. -/
theorem cleanupTick_bounded (now : Nat) (s : SystemState) (taskId : String)
    (logs : List LogEntry) (h : taskLogOf (cleanupTick now s) taskId = some logs) :
    logs.length ≤ 200 := by
  unfold taskLogOf at h
  cases hg : mapGet (cleanupTick now s).taskLogs taskId with
  | none => rw [hg] at h; cases h
  | some ref =>
    rw [hg] at h
    simp only at h
    have hmem := mem_of_mapGet _ _ _ hg
    exact truncateFold_bounded (cleanupSessions now s).taskLogs (cleanupSessions now s).logStore
      ref (Or.inl ⟨taskId, hmem⟩) logs h

/-- What `/stop-task` does to the log array registered for the task: one more entry at
the head, nothing dropped. -/
theorem unshiftTaskLog_registered (taskId : String) (e : LogEntry) (s : SystemState)
    (ref : Nat) (logs : List LogEntry) (hl : mapGet s.taskLogs taskId = some ref)
    (hg : s.logStore[ref]? = some logs) :
    taskLogOf (unshiftTaskLog taskId e s) taskId = some (e :: logs) := by
  have hset : ∀ (m : List (String × Nat)), mapGet (mapSet m taskId ref) taskId = some ref := by
    intro m
    induction m with
    | nil => simp [mapSet, mapGet, List.lookup]
    | cons x xs ih =>
      obtain ⟨k1, v1⟩ := x
      unfold mapSet
      by_cases hk : k1 = taskId
      · simp [hk, mapGet, List.lookup]
      · have hne : (taskId == k1) = false := by
          simpa using fun h => hk h.symm
        simp only [hk, if_false]
        unfold mapGet at ih ⊢
        rw [List.lookup_cons, hne]
        exact ih
  unfold unshiftTaskLog taskLogOf
  simp only [hl, hg, hset]
  rw [List.getElem?_set_self', hg]
  rfl

set_option maxRecDepth 1000000 in
/-- Claim C8 does not hold in the code.  A task submitted to a paired session and then
stopped 201 times through `/stop-task` has 202 entries in its log buffer, a state
reached through the operations of the system in which a buffer holds more than 200
entries; the next run of the cleanup timer cuts the buffer to 200.  Every append inside
the loop performs the length check (the buffer is never longer afterwards than both 100
and its previous length), whereas the append of `/stop-task`, the append after the loop
and the append of the outer error handler put one more entry at the head without
it. -/
theorem repeated_stop_task_exceeds_storage_cap :
    (∃ logs, taskLogOf (sysRun (initialState (freshStats 0)) repeatedStopEvents) "t1" = some logs ∧
      200 < logs.length) ∧
      (taskLogOf (sysRun (initialState (freshStats 0)) repeatedStopEvents) "t1").map List.length
        = some 202 ∧
      (taskLogOf (cleanupTick 20 (sysRun (initialState (freshStats 0)) repeatedStopEvents))
        "t1").map List.length = some 200 ∧
      (∀ (e : LogEntry) (logs : List LogEntry),
        (unshiftCapped e logs).length ≤ max 100 logs.length) ∧
      (∀ (a : LoopArgs) (v : LoopView) (now : Instant),
        (loopStep a v (.stopTask now)).logs
          = stopLog now (stopTaskInfo now v.taskInfo) :: v.logs) ∧
      (∀ (now : Instant) (v : LoopView), (loopExit now v).logs.length = v.logs.length + 1) ∧
      (∀ (now : Instant) (errMessage : String) (v : LoopView),
        (loopCrash now errMessage v).logs.length = v.logs.length + 1) := by
  have h : (taskLogOf (sysRun (initialState (freshStats 0)) repeatedStopEvents) "t1").map
      List.length = some 202 := by decide
  refine ⟨?_, h, by decide, unshiftCapped_length_le, fun _ _ _ => rfl, fun _ _ => rfl,
    fun _ _ _ => rfl⟩
  cases hl : taskLogOf (sysRun (initialState (freshStats 0)) repeatedStopEvents) "t1" with
  | none => rw [hl] at h; cases h
  | some logs =>
    rw [hl] at h
    simp only [Option.map_some', Option.some.injEq] at h
    exact ⟨logs, rfl, by omega⟩

/-- After 101 appends by the scheduler to an empty buffer only 100 entries are stored:
the statement of C9 fails at `n = 101`. -/
theorem scheduler_keeps_only_hundred_of_101 :
    (numberedEntries 101).length = 101 ∧
      (appendAll [] (numberedEntries 101)).length = 100 ∧
      (appendAll [] (numberedEntries 101)).length ≠ (numberedEntries 101).length := by
  have hlen := numberedEntries_length 101
  have h : (appendAll [] (numberedEntries 101)).length = 100 := by
    rw [appendAll_nil, List.length_take, List.length_reverse, hlen]
    rfl
  exact ⟨hlen, h, by rw [h, hlen]; decide⟩

/-- Claim C9 (amended): the two caps in the code are the scheduler's append cap of 100
and the cleanup timer's truncation cap of 200.  For every `n > 100` (in particular for
`100 < n ≤ 200`), after `n` entries have been appended by the scheduler to an empty
buffer exactly the 100 most recent are stored, newest first, and the truncation to 200
leaves that buffer as it is. -/
theorem scheduler_append_cap_is_hundred (entries : List LogEntry)
    (hn : 100 < entries.length) :
    (appendAll [] entries).length = 100 ∧
      appendAll [] entries = (entries.drop (entries.length - 100)).reverse ∧
      truncateLogs (appendAll [] entries) = appendAll [] entries := by
  have hlen : (appendAll [] entries).length = 100 := by
    rw [appendAll_nil, List.length_take, List.length_reverse]
    omega
  refine ⟨hlen, ?_, ?_⟩
  · rw [appendAll_nil, List.take_reverse]
  · unfold truncateLogs
    rw [hlen]
    simp

/-- The amended C9 at 150 numbered entries. -/
theorem scheduler_append_cap_is_hundred_witness :
    100 < (numberedEntries 150).length ∧ (numberedEntries 150).length ≤ 200 ∧
      (appendAll [] (numberedEntries 150)).length = 100 :=
  ⟨by rw [numberedEntries_length]; decide, by rw [numberedEntries_length]; decide,
    (scheduler_append_cap_is_hundred (numberedEntries 150)
      (by rw [numberedEntries_length]; decide)).1⟩

/-! ## Submitting a task -/

/-- The message list is empty exactly when every line of the file is blank. -/
theorem parseMessages_eq_nil_iff (text : String) :
    parseMessages text = [] ↔
      ∀ line ∈ splitNewline text.data, line.all isJsWhiteSpace = true := by
  unfold parseMessages
  rw [List.filter_eq_nil_iff]
  constructor
  · intro h line hl
    have := h (String.mk line) (List.mem_map_of_mem _ hl)
    have ht : jsTrim (String.mk line) = "" := by simpa using this
    exact (jsTrim_eq_empty_iff _).1 ht
  · intro h msg hm
    obtain ⟨line, hl, rfl⟩ := List.mem_map.1 hm
    have := (jsTrim_eq_empty_iff (String.mk line)).2 (h line hl)
    simp [this]

/-- Claim C10: `/send-message` from an address whose session is registered, with a file
that has no non-blank line, answers with a validation error (`Message file is empty`,
or `Missing required fields` when another field is missing) and returns the state
unchanged: task lists, the task-log map and all counters are as before. -/
theorem submit_with_blank_file_changes_nothing (r : SendMessageRequest) (taskId : String)
    (now : Instant) (s : SystemState) (sessionId : String) (cref : Nat) (clientInfo : ClientInfo)
    (text : String)
    (hown : mapGet s.userSessions r.userIP = some sessionId) (hsid : sessionId ≠ "")
    (hreg : mapGet s.activeClients sessionId = some cref)
    (hobj : s.clientStore[cref]? = some clientInfo)
    (hfile : r.messageFile = .readable text)
    (hblank : ∀ line ∈ splitNewline text.data, line.all isJsWhiteSpace = true) :
    (sendMessageHandler r taskId now s).2 = s ∧
      (sendMessageHandler r taskId now s).1 =
        (if jsTruthy r.target && jsTruthy r.targetType && jsTruthy r.delaySec then .emptyFile
         else .missingFields) := by
  have hmsgs : parseMessages text = [] := (parseMessages_eq_nil_iff text).2 hblank
  have hhas : mapHas s.activeClients sessionId = true := by
    unfold mapHas
    unfold mapGet at hreg
    rw [hreg]
    rfl
  unfold sendMessageHandler
  simp only [hown, hsid, hreg, hobj, hhas, hfile]
  cases ht : r.target with
  | none => simp [jsTruthy]
  | some target =>
    cases hty : r.targetType with
    | none => simp [jsTruthy]
    | some targetType =>
      cases hd : r.delaySec with
      | none => simp [jsTruthy]
      | some delaySec =>
        by_cases h1 : target = "" <;> by_cases h2 : targetType = "" <;>
          by_cases h3 : delaySec = "" <;> simp [jsTruthy, h1, h2, h3, hmsgs]

set_option maxRecDepth 100000 in
/-- Claim C10 at the paired session of `10.0.0.1` and a file of blank lines: the
hypotheses hold, the answer is `Message file is empty`, and the state is unchanged. -/
theorem submit_with_blank_file_changes_nothing_witness :
    mapGet pairedState.userSessions blankFileRequest.userIP = some "s1" ∧
      mapGet pairedState.activeClients "s1" = some 0 ∧
      (sendMessageHandler blankFileRequest "t1" (at_ 3) pairedState).2 = pairedState ∧
      (sendMessageHandler blankFileRequest "t1" (at_ 3) pairedState).1 = .emptyFile :=
  ⟨by decide, by decide,
    (submit_with_blank_file_changes_nothing blankFileRequest "t1" (at_ 3) pairedState "s1" 0
      { client := 0, number := "918000000000", authPath := "temp/s1", isConnected := true,
        tasks := [], lastActivity := 2 }
      " \n\n\t" (by decide) (by decide) (by decide) (by decide) (by decide) (by decide)).1,
    (submit_with_blank_file_changes_nothing blankFileRequest "t1" (at_ 3) pairedState "s1" 0
      { client := 0, number := "918000000000", authPath := "temp/s1", isConnected := true,
        tasks := [], lastActivity := 2 }
      " \n\n\t" (by decide) (by decide) (by decide) (by decide) (by decide) (by decide)).2⟩

/-! ## Steps that leave the registry alone -/

theorem SameRegistry.refl (s : SystemState) : SameRegistry s s := ⟨rfl, rfl, rfl⟩

theorem SameRegistry.trans {s s1 s2 : SystemState} (h1 : SameRegistry s s1)
    (h2 : SameRegistry s1 s2) : SameRegistry s s2 :=
  ⟨h2.1.trans h1.1, h2.2.1.trans h1.2.1, h2.2.2.trans h1.2.2⟩

theorem storeView_same (s : SystemState) (p : LoopProc) (v : LoopView) :
    SameRegistry s (storeView s p v) := by
  unfold storeView
  cases s.clientStore[p.clientRef]? with
  | none => exact SameRegistry.refl s
  | some c => exact ⟨rfl, rfl, by simp⟩

theorem commitCheck_same (s : SystemState) (p : LoopProc) (v : LoopView) :
    SameRegistry s (commitCheck s p v) := by
  unfold commitCheck
  cases v.pc <;> exact storeView_same s p v

theorem sendMessagesLoop_same (a : LoopArgs) (now : Instant) (s : SystemState) :
    SameRegistry s (sendMessagesLoop a now s) := by
  unfold sendMessagesLoop
  cases mapGet s.activeClients a.sessionId with
  | none => exact SameRegistry.refl s
  | some cref =>
    simp only
    cases s.clientStore[cref]? with
    | none => exact SameRegistry.refl s
    | some c =>
      simp only
      cases c.tasks.findIdx? (fun t => t.taskId == a.taskId) with
      | none => exact SameRegistry.refl s
      | some pos =>
        simp only
        split
        · exact SameRegistry.refl s
        · rename_i v hv
          refine SameRegistry.trans ?_ (SameRegistry.trans (commitCheck_same _ _ _) ⟨rfl, rfl, rfl⟩)
          cases mapGet s.taskLogs a.taskId <;> exact ⟨rfl, rfl, rfl⟩

theorem loopWake_same (i : Nat) (now : Instant) (s : SystemState) :
    SameRegistry s (loopWake i now s) := by
  unfold loopWake
  cases s.loops[i]? with
  | none => exact SameRegistry.refl s
  | some p =>
    simp only
    split
    · exact SameRegistry.trans (commitCheck_same _ _ _) ⟨rfl, rfl, rfl⟩
    · exact SameRegistry.refl s

theorem loopSettle_same (i : Nat) (now : Instant) (o : SendOutcome) (s : SystemState) :
    SameRegistry s (loopSettle i now o s) := by
  unfold loopSettle
  cases s.loops[i]? with
  | none => exact SameRegistry.refl s
  | some p =>
    simp only
    split
    · exact SameRegistry.trans (storeView_same _ _ _) ⟨rfl, rfl, rfl⟩
    · exact SameRegistry.refl s

theorem setConnected_same (cref : Nat) (up : Bool) (act : Option Nat) (s : SystemState) :
    SameRegistry s (setConnected cref up act s) := by
  unfold setConnected
  cases s.clientStore[cref]? with
  | none => exact SameRegistry.refl s
  | some c => exact ⟨rfl, rfl, by simp⟩

theorem scheduleReconnect_same (sock : Socket) (code : Option Nat) (s : SystemState) :
    SameRegistry s (scheduleReconnect sock code s) := by
  unfold scheduleReconnect
  split_ifs <;> exact ⟨rfl, rfl, rfl⟩

theorem resumeTasks_same (sessionId : String) (h cref : Nat) (now : Instant) (s : SystemState) :
    SameRegistry s (resumeTasks sessionId h cref now s) := by
  unfold resumeTasks
  cases s.clientStore[cref]? with
  | none => exact SameRegistry.refl s
  | some c0 =>
    simp only
    generalize List.range c0.tasks.length = l
    induction l generalizing s with
    | nil => exact SameRegistry.refl s
    | cons x xs ih =>
      simp only [List.foldl_cons]
      refine SameRegistry.trans ?_ (ih _)
      cases s.clientStore[cref]? with
      | none => exact SameRegistry.refl s
      | some c =>
        simp only
        cases c.tasks[x]? with
        | none => exact SameRegistry.refl s
        | some task =>
          simp only
          split_ifs
          · exact sendMessagesLoop_same _ _ _
          · exact SameRegistry.refl s

theorem connectionUpdate_same (h : Nat) (u : ConnUpdate) (now : Instant) (s : SystemState) :
    SameRegistry s (connectionUpdate h u now s) := by
  unfold connectionUpdate
  cases s.sockets[h]? with
  | none => exact SameRegistry.refl s
  | some sock =>
    simp only
    split
    · split
      · exact setConnected_same _ _ _ _
      · exact SameRegistry.refl s
    · split
      · exact SameRegistry.trans (setConnected_same _ _ _ _) (scheduleReconnect_same _ _ _)
      · exact SameRegistry.refl s
    · exact SameRegistry.trans (setConnected_same _ _ _ _) (resumeTasks_same _ _ _ _ _)
    · exact SameRegistry.trans (setConnected_same _ _ _ _) (scheduleReconnect_same _ _ _)
    · exact SameRegistry.refl s

theorem unshiftTaskLog_same (taskId : String) (e : LogEntry) (s : SystemState) :
    SameRegistry s (unshiftTaskLog taskId e s) := by
  unfold unshiftTaskLog
  cases mapGet s.taskLogs taskId <;> exact ⟨rfl, rfl, rfl⟩

theorem stopTaskHandler_same (sessionId taskId : String) (now : Instant) (s : SystemState) :
    SameRegistry s (stopTaskHandler sessionId taskId now s).2 := by
  unfold stopTaskHandler
  repeat' split
  all_goals
    first
    | exact SameRegistry.refl s
    | (dsimp only
       refine SameRegistry.trans ?_ (unshiftTaskLog_same _ _ _)
       exact ⟨rfl, rfl, by simp⟩)

theorem sendMessageHandler_same (r : SendMessageRequest) (taskId : String) (now : Instant)
    (s : SystemState) : SameRegistry s (sendMessageHandler r taskId now s).2 := by
  unfold sendMessageHandler
  repeat' split
  all_goals try dsimp only
  repeat' split
  all_goals
    first
    | exact SameRegistry.refl s
    | exact ⟨rfl, rfl, rfl⟩
    | (refine SameRegistry.trans ?_ (sendMessagesLoop_same _ _ _)
       exact ⟨rfl, rfl, by simp⟩)

theorem monitorTick_same (s : SystemState) : SameRegistry s (monitorTick s) := ⟨rfl, rfl, rfl⟩

theorem cleanupLogs_same (s : SystemState) : SameRegistry s (cleanupLogs s) := ⟨rfl, rfl, rfl⟩

/-! ## The maps -/

theorem mapGet_cons {β : Type} (k1 : String) (v1 : β) (m : List (String × β)) (k : String) :
    mapGet ((k1, v1) :: m) k = if k1 = k then some v1 else mapGet m k := by
  unfold mapGet
  rw [List.lookup_cons]
  by_cases h : k1 = k
  · subst h; simp
  · have : (k == k1) = false := by simpa using fun e => h e.symm
    rw [this, if_neg h]

theorem mapGet_mapSet_self {β : Type} (m : List (String × β)) (k : String) (v : β) :
    mapGet (mapSet m k v) k = some v := by
  induction m with
  | nil => simp [mapSet, mapGet_cons]
  | cons x xs ih =>
    obtain ⟨k1, v1⟩ := x
    unfold mapSet
    by_cases hk : k1 = k
    · simp [hk, mapGet_cons]
    · simp only [hk, if_false, mapGet_cons]
      exact ih

theorem mapGet_mapSet_ne {β : Type} (m : List (String × β)) (k k2 : String) (v : β)
    (h : k2 ≠ k) : mapGet (mapSet m k v) k2 = mapGet m k2 := by
  induction m with
  | nil =>
    simp only [mapSet, mapGet_cons]
    rw [if_neg (fun e => h e.symm)]
  | cons x xs ih =>
    obtain ⟨k1, v1⟩ := x
    unfold mapSet
    by_cases hk : k1 = k
    · subst hk
      have hne : ¬ k1 = k2 := fun e => h e.symm
      simp [mapGet_cons, hne]
    · simp only [hk, if_false, mapGet_cons, ih]

theorem mem_mapSet {β : Type} (m : List (String × β)) (k : String) (v : β) (e : String × β)
    (h : e ∈ mapSet m k v) : e = (k, v) ∨ e ∈ m := by
  induction m with
  | nil => simp [mapSet] at h; exact Or.inl h
  | cons x xs ih =>
    obtain ⟨k1, v1⟩ := x
    unfold mapSet at h
    by_cases hk : k1 = k
    · simp only [hk, if_true, List.mem_cons] at h
      rcases h with h | h
      · exact Or.inl h
      · exact Or.inr (List.mem_cons_of_mem _ h)
    · simp only [hk, if_false, List.mem_cons] at h
      rcases h with h | h
      · exact Or.inr (h ▸ List.mem_cons_self _ _)
      · rcases ih h with h | h
        · exact Or.inl h
        · exact Or.inr (List.mem_cons_of_mem _ h)

theorem keys_mapSet {β : Type} (m : List (String × β)) (k : String) (v : β) (k2 : String)
    (h : k2 ∈ (mapSet m k v).map Prod.fst) : k2 = k ∨ k2 ∈ m.map Prod.fst := by
  obtain ⟨e, he, rfl⟩ := List.mem_map.1 h
  rcases mem_mapSet m k v e he with h | h
  · exact Or.inl (by rw [h])
  · exact Or.inr (List.mem_map_of_mem _ h)

theorem nodup_mapSet {β : Type} (m : List (String × β)) (k : String) (v : β)
    (h : (m.map Prod.fst).Nodup) : ((mapSet m k v).map Prod.fst).Nodup := by
  induction m with
  | nil => simp [mapSet]
  | cons x xs ih =>
    obtain ⟨k1, v1⟩ := x
    simp only [List.map_cons, List.nodup_cons] at h
    unfold mapSet
    by_cases hk : k1 = k
    · subst hk
      simp only [if_true, List.map_cons, List.nodup_cons]
      exact h
    · simp only [hk, if_false, List.map_cons, List.nodup_cons]
      refine ⟨fun hmem => ?_, ih h.2⟩
      rcases keys_mapSet xs k v k1 hmem with h1 | h1
      · exact hk h1
      · exact h.1 h1

theorem mapDelete_sublist {β : Type} (m : List (String × β)) (k : String) :
    (mapDelete m k).Sublist m := by
  induction m with
  | nil => exact List.Sublist.refl _
  | cons x xs ih =>
    obtain ⟨k1, v1⟩ := x
    unfold mapDelete
    by_cases hk : k1 = k
    · simp only [hk, if_true]
      exact List.sublist_cons_self _ _
    · simp only [hk, if_false]
      exact ih.cons₂ _

theorem not_mem_keys_mapDelete {β : Type} (m : List (String × β)) (k : String)
    (h : (m.map Prod.fst).Nodup) : k ∉ (mapDelete m k).map Prod.fst := by
  induction m with
  | nil => simp [mapDelete]
  | cons x xs ih =>
    obtain ⟨k1, v1⟩ := x
    simp only [List.map_cons, List.nodup_cons] at h
    unfold mapDelete
    by_cases hk : k1 = k
    · subst hk
      simp only [if_true]
      exact h.1
    · simp only [hk, if_false, List.map_cons, List.mem_cons, not_or]
      exact ⟨fun e => hk e.symm, ih h.2⟩

theorem mapGet_mapDelete_ne {β : Type} (m : List (String × β)) (k k2 : String) (h : k2 ≠ k) :
    mapGet (mapDelete m k) k2 = mapGet m k2 := by
  induction m with
  | nil => rfl
  | cons x xs ih =>
    obtain ⟨k1, v1⟩ := x
    unfold mapDelete
    by_cases hk : k1 = k
    · subst hk
      simp only [if_true, mapGet_cons]
      rw [if_neg (fun e => h e.symm)]
    · simp only [hk, if_false, mapGet_cons, ih]

theorem mapGet_eq_none_of_not_mem_keys {β : Type} (m : List (String × β)) (k : String)
    (h : k ∉ m.map Prod.fst) : mapGet m k = none := by
  induction m with
  | nil => rfl
  | cons x xs ih =>
    obtain ⟨k1, v1⟩ := x
    simp only [List.map_cons, List.mem_cons, not_or] at h
    rw [mapGet_cons, if_neg (fun e => h.1 e.symm)]
    exact ih h.2

theorem mapGet_of_mem {β : Type} (m : List (String × β)) (e : String × β)
    (hn : (m.map Prod.fst).Nodup) (h : e ∈ m) : mapGet m e.1 = some e.2 := by
  induction m with
  | nil => cases h
  | cons x xs ih =>
    obtain ⟨k1, v1⟩ := x
    simp only [List.map_cons, List.nodup_cons] at hn
    rw [mapGet_cons]
    rcases List.mem_cons.1 h with h | h
    · subst h
      simp
    · have : k1 ≠ e.1 := by
        intro e1
        exact hn.1 (e1 ▸ List.mem_map_of_mem _ h)
      rw [if_neg this]
      exact ih hn.2 h

/-! ## The registry invariant -/

theorem registryOk_of_same {s s1 : SystemState} (h : SameRegistry s s1) (hr : RegistryOk s) :
    RegistryOk s1 := by
  obtain ⟨h1, _, h3⟩ := h
  unfold RegistryOk
  rw [h1, h3]
  exact hr

theorem registryOk_initialState (stats : SystemStats) : RegistryOk (initialState stats) := by
  simp [RegistryOk, initialState]

theorem registryOk_codeHandler (r : CodeRequest) (now : Instant) (s : SystemState)
    (hr : RegistryOk s) : RegistryOk (codeHandler r now s).2 := by
  unfold codeHandler
  dsimp only
  split_ifs
  · exact hr
  · exact hr
  · cases r.pairingCode with
    | none => exact hr
    | some code =>
      refine ⟨nodup_mapSet _ _ _ hr.1, ?_⟩
      intro e he
      simp only [List.length_append, List.length_singleton]
      rcases mem_mapSet _ _ _ _ he with h | h
      · rw [h]; exact Nat.lt_succ_self _
      · exact Nat.lt_succ_of_lt (hr.2 e h)

theorem registryOk_initializeClient (i : Nat) (ok : Bool) (now : Instant) (s : SystemState)
    (hr : RegistryOk s) : RegistryOk (initializeClient i ok now s) := by
  unfold initializeClient
  cases s.pendingInits[i]? with
  | none => exact hr
  | some p =>
    dsimp only
    split_ifs
    · exact hr
    · cases hg : mapGet s.activeClients p.sessionId with
      | none =>
        refine ⟨nodup_mapSet _ _ _ hr.1, ?_⟩
        intro e he
        simp only [List.length_append, List.length_singleton]
        rcases mem_mapSet _ _ _ _ he with h | h
        · rw [h]; exact Nat.lt_succ_self _
        · exact Nat.lt_succ_of_lt (hr.2 e h)
      | some r =>
        refine ⟨nodup_mapSet _ _ _ hr.1, ?_⟩
        intro e he
        have hmem : e.2 < s.clientStore.length := by
          rcases mem_mapSet _ _ _ _ he with h | h
          · rw [h]
            exact hr.2 _ (mem_of_mapGet _ _ _ hg)
          · exact hr.2 e h
        cases hc : s.clientStore[r]? with
        | none => simpa [hc] using hmem
        | some c => simpa [hc] using hmem

theorem registryOk_stopSessionHandler (sessionId : String) (now : Instant) (s : SystemState)
    (hr : RegistryOk s) : RegistryOk (stopSessionHandler sessionId now s).2 := by
  unfold stopSessionHandler
  cases mapGet s.activeClients sessionId with
  | none => exact hr
  | some cref =>
    refine ⟨(List.Sublist.map _ (mapDelete_sublist _ _)).nodup hr.1, ?_⟩
    intro e he
    have hlen : (match s.clientStore[cref]? with
        | some c => s.clientStore.set cref { c with tasks := c.tasks.map (stopTaskInfo now) }
        | none => s.clientStore).length = s.clientStore.length := by
      cases s.clientStore[cref]? <;> simp
    show e.2 < (match s.clientStore[cref]? with
        | some c => s.clientStore.set cref { c with tasks := c.tasks.map (stopTaskInfo now) }
        | none => s.clientStore).length
    rw [hlen]
    exact hr.2 e ((mapDelete_sublist _ _).subset he)

/-! ## The cleanup timer and the session list -/

theorem cleanupSessions_eq (now : Nat) (s : SystemState) :
    cleanupSessions now s = s.activeClients.foldl (evictIfIdle now) s := rfl

theorem evictIfIdle_frame (now : Nat) (st : SystemState) (e : String × Nat) :
    (evictIfIdle now st e).clientStore = st.clientStore ∧
      (evictIfIdle now st e).logStore = st.logStore ∧
      (evictIfIdle now st e).taskLogs = st.taskLogs ∧
      (evictIfIdle now st e).loops = st.loops ∧
      (evictIfIdle now st e).systemStats = st.systemStats ∧
      (evictIfIdle now st e).pendingInits = st.pendingInits ∧
      (evictIfIdle now st e).sockets = st.sockets ∧
      (evictIfIdle now st e).activeClients.Sublist st.activeClients := by
  unfold evictIfIdle
  cases st.clientStore[e.2]? with
  | none => exact ⟨rfl, rfl, rfl, rfl, rfl, rfl, rfl, List.Sublist.refl _⟩
  | some c =>
    simp only
    split_ifs
    · exact ⟨rfl, rfl, rfl, rfl, rfl, rfl, rfl, mapDelete_sublist _ _⟩
    · exact ⟨rfl, rfl, rfl, rfl, rfl, rfl, rfl, List.Sublist.refl _⟩

theorem evictFold_frame (now : Nat) (entries : List (String × Nat)) :
    ∀ st : SystemState,
      (entries.foldl (evictIfIdle now) st).clientStore = st.clientStore ∧
      (entries.foldl (evictIfIdle now) st).logStore = st.logStore ∧
      (entries.foldl (evictIfIdle now) st).taskLogs = st.taskLogs ∧
      (entries.foldl (evictIfIdle now) st).loops = st.loops ∧
      (entries.foldl (evictIfIdle now) st).systemStats = st.systemStats ∧
      (entries.foldl (evictIfIdle now) st).pendingInits = st.pendingInits ∧
      (entries.foldl (evictIfIdle now) st).sockets = st.sockets ∧
      (entries.foldl (evictIfIdle now) st).activeClients.Sublist st.activeClients := by
  induction entries with
  | nil => intro st; exact ⟨rfl, rfl, rfl, rfl, rfl, rfl, rfl, List.Sublist.refl _⟩
  | cons e es ih =>
    intro st
    simp only [List.foldl_cons]
    obtain ⟨a1, a2, a3, a4, a5, a6, a7, a8⟩ := ih (evictIfIdle now st e)
    obtain ⟨b1, b2, b3, b4, b5, b6, b7, b8⟩ := evictIfIdle_frame now st e
    exact ⟨a1.trans b1, a2.trans b2, a3.trans b3, a4.trans b4, a5.trans b5, a6.trans b6,
      a7.trans b7, a8.trans b8⟩

/-- Every entry visited by the loop whose session is idle has its key absent from the
registry afterwards. -/
theorem evictFold_removes (now : Nat) (entries : List (String × Nat)) :
    ∀ st : SystemState, (st.activeClients.map Prod.fst).Nodup →
      ∀ e ∈ entries, ∀ c, st.clientStore[e.2]? = some c → isIdle now c →
        e.1 ∉ (entries.foldl (evictIfIdle now) st).activeClients.map Prod.fst := by
  induction entries with
  | nil => intro st _ e he; cases he
  | cons x xs ih =>
    intro st hn e he c hc hidle
    simp only [List.foldl_cons]
    obtain ⟨b1, _, _, _, _, _, _, b8⟩ := evictIfIdle_frame now st x
    have hn1 : ((evictIfIdle now st x).activeClients.map Prod.fst).Nodup :=
      (List.Sublist.map _ b8).nodup hn
    rcases List.mem_cons.1 he with h | h
    · subst h
      have hgone : e.1 ∉ (evictIfIdle now st e).activeClients.map Prod.fst := by
        unfold evictIfIdle
        rw [hc]
        simp only
        have hcond : c.lastActivity ≠ 0 ∧ now - c.lastActivity > idleLimitMs := hidle
        rw [if_pos hcond]
        exact not_mem_keys_mapDelete _ _ hn
      intro hmem
      exact hgone ((List.Sublist.map _ (evictFold_frame now xs _).2.2.2.2.2.2.2).subset hmem)
    · exact ih _ hn1 e h c (by rw [b1]; exact hc) hidle

theorem mem_mapDelete_of_ne {β : Type} (m : List (String × β)) (k : String) (e : String × β)
    (h : e ∈ m) (hk : e.1 ≠ k) : e ∈ mapDelete m k := by
  induction m with
  | nil => cases h
  | cons x xs ih =>
    obtain ⟨k1, v1⟩ := x
    unfold mapDelete
    by_cases h1 : k1 = k
    · simp only [h1, if_true]
      rcases List.mem_cons.1 h with h | h
      · exact absurd (by rw [h, h1]) hk
      · exact h
    · simp only [h1, if_false]
      rcases List.mem_cons.1 h with h | h
      · exact h ▸ List.mem_cons_self _ _
      · exact List.mem_cons_of_mem _ (ih h)

/-- A registered session that is not idle is still registered after the loop. -/
theorem evictFold_keeps (now : Nat) (entries : List (String × Nat)) :
    ∀ st : SystemState, (st.activeClients.map Prod.fst).Nodup →
      (∀ x ∈ entries, x ∈ st.activeClients ∨ x.1 ∉ st.activeClients.map Prod.fst) →
      ∀ e ∈ st.activeClients, (∀ c, st.clientStore[e.2]? = some c → ¬ isIdle now c) →
        e ∈ (entries.foldl (evictIfIdle now) st).activeClients := by
  induction entries with
  | nil => intro st _ _ e he _; exact he
  | cons x xs ih =>
    intro st hn hsub e he hnot
    simp only [List.foldl_cons]
    obtain ⟨b1, _, _, _, _, _, _, b8⟩ := evictIfIdle_frame now st x
    have hn1 : ((evictIfIdle now st x).activeClients.map Prod.fst).Nodup :=
      (List.Sublist.map _ b8).nodup hn
    have hkeep : e ∈ (evictIfIdle now st x).activeClients := by
      unfold evictIfIdle
      cases hx : st.clientStore[x.2]? with
      | none => exact he
      | some c =>
        simp only
        split_ifs with hidle
        · refine mem_mapDelete_of_ne _ _ _ he ?_
          intro hk
          rcases hsub x (List.mem_cons_self _ _) with hxm | hxm
          · have h1 := mapGet_of_mem _ _ hn hxm
            have h2 := mapGet_of_mem _ _ hn he
            rw [hk, h1] at h2
            have hx2 : x.2 = e.2 := Option.some.inj h2
            exact hnot c (by rw [← hx2]; exact hx) hidle
          · exact hxm (hk ▸ List.mem_map_of_mem _ he)
        · exact he
    refine ih _ hn1 ?_ e hkeep (by intro c hc; exact hnot c (by rw [← b1]; exact hc))
    intro y hy
    rcases hsub y (List.mem_cons_of_mem _ hy) with hym | hym
    · by_cases hmem : y ∈ (evictIfIdle now st x).activeClients
      · exact Or.inl hmem
      · right
        intro hk
        obtain ⟨z, hz, hzk⟩ := List.mem_map.1 hk
        have hz0 : z ∈ st.activeClients := b8.subset hz
        have h1 := mapGet_of_mem _ _ hn hz0
        have h2 := mapGet_of_mem _ _ hn hym
        rw [hzk, h2] at h1
        have : z = y := Prod.ext hzk (Option.some.inj h1).symm
        exact hmem (this ▸ hz)
    · right
      intro hk
      exact hym ((List.Sublist.map _ b8).subset hk)

theorem cleanupTick_frame (now : Nat) (s : SystemState) :
    (cleanupTick now s).clientStore = s.clientStore ∧
      (cleanupTick now s).loops = s.loops ∧
      (cleanupTick now s).systemStats = s.systemStats ∧
      (cleanupTick now s).pendingInits = s.pendingInits ∧
      (cleanupTick now s).sockets = s.sockets ∧
      (cleanupTick now s).activeClients.Sublist s.activeClients := by
  obtain ⟨a1, _, _, a4, a5, a6, a7, a8⟩ := evictFold_frame now s.activeClients s
  exact ⟨a1, a4, a5, a6, a7, a8⟩

theorem registryOk_cleanupTick (now : Nat) (s : SystemState) (hr : RegistryOk s) :
    RegistryOk (cleanupTick now s) := by
  obtain ⟨a1, _, _, _, _, a8⟩ := cleanupTick_frame now s
  refine ⟨(List.Sublist.map _ a8).nodup hr.1, ?_⟩
  intro e he
  rw [a1]
  exact hr.2 e (a8.subset he)

theorem registryOk_sysStep (s : SystemState) (ev : SysEvent) (hr : RegistryOk s) :
    RegistryOk (sysStep s ev) := by
  cases ev with
  | code r now => exact registryOk_codeHandler r now s hr
  | sendMessage r taskId now => exact registryOk_of_same (sendMessageHandler_same r taskId now s) hr
  | stopSession sessionId now => exact registryOk_stopSessionHandler sessionId now s hr
  | stopTask sessionId taskId now =>
    exact registryOk_of_same (stopTaskHandler_same sessionId taskId now s) hr
  | cleanup now => exact registryOk_cleanupTick now s hr
  | monitor => exact registryOk_of_same (monitorTick_same s) hr
  | connection h u now => exact registryOk_of_same (connectionUpdate_same h u now s) hr
  | reconnect i ok now => exact registryOk_initializeClient i ok now s hr
  | wake i now => exact registryOk_of_same (loopWake_same i now s) hr
  | settle i now o => exact registryOk_of_same (loopSettle_same i now o s) hr

/-- The registry invariant holds in every state the process can reach. -/
theorem registryOk_sysRun (es : List SysEvent) :
    ∀ s : SystemState, RegistryOk s → RegistryOk (sysRun s es) := by
  induction es with
  | nil => intro s h; exact h
  | cons e es ih => intro s h; exact ih _ (registryOk_sysStep s e h)

theorem listSessions_ids (s : SystemState) (hr : RegistryOk s) :
    (listSessions s).map (fun x => x.sessionId) = s.activeClients.map Prod.fst := by
  unfold listSessions
  have hvalid := hr.2
  generalize s.activeClients = m at hvalid
  induction m with
  | nil => rfl
  | cons e es ih =>
    have he := hvalid e (List.mem_cons_self _ _)
    have hget : s.clientStore[e.2]? = some (s.clientStore.get ⟨e.2, he⟩) := by
      simp [List.getElem?_eq_getElem he]
    simp only [List.filterMap_cons, hget, List.map_cons]
    rw [ih (fun x hx => hvalid x (List.mem_cons_of_mem _ hx))]

theorem listSessions_mem (s : SystemState) (x : SessionSummary) (hx : x ∈ listSessions s) :
    ∃ e ∈ s.activeClients, ∃ c, s.clientStore[e.2]? = some c ∧ x.sessionId = e.1 ∧
      x.lastActivity = c.lastActivity ∧ x.taskCount = c.tasks.length := by
  unfold listSessions at hx
  obtain ⟨e, he, hsome⟩ := List.mem_filterMap.1 hx
  cases hc : s.clientStore[e.2]? with
  | none => rw [hc] at hsome; cases hsome
  | some c =>
    rw [hc] at hsome
    simp only [Option.some.injEq] at hsome
    subst hsome
    exact ⟨e, he, c, hc, rfl, rfl, rfl⟩

/-- Claim C15: after one run of the cleanup timer at time `now`, on any state whose
registry is well formed, no session remains registered whose `lastActivity` (a clock
reading, hence non-zero) is more than 24 hours before `now`; so none appears in the
answer of `/api/sessions`, which consists of exactly one summary per session still
registered, in registry order and without repeated ids. -/
theorem sweep_evicts_idle_sessions (now : Nat) (s : SystemState) (hr : RegistryOk s) :
    (∀ e ∈ (cleanupTick now s).activeClients, ∀ c,
        (cleanupTick now s).clientStore[e.2]? = some c →
          c.lastActivity ≠ 0 → now - c.lastActivity ≤ idleLimitMs) ∧
      (∀ x ∈ listSessions (cleanupTick now s),
        x.lastActivity ≠ 0 → now - x.lastActivity ≤ idleLimitMs) ∧
      (listSessions (cleanupTick now s)).map (fun x => x.sessionId)
        = (cleanupTick now s).activeClients.map Prod.fst ∧
      ((cleanupTick now s).activeClients.map Prod.fst).Nodup := by
  obtain ⟨a1, _, _, _, _, a8⟩ := cleanupTick_frame now s
  have hok := registryOk_cleanupTick now s hr
  have hmain : ∀ e ∈ (cleanupTick now s).activeClients, ∀ c,
      (cleanupTick now s).clientStore[e.2]? = some c →
        c.lastActivity ≠ 0 → now - c.lastActivity ≤ idleLimitMs := by
    intro e he c hc h0
    by_contra hlt
    have hidle : isIdle now c := ⟨h0, by omega⟩
    rw [a1] at hc
    have := evictFold_removes now s.activeClients s hr.1 e (a8.subset he) c hc hidle
    exact this (List.mem_map_of_mem _ he)
  refine ⟨hmain, ?_, listSessions_ids _ hok, hok.1⟩
  intro x hx h0
  obtain ⟨e, he, c, hc, _, hl, _⟩ := listSessions_mem _ x hx
  rw [hl] at h0 ⊢
  exact hmain e he c hc h0


set_option maxRecDepth 100000 in
/-- Claim C15 at the session whose only activity was 24 hours before the sweep: the
registry is well formed, the session is listed before the sweep and `/api/sessions`
is empty after it. -/
theorem sweep_evicts_idle_sessions_witness :
    RegistryOk failedSendState ∧
      (listSessions failedSendState).map (fun x => (x.sessionId, x.lastActivity))
        = [("s1", 3)] ∧
      listSessions (cleanupTick nextDay failedSendState) = [] ∧
      ((cleanupTick nextDay failedSendState).activeClients.map Prod.fst).Nodup :=
  ⟨registryOk_sysRun _ _
      (registryOk_sysRun _ _ (registryOk_sysRun _ _ (registryOk_initialState _))),
    by decide, by decide,
    (sweep_evicts_idle_sessions nextDay failedSendState
      (registryOk_sysRun _ _
        (registryOk_sysRun _ _ (registryOk_sysRun _ _ (registryOk_initialState _))))).2.2.2⟩

/-! ## Accepted submissions -/

/-- A submission with a registered session, non-empty `target`, `targetType` and
`delaySec` and a file with at least one non-blank line is accepted: the handler builds
the task, registers it and calls `sendMessagesLoop`. -/
theorem sendMessageHandler_accepted (r : SendMessageRequest) (taskId : String) (now : Instant)
    (s : SystemState) (sessionId : String) (cref : Nat) (clientInfo : ClientInfo)
    (target targetType delaySec text : String)
    (hown : mapGet s.userSessions r.userIP = some sessionId) (hsid : sessionId ≠ "")
    (hreg : mapGet s.activeClients sessionId = some cref)
    (hobj : s.clientStore[cref]? = some clientInfo)
    (ht : r.target = some target) (ht0 : target ≠ "")
    (hk : r.targetType = some targetType) (hk0 : targetType ≠ "")
    (hd : r.delaySec = some delaySec) (hd0 : delaySec ≠ "")
    (hfile : r.messageFile = .readable text) (hmsgs : parseMessages text ≠ []) :
    sendMessageHandler r taskId now s =
      (.redirectToStatus sessionId,
        sendMessagesLoop
          (submitArgs sessionId clientInfo
            (newTask taskId target targetType (parseMessages text) delaySec r.pfx now))
          now
          (registerTask cref clientInfo
            (newTask taskId target targetType (parseMessages text) delaySec r.pfx now) now s)) := by
  have hhas : mapHas s.activeClients sessionId = true := by
    unfold mapHas
    unfold mapGet at hreg
    rw [hreg]
    rfl
  have hlen : (parseMessages text).length ≠ 0 := by
    intro h
    exact hmsgs (List.length_eq_zero.1 h)
  unfold sendMessageHandler
  simp only [hown, hsid, hreg, hobj, hhas, hfile, ht, hk, hd]
  simp [jsTruthy, ht0, hk0, hd0, hlen, registerTask, submitArgs, newTask]

/-- What the call `sendMessagesLoop(...)` does to the process when it finds its objects. -/
theorem sendMessagesLoop_found (a : LoopArgs) (now : Instant) (s : SystemState)
    (cref pos lref : Nat) (c : ClientInfo) (t : TaskInfo) (logs : List LogEntry)
    (hs : mapGet s.activeClients a.sessionId = some cref)
    (hc : s.clientStore[cref]? = some c)
    (hp : c.tasks.findIdx? (fun t => t.taskId == a.taskId) = some pos)
    (ht : c.tasks[pos]? = some t)
    (hl : mapGet s.taskLogs a.taskId = some lref)
    (hg : s.logStore[lref]? = some logs) :
    (sendMessagesLoop a now s).clientStore = s.clientStore.set cref
        { c with
          isConnected := (loopStart a now (initialView c t logs s.systemStats)).isConnected
          lastActivity := (loopStart a now (initialView c t logs s.systemStats)).lastActivity
          tasks := c.tasks.set pos (loopStart a now (initialView c t logs s.systemStats)).taskInfo } ∧
      (sendMessagesLoop a now s).logStore
        = s.logStore.set lref (loopStart a now (initialView c t logs s.systemStats)).logs ∧
      mapGet (sendMessagesLoop a now s).taskLogs a.taskId = some lref ∧
      (sendMessagesLoop a now s).systemStats
        = (loopStart a now (initialView c t logs s.systemStats)).systemStats ∧
      (sendMessagesLoop a now s).loops = s.loops ++
        [{ args := a, clientRef := cref, taskPos := pos, logsRef := lref,
           index := (loopStart a now (initialView c t logs s.systemStats)).index,
           pc := (loopStart a now (initialView c t logs s.systemStats)).pc }] := by
  have hview : viewOf s
      { args := a, clientRef := cref, taskPos := pos, logsRef := lref, index := 0, pc := .delaying }
      = some (initialView c t logs s.systemStats) := by
    simp [viewOf, hc, hg, ht, initialView]
  unfold sendMessagesLoop
  simp only [hs, hc, hp, hl, hview]
  unfold commitCheck
  cases hpc : (loopStart a now (initialView c t logs s.systemStats)).pc <;>
    simp [storeView, registerLogs, hc, hl, mapGet_mapSet_self]


theorem loopCheck_session (a : LoopArgs) (now : Instant) (v : LoopView) :
    (loopCheck a now v).isConnected = v.isConnected ∧
      (loopCheck a now v).lastActivity = v.lastActivity := by
  unfold loopCheck
  split_ifs <;> exact ⟨rfl, rfl⟩

theorem loopStart_running (a : LoopArgs) (now : Instant) (v : LoopView)
    (hrun : v.taskInfo.isSending = true) (hstop : v.taskInfo.stopRequested = false) :
    (loopStart a now v).taskInfo = v.taskInfo ∧
      (loopStart a now v).systemStats = v.systemStats ∧
      (loopStart a now v).logs
        = (if v.isConnected then v.logs else unshiftCapped (waitingLog now) v.logs) := by
  cases hcon : v.isConnected with
  | true => simp [loopStart, loopCheck, hrun, hstop, hcon]
  | false => simp [loopStart, loopCheck, hrun, hstop, hcon]

theorem findIdx_append_new (old : List TaskInfo) (new : TaskInfo) (taskId : String)
    (hnew : new.taskId = taskId) :
    ∃ pos t, (old ++ [new]).findIdx? (fun t => t.taskId == taskId) = some pos ∧
      (old ++ [new])[pos]? = some t ∧ pos ≤ old.length ∧ (pos = old.length → t = new) ∧
      ((∀ x ∈ old, x.taskId ≠ taskId) → pos = old.length) := by
  rw [List.findIdx?_append]
  cases hf : old.findIdx? (fun t => t.taskId == taskId) with
  | none =>
    refine ⟨old.length, new, ?_, ?_, Nat.le_refl _, fun _ => rfl, fun _ => rfl⟩
    · simp [hnew]
    · simp
  | some pos =>
    have hlt : pos < old.length := by
      rw [List.findIdx?_eq_some_iff_getElem] at hf
      exact hf.1
    have hmatch := List.findIdx?_of_eq_some hf
    have hget : old[pos]? = some (old.get ⟨pos, hlt⟩) := by
      simp [List.getElem?_eq_getElem hlt]
    rw [hget] at hmatch
    refine ⟨pos, old.get ⟨pos, hlt⟩, by simp, ?_, Nat.le_of_lt hlt, ?_, ?_⟩
    · rw [List.getElem?_append_left hlt, hget]
    · intro h; omega
    · intro hfresh
      exfalso
      exact hfresh _ (List.get_mem old pos hlt) (by simpa using hmatch)


/-- The state after `/send-message` has accepted a task: the session has one more task,
the new one last and untouched, one more call of the loop exists, and, when the task
id is not already used in the session, the registered log array is empty (session
connected) or holds the waiting entry logged by the first pass (not connected). -/
theorem registerTask_start (sessionId : String) (cref : Nat) (clientInfo : ClientInfo)
    (new : TaskInfo) (now : Instant) (s : SystemState)
    (hreg : mapGet s.activeClients sessionId = some cref)
    (hobj : s.clientStore[cref]? = some clientInfo)
    (hrun : new.isSending = true) (hstop : new.stopRequested = false) :
    (sendMessagesLoop (submitArgs sessionId clientInfo new) now
        (registerTask cref clientInfo new now s)).activeClients = s.activeClients ∧
    ∃ tasks,
      (sendMessagesLoop (submitArgs sessionId clientInfo new) now
          (registerTask cref clientInfo new now s)).clientStore[cref]?
        = some { clientInfo with tasks := tasks, lastActivity := now.epochMs } ∧
      tasks.length = clientInfo.tasks.length + 1 ∧
      tasks[clientInfo.tasks.length]? = some new ∧
      (sendMessagesLoop (submitArgs sessionId clientInfo new) now
          (registerTask cref clientInfo new now s)).loops.length = s.loops.length + 1 ∧
      ((∀ x ∈ clientInfo.tasks, x.taskId ≠ new.taskId) →
        tasks = clientInfo.tasks ++ [new] ∧
        taskLogOf
            (sendMessagesLoop (submitArgs sessionId clientInfo new) now
              (registerTask cref clientInfo new now s)) new.taskId
          = some (if clientInfo.isConnected then [] else [waitingLog now])) := by
  obtain ⟨pos, t, hp, ht, hle, hlast, hfresh⟩ :=
    findIdx_append_new clientInfo.tasks new new.taskId rfl
  have hlt : cref < s.clientStore.length := by
    by_contra h
    rw [List.getElem?_eq_none (by omega)] at hobj
    cases hobj
  have h2 : (registerTask cref clientInfo new now s).clientStore[cref]?
      = some { clientInfo with
          tasks := clientInfo.tasks ++ [new], lastActivity := now.epochMs } := by
    simp [registerTask, List.getElem?_set_self hlt]
  have h4 : mapGet (registerTask cref clientInfo new now s).taskLogs
      (submitArgs sessionId clientInfo new).taskId = some s.logStore.length :=
    mapGet_mapSet_self _ _ _
  have h5 : (registerTask cref clientInfo new now s).logStore[s.logStore.length]? = some [] := by
    simp [registerTask]
  obtain ⟨e1, e2, e3, _, e5⟩ :=
    sendMessagesLoop_found (submitArgs sessionId clientInfo new) now
      (registerTask cref clientInfo new now s) cref pos s.logStore.length _ t [] hreg h2 hp ht
      h4 h5
  have hsess := loopCheck_session (submitArgs sessionId clientInfo new) now
    { initialView
        { clientInfo with tasks := clientInfo.tasks ++ [new], lastActivity := now.epochMs } t []
        (registerTask cref clientInfo new now s).systemStats with
      index := t.currentMessageIndex }
  have hrunning : t = new →
      (loopStart (submitArgs sessionId clientInfo new) now
        (initialView
          { clientInfo with tasks := clientInfo.tasks ++ [new], lastActivity := now.epochMs } t []
          (registerTask cref clientInfo new now s).systemStats)).taskInfo = new ∧
      (loopStart (submitArgs sessionId clientInfo new) now
        (initialView
          { clientInfo with tasks := clientInfo.tasks ++ [new], lastActivity := now.epochMs } t []
          (registerTask cref clientInfo new now s).systemStats)).logs
        = (if clientInfo.isConnected then [] else [waitingLog now]) := by
    intro htn
    subst htn
    obtain ⟨r1, _, r3⟩ := loopStart_running (submitArgs sessionId clientInfo t) now
        (initialView
          { clientInfo with tasks := clientInfo.tasks ++ [t], lastActivity := now.epochMs } t []
          (registerTask cref clientInfo t now s).systemStats) hrun hstop
    refine ⟨r1, ?_⟩
    rw [r3]
    cases clientInfo.isConnected <;> simp [initialView, unshiftCapped]
  have hconn : (loopStart (submitArgs sessionId clientInfo new) now
        (initialView
          { clientInfo with tasks := clientInfo.tasks ++ [new], lastActivity := now.epochMs } t []
          (registerTask cref clientInfo new now s).systemStats)).isConnected
        = clientInfo.isConnected ∧
      (loopStart (submitArgs sessionId clientInfo new) now
        (initialView
          { clientInfo with tasks := clientInfo.tasks ++ [new], lastActivity := now.epochMs } t []
          (registerTask cref clientInfo new now s).systemStats)).lastActivity = now.epochMs := hsess
  generalize loopStart (submitArgs sessionId clientInfo new) now
        (initialView
          { clientInfo with tasks := clientInfo.tasks ++ [new], lastActivity := now.epochMs } t []
          (registerTask cref clientInfo new now s).systemStats) = V at e1 e2 e5 hrunning hconn
  have hlen : cref < (registerTask cref clientInfo new now s).clientStore.length := by
    simp [registerTask, hlt]
  have hl2 : s.logStore.length < (registerTask cref clientInfo new now s).logStore.length := by
    simp [registerTask]
  refine ⟨(sendMessagesLoop_same _ _ _).1, (clientInfo.tasks ++ [new]).set pos V.taskInfo,
    ?_, ?_, ?_, ?_, ?_⟩
  · rw [e1, List.getElem?_set_self hlen, hconn.1, hconn.2]
  · simp
  · by_cases hpos : pos = clientInfo.tasks.length
    · rw [(hrunning (hlast hpos)).1, hpos]
      simp
    · rw [List.getElem?_set_ne hpos]
      simp
  · rw [e5]
    simp [registerTask]
  · intro hf
    have hpos : pos = clientInfo.tasks.length := hfresh hf
    obtain ⟨r1, r3⟩ := hrunning (hlast hpos)
    refine ⟨?_, ?_⟩
    · rw [r1, hpos]
      simp
    · unfold taskLogOf
      have e3b : mapGet (sendMessagesLoop (submitArgs sessionId clientInfo new) now
          (registerTask cref clientInfo new now s)).taskLogs new.taskId
          = some s.logStore.length := e3
      rw [e3b]
      simp only
      rw [e2, r3, List.getElem?_set_self hl2]

theorem mapHas_of_mapGet {β : Type} (m : List (String × β)) (k : String) (v : β)
    (h : mapGet m k = some v) : mapHas m k = true := by
  unfold mapHas
  unfold mapGet at h
  rw [h]
  rfl

theorem tasksOf_eq (s : SystemState) (sessionId : String) (cref : Nat) (c : ClientInfo)
    (h1 : mapGet s.activeClients sessionId = some cref) (h2 : s.clientStore[cref]? = some c) :
    tasksOf s sessionId = c.tasks := by
  simp [tasksOf, h1, h2]

/-- The tasks of the session, the number of calls of the loop and the status page after an
accepted submission. -/
theorem submit_accepted_state (r : SendMessageRequest) (taskId : String) (now : Instant)
    (s : SystemState) (sessionId : String) (cref : Nat) (clientInfo : ClientInfo)
    (target targetType delaySec text : String)
    (hown : mapGet s.userSessions r.userIP = some sessionId) (hsid : sessionId ≠ "")
    (hreg : mapGet s.activeClients sessionId = some cref)
    (hobj : s.clientStore[cref]? = some clientInfo)
    (ht : r.target = some target) (ht0 : target ≠ "")
    (hk : r.targetType = some targetType) (hk0 : targetType ≠ "")
    (hd : r.delaySec = some delaySec) (hd0 : delaySec ≠ "")
    (hfile : r.messageFile = .readable text) (hmsgs : parseMessages text ≠ []) :
    (sendMessageHandler r taskId now s).1 = .redirectToStatus sessionId ∧
      (tasksOf (sendMessageHandler r taskId now s).2 sessionId).length
        = clientInfo.tasks.length + 1 ∧
      (tasksOf (sendMessageHandler r taskId now s).2 sessionId)[clientInfo.tasks.length]?
        = some (newTask taskId target targetType (parseMessages text) delaySec r.pfx now) ∧
      (sendMessageHandler r taskId now s).2.loops.length = s.loops.length + 1 ∧
      sessionStatusHandler sessionId (sendMessageHandler r taskId now s).2
        = .page sessionId clientInfo.number clientInfo.isConnected now.epochMs
            ((tasksOf (sendMessageHandler r taskId now s).2 sessionId).map taskRow) ∧
      ((∀ x ∈ clientInfo.tasks, x.taskId ≠ taskId) →
        tasksOf (sendMessageHandler r taskId now s).2 sessionId
          = clientInfo.tasks
              ++ [newTask taskId target targetType (parseMessages text) delaySec r.pfx now] ∧
        taskLogOf (sendMessageHandler r taskId now s).2 taskId
          = some (if clientInfo.isConnected then [] else [waitingLog now])) := by
  rw [sendMessageHandler_accepted r taskId now s sessionId cref clientInfo target targetType
    delaySec text hown hsid hreg hobj ht ht0 hk hk0 hd hd0 hfile hmsgs]
  obtain ⟨hac, tasks, hstore, hlen, hlast, hloops, hfresh⟩ :=
    registerTask_start sessionId cref clientInfo
      (newTask taskId target targetType (parseMessages text) delaySec r.pfx now) now s hreg hobj
      rfl rfl
  have hreg2 := hac ▸ hreg
  have htasks := tasksOf_eq _ sessionId cref _ (by rw [hac]; exact hreg) hstore
  simp only at htasks ⊢
  refine ⟨trivial, by rw [htasks]; exact hlen, by rw [htasks]; exact hlast, hloops, ?_, ?_⟩
  · unfold sessionStatusHandler
    have hhas := mapHas_of_mapGet _ _ _ hreg
    rw [hac]
    simp only [hsid, hhas, hreg, hstore, htasks]
    simp
  · intro hf
    obtain ⟨f1, f2⟩ := hfresh hf
    exact ⟨by rw [htasks]; exact f1, f2⟩

/-! ## What `/send-message` validates -/

set_option maxRecDepth 100000 in
/-- Submissions with delay `0`, `1` and `-3` to the paired session are accepted: the
answer is the redirect to the status page, the task exists with that delay and is
sending, and for delay `0` the loop has already started the first send.  The
statement of C11 fails at these inputs. -/
theorem delay_below_minimum_is_accepted :
    (sendMessageHandler (delayRequest "0") "t1" (at_ 3) pairedState).1 = .redirectToStatus "s1" ∧
      (tasksOf (sendMessageHandler (delayRequest "0") "t1" (at_ 3) pairedState).2 "s1").map
        (fun t => (t.taskId, t.delaySec, t.isSending)) = [("t1", "0", true)] ∧
      textInFlight (sendMessageHandler (delayRequest "0") "t1" (at_ 3) pairedState).2 0
        = some "Hi a" ∧
      (sendMessageHandler (delayRequest "1") "t1" (at_ 3) pairedState).1 = .redirectToStatus "s1" ∧
      (sendMessageHandler (delayRequest "-3") "t1" (at_ 3) pairedState).1
        = .redirectToStatus "s1" ∧
      (tasksOf (sendMessageHandler (delayRequest "-3") "t1" (at_ 3) pairedState).2 "s1").map
        (fun t => (t.taskId, t.delaySec, t.isSending)) = [("t1", "-3", true)] := by
  decide

/-- Claim C11 (amended): `/send-message` checks the delay for presence only.  For a
registered session and an otherwise valid submission, a missing or empty `delaySec`
is rejected with `Missing required fields` and the state is unchanged, while every
non-empty `delaySec`, whatever its value, is accepted: the task is created with that
delay, is sending, and a call of the loop is started. -/
theorem delay_is_checked_for_presence_only (r : SendMessageRequest) (taskId : String)
    (now : Instant) (s : SystemState) (sessionId : String) (cref : Nat) (clientInfo : ClientInfo)
    (target targetType text : String)
    (hown : mapGet s.userSessions r.userIP = some sessionId) (hsid : sessionId ≠ "")
    (hreg : mapGet s.activeClients sessionId = some cref)
    (hobj : s.clientStore[cref]? = some clientInfo)
    (ht : r.target = some target) (ht0 : target ≠ "")
    (hk : r.targetType = some targetType) (hk0 : targetType ≠ "")
    (hfile : r.messageFile = .readable text) (hmsgs : parseMessages text ≠ []) :
    (jsTruthy r.delaySec = false → sendMessageHandler r taskId now s = (.missingFields, s)) ∧
      (∀ delaySec, r.delaySec = some delaySec → delaySec ≠ "" →
        (sendMessageHandler r taskId now s).1 = .redirectToStatus sessionId ∧
          (tasksOf (sendMessageHandler r taskId now s).2 sessionId)[clientInfo.tasks.length]?
            = some (newTask taskId target targetType (parseMessages text) delaySec r.pfx now) ∧
          (newTask taskId target targetType (parseMessages text) delaySec r.pfx now).delaySec
            = delaySec ∧
          (newTask taskId target targetType (parseMessages text) delaySec r.pfx now).isSending
            = true ∧
          (sendMessageHandler r taskId now s).2.loops.length = s.loops.length + 1) := by
  constructor
  · intro hfalse
    have hhas := mapHas_of_mapGet _ _ _ hreg
    unfold sendMessageHandler
    simp [hown, hsid, hreg, hobj, hhas, hfalse]
  · intro delaySec hd hd0
    obtain ⟨h1, _, h3, h4, _, _⟩ :=
      submit_accepted_state r taskId now s sessionId cref clientInfo target targetType delaySec
        text hown hsid hreg hobj ht ht0 hk hk0 hd hd0 hfile hmsgs
    exact ⟨h1, h3, rfl, rfl, h4⟩

set_option maxRecDepth 100000 in
/-- The amended C11 at the paired session and delay `0`: the hypotheses hold and the
submission is accepted. -/
theorem delay_is_checked_for_presence_only_witness :
    mapGet pairedState.userSessions (delayRequest "0").userIP = some "s1" ∧
      mapGet pairedState.activeClients "s1" = some 0 ∧
      pairedState.clientStore[0]? = some pairedClient ∧
      parseMessages "a\nb" ≠ [] ∧
      (sendMessageHandler (delayRequest "0") "t1" (at_ 3) pairedState).1
        = .redirectToStatus "s1" ∧
      (sendMessageHandler (delayRequest "0") "t1" (at_ 3) pairedState).2.loops.length
        = pairedState.loops.length + 1 :=
  ⟨by decide, by decide, by decide, by decide,
    ((delay_is_checked_for_presence_only (delayRequest "0") "t1" (at_ 3) pairedState "s1" 0
      pairedClient "9190000000" "number" "a\nb" (by decide) (by decide) (by decide) (by decide)
      rfl (by decide) rfl (by decide) rfl (by decide)).2 "0" rfl (by decide)).1,
    ((delay_is_checked_for_presence_only (delayRequest "0") "t1" (at_ 3) pairedState "s1" 0
      pairedClient "9190000000" "number" "a\nb" (by decide) (by decide) (by decide) (by decide)
      rfl (by decide) rfl (by decide) rfl (by decide)).2 "0" rfl (by decide)).2.2.2.2⟩


set_option maxRecDepth 100000 in
/-- A submission with target kind `broadcast` to the paired session is accepted: the
task exists with that kind and is sending, and the loop has started the first send.
The statement of C12 fails at this input. -/
theorem unknown_target_kind_is_accepted :
    (sendMessageHandler (kindRequest "broadcast") "t1" (at_ 3) pairedState).1
        = .redirectToStatus "s1" ∧
      (tasksOf (sendMessageHandler (kindRequest "broadcast") "t1" (at_ 3) pairedState).2 "s1").map
        (fun t => (t.taskId, t.targetType, t.isSending)) = [("t1", "broadcast", true)] ∧
      textInFlight (sendMessageHandler (kindRequest "broadcast") "t1" (at_ 3) pairedState).2 0
        = some "Hi a" ∧
      recipient "9190000000" "broadcast" = "9190000000@s.whatsapp.net" := by
  decide

/-- Claim C12 (amended): `/send-message` checks the target kind for presence only.  For a
registered session and an otherwise valid submission, a missing or empty `targetType`
is rejected with `Missing required fields` and the state is unchanged, while every
non-empty `targetType` is accepted: the task is created with that kind, is sending,
and a call of the loop is started; a kind other than `group` is addressed like a user
number, at `target@s.whatsapp.net`. -/
theorem target_kind_is_checked_for_presence_only (r : SendMessageRequest) (taskId : String)
    (now : Instant) (s : SystemState) (sessionId : String) (cref : Nat) (clientInfo : ClientInfo)
    (target delaySec text : String)
    (hown : mapGet s.userSessions r.userIP = some sessionId) (hsid : sessionId ≠ "")
    (hreg : mapGet s.activeClients sessionId = some cref)
    (hobj : s.clientStore[cref]? = some clientInfo)
    (ht : r.target = some target) (ht0 : target ≠ "")
    (hd : r.delaySec = some delaySec) (hd0 : delaySec ≠ "")
    (hfile : r.messageFile = .readable text) (hmsgs : parseMessages text ≠ []) :
    (jsTruthy r.targetType = false → sendMessageHandler r taskId now s = (.missingFields, s)) ∧
      (∀ targetType, r.targetType = some targetType → targetType ≠ "" →
        (sendMessageHandler r taskId now s).1 = .redirectToStatus sessionId ∧
          (tasksOf (sendMessageHandler r taskId now s).2 sessionId)[clientInfo.tasks.length]?
            = some (newTask taskId target targetType (parseMessages text) delaySec r.pfx now) ∧
          (newTask taskId target targetType (parseMessages text) delaySec r.pfx now).targetType
            = targetType ∧
          (newTask taskId target targetType (parseMessages text) delaySec r.pfx now).isSending
            = true ∧
          (sendMessageHandler r taskId now s).2.loops.length = s.loops.length + 1 ∧
          (targetType ≠ "group" →
            recipient target targetType = target ++ "@s.whatsapp.net")) := by
  constructor
  · intro hfalse
    have hhas := mapHas_of_mapGet _ _ _ hreg
    unfold sendMessageHandler
    simp [hown, hsid, hreg, hobj, hhas, hfalse]
  · intro targetType hk hk0
    obtain ⟨h1, _, h3, h4, _, _⟩ :=
      submit_accepted_state r taskId now s sessionId cref clientInfo target targetType delaySec
        text hown hsid hreg hobj ht ht0 hk hk0 hd hd0 hfile hmsgs
    refine ⟨h1, h3, rfl, rfl, h4, ?_⟩
    intro hg
    simp [recipient, hg]

set_option maxRecDepth 100000 in
/-- The amended C12 at the paired session and kind `broadcast`: the hypotheses hold and
the submission is accepted. -/
theorem target_kind_is_checked_for_presence_only_witness :
    mapGet pairedState.userSessions (kindRequest "broadcast").userIP = some "s1" ∧
      mapGet pairedState.activeClients "s1" = some 0 ∧
      pairedState.clientStore[0]? = some pairedClient ∧
      parseMessages "a\nb" ≠ [] ∧
      (sendMessageHandler (kindRequest "broadcast") "t1" (at_ 3) pairedState).1
        = .redirectToStatus "s1" ∧
      (sendMessageHandler (kindRequest "broadcast") "t1" (at_ 3) pairedState).2.loops.length
        = pairedState.loops.length + 1 :=
  ⟨by decide, by decide, by decide, by decide,
    ((target_kind_is_checked_for_presence_only (kindRequest "broadcast") "t1" (at_ 3)
      pairedState "s1" 0 pairedClient "9190000000" "5" "a\nb" (by decide) (by decide) (by decide)
      (by decide) rfl (by decide) rfl (by decide) rfl (by decide)).2 "broadcast" rfl
      (by decide)).1,
    ((target_kind_is_checked_for_presence_only (kindRequest "broadcast") "t1" (at_ 3)
      pairedState "s1" 0 pairedClient "9190000000" "5" "a\nb" (by decide) (by decide) (by decide)
      (by decide) rfl (by decide) rfl (by decide) rfl (by decide)).2 "broadcast" rfl
      (by decide)).2.2.2.2.1⟩

/-- Claim C13: `/send-message` from an address that has no entry in `userSessions`, or
whose entry names a session id that is not in `activeClients`, answers with the
no-active-session error and returns the state unchanged (registry, task lists, the
task-log map and all counters). -/
theorem submit_without_session_is_rejected (r : SendMessageRequest) (taskId : String)
    (now : Instant) (s : SystemState)
    (h : mapGet s.userSessions r.userIP = none ∨
      ∃ sessionId, mapGet s.userSessions r.userIP = some sessionId ∧
        mapGet s.activeClients sessionId = none) :
    sendMessageHandler r taskId now s = (.noActiveSession, s) := by
  unfold sendMessageHandler
  rcases h with h | ⟨sessionId, h1, h2⟩
  · rw [h]
  · have hhas : mapHas s.activeClients sessionId = false := by
      unfold mapHas
      unfold mapGet at h2
      rw [h2]
      rfl
    simp [h1, hhas]

set_option maxRecDepth 100000 in
/-- Claim C13 at an address that never paired (`10.0.0.9`): the submission gets the
no-active-session error and the state is unchanged. -/
theorem submit_without_session_is_rejected_witness :
    mapGet pairedState.userSessions "10.0.0.9" = none ∧
      sendMessageHandler { twoMessageRequest with userIP := "10.0.0.9" } "t1" (at_ 3) pairedState
        = (.noActiveSession, pairedState) :=
  ⟨by decide,
    submit_without_session_is_rejected { twoMessageRequest with userIP := "10.0.0.9" } "t1"
      (at_ 3) pairedState (Or.inl (by decide))⟩

set_option maxRecDepth 100000 in
/-- A task submitted after pairing but before the socket has opened: the submission is
accepted, and the log array registered under the task id already holds the waiting
entry that the first pass of the loop logs, so it is not empty as C14 states. -/
theorem submit_before_open_logs_waiting_entry :
    (sendMessageHandler twoMessageRequest "t1" (at_ 3) unopenedState).1
        = .redirectToStatus "s1" ∧
      taskLogOf (sendMessageHandler twoMessageRequest "t1" (at_ 3) unopenedState).2 "t1"
        = some [waitingLog (at_ 3)] ∧
      taskLogOf (sendMessageHandler twoMessageRequest "t1" (at_ 3) unopenedState).2 "t1"
        ≠ some [] := by
  decide

/-- Claim C14 (amended): after an accepted `/send-message` the owner's session has
exactly one more task, the new one last; that task is running (`isSending` true,
`stopRequested` false) with `sentMessages = 0` and cursor 0; a status query made right
after shows it `RUNNING` with `sentMessages = 0`; and, for a task id not already used
in the session, the other tasks are unchanged and the log array registered under the
task id is empty when the session is connected and holds exactly the Info waiting
entry of the loop's first pass when it is not. -/
theorem submit_appends_running_task (r : SendMessageRequest) (taskId : String)
    (now : Instant) (s : SystemState) (sessionId : String) (cref : Nat) (clientInfo : ClientInfo)
    (target targetType delaySec text : String)
    (hown : mapGet s.userSessions r.userIP = some sessionId) (hsid : sessionId ≠ "")
    (hreg : mapGet s.activeClients sessionId = some cref)
    (hobj : s.clientStore[cref]? = some clientInfo)
    (ht : r.target = some target) (ht0 : target ≠ "")
    (hk : r.targetType = some targetType) (hk0 : targetType ≠ "")
    (hd : r.delaySec = some delaySec) (hd0 : delaySec ≠ "")
    (hfile : r.messageFile = .readable text) (hmsgs : parseMessages text ≠ []) :
    (sendMessageHandler r taskId now s).1 = .redirectToStatus sessionId ∧
      (tasksOf (sendMessageHandler r taskId now s).2 sessionId).length
        = clientInfo.tasks.length + 1 ∧
      (∃ t, (tasksOf (sendMessageHandler r taskId now s).2 sessionId)[clientInfo.tasks.length]?
          = some t ∧
        t.taskId = taskId ∧ t.isSending = true ∧ t.stopRequested = false ∧
        t.sentMessages = 0 ∧ t.currentMessageIndex = 0) ∧
      (∃ rows row,
        sessionStatusHandler sessionId (sendMessageHandler r taskId now s).2
          = .page sessionId clientInfo.number clientInfo.isConnected now.epochMs rows ∧
        rows.length = clientInfo.tasks.length + 1 ∧
        rows[clientInfo.tasks.length]? = some row ∧
        row.taskId = taskId ∧ row.status = .running ∧ row.sentMessages = 0) ∧
      ((∀ x ∈ clientInfo.tasks, x.taskId ≠ taskId) →
        tasksOf (sendMessageHandler r taskId now s).2 sessionId
          = clientInfo.tasks
              ++ [newTask taskId target targetType (parseMessages text) delaySec r.pfx now] ∧
        taskLogOf (sendMessageHandler r taskId now s).2 taskId
          = some (if clientInfo.isConnected then [] else [waitingLog now]) ∧
        (waitingLog now).type = .info) := by
  obtain ⟨h1, h2, h3, _, h5, h6⟩ :=
    submit_accepted_state r taskId now s sessionId cref clientInfo target targetType delaySec
      text hown hsid hreg hobj ht ht0 hk hk0 hd hd0 hfile hmsgs
  refine ⟨h1, h2, ⟨_, h3, rfl, rfl, rfl, rfl, rfl⟩, ?_, ?_⟩
  · refine ⟨_, taskRow (newTask taskId target targetType (parseMessages text) delaySec r.pfx now),
      h5, by rw [List.length_map, h2], ?_, rfl, rfl, rfl⟩
    rw [List.getElem?_map, h3]
    rfl
  · intro hf
    obtain ⟨f1, f2⟩ := h6 hf
    exact ⟨f1, f2, rfl⟩

set_option maxRecDepth 100000 in
/-- The amended C14 for the two-message task, submitted to the connected session (empty
log array) and to the session that has not opened yet (one waiting entry). -/
theorem submit_appends_running_task_witness :
    mapGet pairedState.userSessions twoMessageRequest.userIP = some "s1" ∧
      mapGet pairedState.activeClients "s1" = some 0 ∧
      pairedState.clientStore[0]? = some pairedClient ∧
      parseMessages "a\nb" ≠ [] ∧
      (tasksOf (sendMessageHandler twoMessageRequest "t1" (at_ 3) pairedState).2 "s1").length
        = pairedClient.tasks.length + 1 ∧
      taskLogOf (sendMessageHandler twoMessageRequest "t1" (at_ 3) pairedState).2 "t1"
        = some (if pairedClient.isConnected then [] else [waitingLog (at_ 3)]) :=
  ⟨by decide, by decide, by decide, by decide,
    (submit_appends_running_task twoMessageRequest "t1" (at_ 3) pairedState "s1" 0 pairedClient
      "9190000000" "number" "5" "a\nb" (by decide) (by decide) (by decide) (by decide)
      rfl (by decide) rfl (by decide) rfl (by decide) rfl (by decide)).2.1,
    ((submit_appends_running_task twoMessageRequest "t1" (at_ 3) pairedState "s1" 0 pairedClient
      "9190000000" "number" "5" "a\nb" (by decide) (by decide) (by decide) (by decide)
      rfl (by decide) rfl (by decide) rfl (by decide) rfl (by decide)).2.2.2.2
      (by decide)).2.1⟩

/-! ## Stopping a session and stopping a task -/

/-- When at most one owner entry names the session, none names it after the entry is
deleted. -/
theorem deleteFirstOwner_unique (m : List (String × String)) (sid : String)
    (h : (m.filter (fun e => decide (e.2 = sid))).length ≤ 1) :
    ∀ e ∈ deleteFirstOwner m sid, e.2 ≠ sid := by
  induction m with
  | nil => intro e he; cases he
  | cons x xs ih =>
    obtain ⟨ip, s1⟩ := x
    unfold deleteFirstOwner
    by_cases hs : s1 = sid
    · simp only [hs, if_true]
      intro e he heq
      have hmem : e ∈ xs.filter (fun e => decide (e.2 = sid)) := by
        simp [List.mem_filter, he, heq]
      have hpos : 0 < (xs.filter (fun e => decide (e.2 = sid))).length :=
        List.length_pos_of_mem hmem
      have hcons : ((ip, s1) :: xs).filter (fun e => decide (e.2 = sid))
          = (ip, s1) :: xs.filter (fun e => decide (e.2 = sid)) := by
        simp [List.filter_cons, hs]
      rw [hcons, List.length_cons] at h
      omega
    · simp only [hs, if_false]
      intro e he
      rcases List.mem_cons.1 he with h1 | h1
      · rw [h1]; exact hs
      · refine ih ?_ e h1
        have hcons : ((ip, s1) :: xs).filter (fun e => decide (e.2 = sid))
            = xs.filter (fun e => decide (e.2 = sid)) := by
          simp [List.filter_cons, hs]
        rw [hcons] at h
        exact h

/-- Deleting the owner entry of one session keeps every owner entry of another. -/
theorem mapGet_deleteFirstOwner (m : List (String × String)) (sid ip sid2 : String)
    (hne : sid2 ≠ sid) (h : mapGet m ip = some sid2) :
    mapGet (deleteFirstOwner m sid) ip = some sid2 := by
  induction m with
  | nil => cases h
  | cons x xs ih =>
    obtain ⟨ip1, s1⟩ := x
    rw [mapGet_cons] at h
    unfold deleteFirstOwner
    by_cases hs : s1 = sid
    · simp only [hs, if_true]
      by_cases hip : ip1 = ip
      · rw [if_pos hip] at h
        exact absurd ((Option.some.inj h).symm.trans hs) hne
      · rw [if_neg hip] at h
        exact h
    · simp only [hs, if_false]
      rw [mapGet_cons]
      by_cases hip : ip1 = ip
      · rw [if_pos hip] at h ⊢
        exact h
      · rw [if_neg hip] at h ⊢
        exact ih h

/-- Claim C17: `/stop-session` on a registered session id answers that the session was
stopped; every task of the session gets `stopRequested = true`, `isSending = false` and
`endTime` set to the time of the request; the id is no longer in `activeClients`; when
at most one owner entry of `userSessions` names the session, none names it afterwards;
every other registered id, every other stored client (with its tasks) and every owner
entry of another session are as before. -/
theorem stop_session_terminates (sessionId : String) (now : Instant) (s : SystemState)
    (cref : Nat) (c : ClientInfo) (hr : RegistryOk s)
    (hreg : mapGet s.activeClients sessionId = some cref)
    (hobj : s.clientStore[cref]? = some c) :
    (stopSessionHandler sessionId now s).1 = .stopped ∧
      (stopSessionHandler sessionId now s).2.clientStore[cref]?
        = some { c with tasks := c.tasks.map (stopTaskInfo now) } ∧
      (∀ t ∈ c.tasks.map (stopTaskInfo now),
        t.stopRequested = true ∧ t.isSending = false ∧ t.endTime = some now.epochMs) ∧
      mapGet (stopSessionHandler sessionId now s).2.activeClients sessionId = none ∧
      ((s.userSessions.filter (fun e => decide (e.2 = sessionId))).length ≤ 1 →
        ∀ e ∈ (stopSessionHandler sessionId now s).2.userSessions, e.2 ≠ sessionId) ∧
      (∀ other, other ≠ sessionId →
        mapGet (stopSessionHandler sessionId now s).2.activeClients other
          = mapGet s.activeClients other) ∧
      (∀ i, i ≠ cref →
        (stopSessionHandler sessionId now s).2.clientStore[i]? = s.clientStore[i]?) ∧
      (∀ ip other, other ≠ sessionId → mapGet s.userSessions ip = some other →
        mapGet (stopSessionHandler sessionId now s).2.userSessions ip = some other) := by
  have hlt : cref < s.clientStore.length := by
    by_contra h
    rw [List.getElem?_eq_none (by omega)] at hobj
    cases hobj
  unfold stopSessionHandler
  simp only [hreg, hobj]
  refine ⟨trivial, List.getElem?_set_self hlt, ?_, ?_, ?_, ?_, ?_, ?_⟩
  · intro t ht
    obtain ⟨t0, _, rfl⟩ := List.mem_map.1 ht
    exact ⟨rfl, rfl, rfl⟩
  · exact mapGet_eq_none_of_not_mem_keys _ _ (not_mem_keys_mapDelete _ _ hr.1)
  · exact deleteFirstOwner_unique _ _
  · intro other hne
    exact mapGet_mapDelete_ne _ _ _ hne
  · intro i hi
    exact List.getElem?_set_ne (fun e => hi e.symm)
  · intro ip other hne h
    exact mapGet_deleteFirstOwner _ _ _ _ hne h

set_option maxRecDepth 100000 in
/-- Claim C17 on the session `s1` with its running two-message task: the registry is
well formed, the session is registered with one owner entry, and after
`/stop-session` the task is stopped and neither map mentions `s1`. -/
theorem stop_session_terminates_witness :
    RegistryOk twoMessageState ∧
      mapGet twoMessageState.activeClients "s1" = some 0 ∧
      twoMessageState.clientStore[0]? = some twoMessageClient ∧
      taskFlags twoMessageState 0 = [(true, false, none)] ∧
      taskFlags (stopSessionHandler "s1" (at_ 4) twoMessageState).2 0
        = [(false, true, some 4)] ∧
      (stopSessionHandler "s1" (at_ 4) twoMessageState).2.userSessions = [] ∧
      mapGet (stopSessionHandler "s1" (at_ 4) twoMessageState).2.activeClients "s1" = none :=
  ⟨registryOk_sysRun _ _ (registryOk_sysRun _ _ (registryOk_initialState _)),
    by decide, by decide, by decide, by decide, by decide,
    (stop_session_terminates "s1" (at_ 4) twoMessageState 0 twoMessageClient
      (registryOk_sysRun _ _ (registryOk_sysRun _ _ (registryOk_initialState _)))
      (by decide) (by decide)).2.2.2.1⟩

/-- Claim C18: `/stop-task` answers with the invalid-session error and returns the state
unchanged when the session id is not registered, answers with the task-not-found error
and returns the state unchanged when no task of the session has the task id, and
otherwise acknowledges and replaces the first task with that id by its stopped copy
(`stopRequested = true`, `isSending = false`), leaving every other task of the
session, every other stored client, both maps, the counters and the suspended calls as
they were. -/
theorem stop_task_contract (sessionId taskId : String) (now : Instant) (s : SystemState) :
    (mapGet s.activeClients sessionId = none →
        stopTaskHandler sessionId taskId now s = (.invalidSession, s)) ∧
      (∀ cref c, mapGet s.activeClients sessionId = some cref → s.clientStore[cref]? = some c →
        (∀ t ∈ c.tasks, t.taskId ≠ taskId) →
        stopTaskHandler sessionId taskId now s = (.taskNotFound, s)) ∧
      (∀ cref c pos, mapGet s.activeClients sessionId = some cref →
        s.clientStore[cref]? = some c →
        c.tasks.findIdx? (fun t => t.taskId == taskId) = some pos →
        ∃ t, c.tasks[pos]? = some t ∧ t.taskId = taskId ∧
          (stopTaskHandler sessionId taskId now s).1 = .stopped ∧
          (stopTaskHandler sessionId taskId now s).2.clientStore[cref]?
            = some { c with tasks := c.tasks.set pos (stopTaskInfo now t) } ∧
          (stopTaskInfo now t).stopRequested = true ∧ (stopTaskInfo now t).isSending = false ∧
          (∀ j, j ≠ pos → (c.tasks.set pos (stopTaskInfo now t))[j]? = c.tasks[j]?) ∧
          (∀ i, i ≠ cref →
            (stopTaskHandler sessionId taskId now s).2.clientStore[i]? = s.clientStore[i]?) ∧
          (stopTaskHandler sessionId taskId now s).2.activeClients = s.activeClients ∧
          (stopTaskHandler sessionId taskId now s).2.userSessions = s.userSessions ∧
          (stopTaskHandler sessionId taskId now s).2.systemStats = s.systemStats ∧
          (stopTaskHandler sessionId taskId now s).2.loops = s.loops) := by
  refine ⟨?_, ?_, ?_⟩
  · intro h
    unfold stopTaskHandler
    rw [h]
  · intro cref c hreg hobj hnone
    have hf : c.tasks.findIdx? (fun t => t.taskId == taskId) = none := by
      rw [List.findIdx?_eq_none_iff]
      intro x hx
      simpa using hnone x hx
    unfold stopTaskHandler
    simp only [hreg, hobj, hf]
  · intro cref c pos hreg hobj hp
    have hlt : cref < s.clientStore.length := by
      by_contra h
      rw [List.getElem?_eq_none (by omega)] at hobj
      cases hobj
    have hpl : pos < c.tasks.length := by
      rw [List.findIdx?_eq_some_iff_getElem] at hp
      exact hp.1
    have hmatch := List.findIdx?_of_eq_some hp
    have hget : c.tasks[pos]? = some (c.tasks.get ⟨pos, hpl⟩) := by
      simp [List.getElem?_eq_getElem hpl]
    rw [hget] at hmatch
    have hid : (c.tasks.get ⟨pos, hpl⟩).taskId = taskId := by simpa using hmatch
    have hframe : ∀ (e : LogEntry) (s1 : SystemState),
        (unshiftTaskLog taskId e s1).clientStore = s1.clientStore ∧
        (unshiftTaskLog taskId e s1).activeClients = s1.activeClients ∧
        (unshiftTaskLog taskId e s1).userSessions = s1.userSessions ∧
        (unshiftTaskLog taskId e s1).systemStats = s1.systemStats ∧
        (unshiftTaskLog taskId e s1).loops = s1.loops := by
      intro e s1
      unfold unshiftTaskLog
      cases mapGet s1.taskLogs taskId <;> exact ⟨rfl, rfl, rfl, rfl, rfl⟩
    refine ⟨c.tasks.get ⟨pos, hpl⟩, hget, hid, ?_⟩
    unfold stopTaskHandler
    simp only [hreg, hobj, hp, hget]
    obtain ⟨f1, f2, f3, f4, f5⟩ := hframe
      (stopLog now (stopTaskInfo now (c.tasks.get ⟨pos, hpl⟩)))
      { s with
        clientStore :=
          s.clientStore.set cref
            ({ c with tasks := c.tasks.set pos (stopTaskInfo now (c.tasks.get ⟨pos, hpl⟩)) }) }
    refine ⟨trivial, ?_, rfl, rfl, ?_, ?_, f2, f3, f4, f5⟩
    · rw [f1]
      exact List.getElem?_set_self hlt
    · intro j hj
      exact List.getElem?_set_ne (fun e => hj e.symm)
    · intro i hi
      rw [f1]
      exact List.getElem?_set_ne (fun e => hi e.symm)

set_option maxRecDepth 100000 in
/-- Claim C18 on the session `s1` with its two-message task `t1`: an unknown session id
and an unknown task id leave the state as it is, and stopping `t1` stops it. -/
theorem stop_task_contract_witness :
    mapGet twoMessageState.activeClients "s9" = none ∧
      stopTaskHandler "s9" "t1" (at_ 4) twoMessageState = (.invalidSession, twoMessageState) ∧
      stopTaskHandler "s1" "t9" (at_ 4) twoMessageState = (.taskNotFound, twoMessageState) ∧
      (stopTaskHandler "s1" "t1" (at_ 4) twoMessageState).1 = .stopped ∧
      taskFlags (stopTaskHandler "s1" "t1" (at_ 4) twoMessageState).2 0
        = [(false, true, some 4)] :=
  ⟨by decide,
    (stop_task_contract "s9" "t1" (at_ 4) twoMessageState).1 (by decide),
    (stop_task_contract "s1" "t9" (at_ 4) twoMessageState).2.1 0 twoMessageClient
      (by decide) (by decide) (by decide),
    by decide, by decide⟩

/-! ## Idle eviction does not reach the tasks -/

set_option maxRecDepth 100000 in
/-- Claim C16 does not hold in the code: the cleanup timer changes no stored client,
hence no task flag and no `endTime`, and no suspended call of the loop.  For the
two-message task whose session has been idle for more than 24 hours, the sweep empties
both maps while the task keeps `isSending = true`, `stopRequested = false` and no
`endTime`; at the next iteration boundary its loop starts the next send instead of
leaving, and `/stop-task` can no longer reach it. -/
theorem sweep_leaves_tasks_running (now : Nat) (s : SystemState) :
    (cleanupTick now s).clientStore = s.clientStore ∧
      (cleanupTick now s).loops = s.loops ∧
      (listSessions failedSendState).map (fun x => x.sessionId) = ["s1"] ∧
      idleSweepState = cleanupTick nextDay failedSendState ∧
      idleSweepState.activeClients = [] ∧
      idleSweepState.userSessions = [] ∧
      taskFlags idleSweepState 0 = [(true, false, none)] ∧
      textInFlight (sysRun idleSweepState [.wake 0 (at_ (nextDay + 1))]) 0 = some "Hi a" ∧
      (stopTaskHandler "s1" "t1" (at_ (nextDay + 2)) idleSweepState).1 = .invalidSession := by
  obtain ⟨a1, a2, _⟩ := cleanupTick_frame now s
  exact ⟨a1, a2, by decide, rfl, by decide, by decide, by decide, by decide, by decide⟩

/-! ## A close with status code 401 -/

/-- Setting `isConnected` touches one stored client and none of its tasks. -/
theorem setConnected_frame (cref : Nat) (up : Bool) (act : Option Nat) (s : SystemState) :
    (setConnected cref up act s).pendingInits = s.pendingInits ∧
      (setConnected cref up act s).loops = s.loops ∧
      (∀ i : Nat, ((setConnected cref up act s).clientStore[i]?).map (fun c => c.tasks)
        = (s.clientStore[i]?).map (fun c => c.tasks)) ∧
      (∀ c, s.clientStore[cref]? = some c →
        (setConnected cref up act s).clientStore[cref]?
          = some { c with isConnected := up, lastActivity := act.getD c.lastActivity }) := by
  unfold setConnected
  cases hc : s.clientStore[cref]? with
  | none => exact ⟨rfl, rfl, fun _ => rfl, fun c h => by cases h⟩
  | some c =>
    have hlt : cref < s.clientStore.length := by
      by_contra h
      rw [List.getElem?_eq_none (by omega)] at hc
      cases hc
    refine ⟨rfl, rfl, ?_, ?_⟩
    · intro i
      by_cases hi : cref = i
      · subst hi
        simp only
        rw [List.getElem?_set_self hlt, hc]
        rfl
      · simp only
        rw [List.getElem?_set_ne hi]
    · intro c2 h2
      simp only
      rw [List.getElem?_set_self hlt]
      cases h2
      rfl

set_option maxRecDepth 100000 in
/-- After the socket of session `s1` closes with status code 401, the session is still
registered and listed (as not connected), its task is still running with no `endTime`,
and no reconnection is scheduled: the session is not terminated as C20 states. -/
theorem unauthorized_close_leaves_session_registered :
    mapGet unauthorizedState.activeClients "s1" = some 0 ∧
      (listSessions unauthorizedState).map (fun x => (x.sessionId, x.isConnected))
        = [("s1", false)] ∧
      taskFlags unauthorizedState 0 = [(true, false, none)] ∧
      unauthorizedState.pendingInits = [] := by
  decide

/-- Claim C20 (amended): a close with status code 401 leaves `activeClients`,
`userSessions`, the scheduled reconnections and the suspended calls as they were and
changes no task of any stored client; the client of the listener (the one registered
under the socket's session id for the pairing listener, the captured one for the
reconnect listener) gets `isConnected = false` and nothing else. -/
theorem unauthorized_close_only_disconnects (h : Nat) (now : Instant) (s : SystemState) :
    (connectionUpdate h (.closed (some 401)) now s).activeClients = s.activeClients ∧
      (connectionUpdate h (.closed (some 401)) now s).userSessions = s.userSessions ∧
      (connectionUpdate h (.closed (some 401)) now s).pendingInits = s.pendingInits ∧
      (connectionUpdate h (.closed (some 401)) now s).loops = s.loops ∧
      (∀ i : Nat, ((connectionUpdate h (.closed (some 401)) now s).clientStore[i]?).map
          (fun c => c.tasks) = (s.clientStore[i]?).map (fun c => c.tasks)) ∧
      (∀ sock cref c, s.sockets[h]? = some sock →
        (sock.listener = .reconnect cref ∨
          (sock.listener = .pairing ∧ mapGet s.activeClients sock.sessionId = some cref)) →
        s.clientStore[cref]? = some c →
        (connectionUpdate h (.closed (some 401)) now s).clientStore[cref]?
          = some { c with isConnected := false }) := by
  have hsame := connectionUpdate_same h (.closed (some 401)) now s
  have hsched : ∀ (sock : Socket) (s1 : SystemState),
      scheduleReconnect sock (some 401) s1 = s1 := by
    intro sock s1
    simp [scheduleReconnect]
  refine ⟨hsame.1, hsame.2.1, ?_⟩
  unfold connectionUpdate
  cases hs : s.sockets[h]? with
  | none => exact ⟨rfl, rfl, fun _ => rfl, fun sock cref c h1 => by cases h1⟩
  | some sock =>
    dsimp only
    cases hl : sock.listener with
    | pairing =>
      dsimp only
      cases hg : mapGet s.activeClients sock.sessionId with
      | none =>
        refine ⟨rfl, rfl, fun _ => rfl, ?_⟩
        intro sock2 cref c h1 h2 _
        cases h1
        rcases h2 with h2 | ⟨_, h2⟩
        · rw [hl] at h2; cases h2
        · rw [hg] at h2; cases h2
      | some r =>
        dsimp only
        rw [hsched]
        obtain ⟨f1, f2, f3, f4⟩ := setConnected_frame r false none s
        refine ⟨f1, f2, f3, ?_⟩
        intro sock2 cref c h1 h2 h3
        cases h1
        rcases h2 with h2 | ⟨_, h2⟩
        · rw [hl] at h2; cases h2
        · rw [hg] at h2
          cases h2
          exact f4 c h3
    | reconnect r =>
      dsimp only
      rw [hsched]
      obtain ⟨f1, f2, f3, f4⟩ := setConnected_frame r false none s
      refine ⟨f1, f2, f3, ?_⟩
      intro sock2 cref c h1 h2 h3
      cases h1
      rcases h2 with h2 | ⟨h2, _⟩
      · rw [hl] at h2
        cases h2
        exact f4 c h3
      · rw [hl] at h2; cases h2

set_option maxRecDepth 100000 in
/-- The amended C20 on the session `s1` with its running two-message task, whose socket
0 carries the pairing listener. -/
theorem unauthorized_close_only_disconnects_witness :
    twoMessageState.sockets[0]? = some pairingSocket ∧
      twoMessageState.clientStore[0]? = some twoMessageClient ∧
      (connectionUpdate 0 (.closed (some 401)) (at_ 4) twoMessageState).clientStore[0]?
        = some { twoMessageClient with isConnected := false } ∧
      (connectionUpdate 0 (.closed (some 401)) (at_ 4) twoMessageState).activeClients
        = twoMessageState.activeClients :=
  ⟨by decide, by decide,
    (unauthorized_close_only_disconnects 0 (at_ 4) twoMessageState).2.2.2.2.2
      pairingSocket 0 twoMessageClient (by decide) (Or.inr ⟨by decide, by decide⟩) (by decide),
    (unauthorized_close_only_disconnects 0 (at_ 4) twoMessageState).1⟩

/-! ## After a task has been stopped -/

/-- The `while` condition fails on a stopped task: the call leaves the loop. -/
theorem loopCheck_stopped (a : LoopArgs) (now : Instant) (v : LoopView)
    (h : isStopped v.taskInfo) : loopCheck a now v = loopExit now v := by
  unfold loopCheck
  simp [h.2]

/-- No event clears the flags of a stopped task. -/
theorem loopStep_stopped (a : LoopArgs) (v : LoopView) (e : LoopEvent)
    (h : isStopped v.taskInfo) : isStopped (loopStep a v e).taskInfo := by
  obtain ⟨h1, h2⟩ := h
  cases e with
  | connectionUpdate up now => exact ⟨h1, h2⟩
  | wake now =>
    unfold loopStep
    cases hpc : v.pc with
    | delaying =>
      dsimp only
      rw [loopCheck_stopped a now v ⟨h1, h2⟩]
      exact ⟨h1, rfl⟩
    | sending m t n c => exact ⟨h1, h2⟩
    | done => exact ⟨h1, h2⟩
  | sendSettled now outcome =>
    unfold loopStep
    cases hpc : v.pc with
    | delaying => exact ⟨h1, h2⟩
    | done => exact ⟨h1, h2⟩
    | sending m t n c =>
      dsimp only
      unfold loopSendSettled
      cases outcome with
      | ok => exact ⟨h1, h2⟩
      | rejected em =>
        cases em with
        | none => exact ⟨h1, rfl⟩
        | some msg =>
          dsimp only
          split
          · exact ⟨h1, h2⟩
          · exact ⟨h1, h2⟩
  | stopTask now => exact ⟨rfl, rfl⟩

theorem loopRun_stopped (a : LoopArgs) (es : List LoopEvent) (v : LoopView)
    (h : isStopped v.taskInfo) : isStopped (loopRun a v es).taskInfo := by
  induction es generalizing v with
  | nil => exact h
  | cons e es ih => exact ih (loopStep a v e) (loopStep_stopped a v e h)

/-- On a stopped task an event never starts a send: a send in flight afterwards is
the one that was in flight before. -/
theorem loopStep_stopped_pc (a : LoopArgs) (v : LoopView) (e : LoopEvent)
    (h : isStopped v.taskInfo) (hp : (loopStep a v e).pc.inFlight = true) :
    (loopStep a v e).pc = v.pc := by
  cases e with
  | connectionUpdate up now => rfl
  | stopTask now => rfl
  | wake now =>
    unfold loopStep at hp ⊢
    cases hpc : v.pc with
    | delaying =>
      rw [hpc] at hp
      dsimp only at hp
      rw [loopCheck_stopped a now v h] at hp
      simp [loopExit, LoopPc.inFlight] at hp
    | sending m t n c => dsimp only; exact hpc
    | done => dsimp only; exact hpc
  | sendSettled now outcome =>
    unfold loopStep at hp ⊢
    cases hpc : v.pc with
    | delaying => dsimp only; exact hpc
    | done => dsimp only; exact hpc
    | sending m t n c =>
      rw [hpc] at hp
      dsimp only at hp
      unfold loopSendSettled at hp
      cases outcome with
      | ok => simp [LoopPc.inFlight] at hp
      | rejected em =>
        cases em with
        | none => simp [loopCrash, LoopPc.inFlight] at hp
        | some msg =>
          dsimp only at hp
          split at hp <;> simp [LoopPc.inFlight] at hp

theorem loopRun_stopped_pc (a : LoopArgs) (es : List LoopEvent) (v : LoopView)
    (h : isStopped v.taskInfo) (hp : (loopRun a v es).pc.inFlight = true) :
    (loopRun a v es).pc = v.pc := by
  induction es generalizing v with
  | nil => rfl
  | cons e es ih =>
    have h1 := loopStep_stopped a v e h
    have h2 : (loopRun a (loopStep a v e) es).pc = (loopStep a v e).pc := ih _ h1 hp
    have h3 : (loopStep a v e).pc.inFlight = true := by
      rw [← h2]; exact hp
    have h4 := loopStep_stopped_pc a v e h h3
    show (loopRun a (loopStep a v e) es).pc = v.pc
    rw [h2, h4]

/-- Once a stopped task has no send in flight, an event adds only Info entries at
the head of the log and changes neither counter nor cursor. -/
theorem loopStep_stopped_idle (a : LoopArgs) (v : LoopView) (e : LoopEvent)
    (h : isStopped v.taskInfo) (hp : v.pc.inFlight = false) :
    (loopStep a v e).pc.inFlight = false ∧
      (loopStep a v e).taskInfo.sentMessages = v.taskInfo.sentMessages ∧
      (loopStep a v e).taskInfo.currentMessageIndex = v.taskInfo.currentMessageIndex ∧
      ∃ extra, (loopStep a v e).logs = extra ++ v.logs ∧ ∀ x ∈ extra, x.type = .info := by
  cases e with
  | connectionUpdate up now => exact ⟨hp, rfl, rfl, [], rfl, by simp⟩
  | stopTask now =>
    exact ⟨hp, rfl, rfl, [stopLog now (stopTaskInfo now v.taskInfo)], rfl, by simp [stopLog]⟩
  | wake now =>
    unfold loopStep
    cases hpc : v.pc with
    | delaying =>
      dsimp only
      rw [loopCheck_stopped a now v h]
      exact ⟨rfl, rfl, rfl, [completionLog now
        { v.taskInfo with endTime := some now.epochMs, isSending := false }], rfl,
        by simp [completionLog]⟩
    | sending m t n c => rw [hpc] at hp; simp [LoopPc.inFlight] at hp
    | done => exact ⟨by rw [hpc]; rfl, rfl, rfl, [], rfl, by simp⟩
  | sendSettled now outcome =>
    unfold loopStep
    cases hpc : v.pc with
    | delaying => exact ⟨by rw [hpc]; rfl, rfl, rfl, [], rfl, by simp⟩
    | done => exact ⟨by rw [hpc]; rfl, rfl, rfl, [], rfl, by simp⟩
    | sending m t n c => rw [hpc] at hp; simp [LoopPc.inFlight] at hp

theorem loopRun_stopped_idle (a : LoopArgs) (es : List LoopEvent) (v : LoopView)
    (h : isStopped v.taskInfo) (hp : v.pc.inFlight = false) :
    (loopRun a v es).pc.inFlight = false ∧
      (loopRun a v es).taskInfo.sentMessages = v.taskInfo.sentMessages ∧
      (loopRun a v es).taskInfo.currentMessageIndex = v.taskInfo.currentMessageIndex ∧
      ∃ extra, (loopRun a v es).logs = extra ++ v.logs ∧ ∀ x ∈ extra, x.type = .info := by
  induction es generalizing v with
  | nil => exact ⟨hp, rfl, rfl, [], rfl, by simp⟩
  | cons e es ih =>
    obtain ⟨s1, s2, s3, ex1, s4, s5⟩ := loopStep_stopped_idle a v e h hp
    obtain ⟨r1, r2, r3, ex2, r4, r5⟩ := ih (loopStep a v e) (loopStep_stopped a v e h) s1
    refine ⟨r1, r2.trans s2, r3.trans s3, ex2 ++ ex1, ?_, ?_⟩
    · show (loopRun a (loopStep a v e) es).logs = _
      rw [r4, s4, List.append_assoc]
    · intro x hx
      rcases List.mem_append.mp hx with hx | hx
      · exact r5 x hx
      · exact s5 x hx

theorem successfulSends_stopped (a : LoopArgs) (es : List LoopEvent) (v : LoopView)
    (h : isStopped v.taskInfo) : successfulSends a v es ≤ sendsInFlight v := by
  induction es generalizing v with
  | nil => exact Nat.zero_le _
  | cons e es ih =>
    have h1 := ih (loopStep a v e) (loopStep_stopped a v e h)
    show (if isSuccessfulSend v e then 1 else 0) + successfulSends a (loopStep a v e) es ≤ _
    by_cases hs : isSuccessfulSend v e = true
    · -- the send in flight resolves: the call is delaying afterwards
      have hfl : sendsInFlight v = 1 ∧ sendsInFlight (loopStep a v e) = 0 := by
        cases e with
        | connectionUpdate up now => simp [isSuccessfulSend] at hs
        | wake now => simp [isSuccessfulSend] at hs
        | stopTask now => simp [isSuccessfulSend] at hs
        | sendSettled now outcome =>
          cases outcome with
          | rejected em => simp [isSuccessfulSend] at hs
          | ok =>
            cases hpc : v.pc with
            | delaying => simp [isSuccessfulSend, hpc] at hs
            | done => simp [isSuccessfulSend, hpc] at hs
            | sending m t n c =>
              simp [sendsInFlight, loopStep, hpc, loopSendSettled, LoopPc.inFlight]
      rw [if_pos hs]
      omega
    · rw [if_neg hs]
      have hle : sendsInFlight (loopStep a v e) ≤ sendsInFlight v := by
        unfold sendsInFlight
        by_cases hp : (loopStep a v e).pc.inFlight = true
        · have := loopStep_stopped_pc a v e h hp
          rw [← this, hp]
        · rw [if_neg hp]
          exact Nat.zero_le _
      omega

/-- The sent count grows by one exactly at a send that resolves. -/
theorem loopStep_sentMessages (a : LoopArgs) (v : LoopView) (e : LoopEvent) :
    (loopStep a v e).taskInfo.sentMessages
      = v.taskInfo.sentMessages + (if isSuccessfulSend v e then 1 else 0) := by
  cases e with
  | connectionUpdate up now => rfl
  | stopTask now => rfl
  | wake now =>
    unfold loopStep
    cases hpc : v.pc with
    | delaying =>
      dsimp only
      unfold loopCheck
      split
      · split <;> rfl
      · rfl
    | sending m t n c => rfl
    | done => rfl
  | sendSettled now outcome =>
    unfold loopStep isSuccessfulSend
    cases hpc : v.pc with
    | delaying => cases outcome <;> rfl
    | done => cases outcome <;> rfl
    | sending m t n c =>
      dsimp only
      unfold loopSendSettled
      cases outcome with
      | ok => rfl
      | rejected em =>
        cases em with
        | none => rfl
        | some msg =>
          dsimp only
          split <;> rfl

theorem loopRun_sentMessages (a : LoopArgs) (es : List LoopEvent) (v : LoopView) :
    (loopRun a v es).taskInfo.sentMessages = v.taskInfo.sentMessages + successfulSends a v es := by
  induction es generalizing v with
  | nil => rfl
  | cons e es ih =>
    show (loopRun a (loopStep a v e) es).taskInfo.sentMessages = _
    rw [ih, loopStep_sentMessages, successfulSends]
    omega

/-- Claim C19: after `/stop-task` has been applied to the task of a call of the loop,
whatever events follow, the task stays stopped and every evaluation of the `while`
condition leaves the loop; a send in flight is the one that was in flight at the stop
(no new send starts); at most one send resolves, namely that one, and the sent count
grows by the number of sends that resolve; and once no send is in flight, further
events change neither `sentMessages` nor `currentMessageIndex` and only put Info
entries at the head of the log. -/
theorem stopped_loop_starts_no_send (a : LoopArgs) (v : LoopView) (now : Instant)
    (es : List LoopEvent) :
    isStopped (loopRun a (loopStep a v (.stopTask now)) es).taskInfo ∧
      (∀ t, loopCheck a t (loopRun a (loopStep a v (.stopTask now)) es)
        = loopExit t (loopRun a (loopStep a v (.stopTask now)) es)) ∧
      ((loopRun a (loopStep a v (.stopTask now)) es).pc.inFlight = true →
        (loopRun a (loopStep a v (.stopTask now)) es).pc = v.pc) ∧
      successfulSends a (loopStep a v (.stopTask now)) es ≤ sendsInFlight v ∧
      sendsInFlight v ≤ 1 ∧
      (loopRun a (loopStep a v (.stopTask now)) es).taskInfo.sentMessages
        = v.taskInfo.sentMessages + successfulSends a (loopStep a v (.stopTask now)) es ∧
      ((loopRun a (loopStep a v (.stopTask now)) es).pc.inFlight = false →
        ∀ es2,
          (loopRun a (loopRun a (loopStep a v (.stopTask now)) es) es2).pc.inFlight = false ∧
          (loopRun a (loopRun a (loopStep a v (.stopTask now)) es) es2).taskInfo.sentMessages
            = (loopRun a (loopStep a v (.stopTask now)) es).taskInfo.sentMessages ∧
          (loopRun a (loopRun a (loopStep a v (.stopTask now)) es) es2).taskInfo.currentMessageIndex
            = (loopRun a (loopStep a v (.stopTask now)) es).taskInfo.currentMessageIndex ∧
          ∃ extra,
            (loopRun a (loopRun a (loopStep a v (.stopTask now)) es) es2).logs
              = extra ++ (loopRun a (loopStep a v (.stopTask now)) es).logs ∧
            ∀ x ∈ extra, x.type = .info) := by
  have h0 : isStopped (loopStep a v (.stopTask now)).taskInfo := ⟨rfl, rfl⟩
  have hs := loopRun_stopped a es _ h0
  refine ⟨hs, fun t => loopCheck_stopped a t _ hs, ?_, ?_, ?_, ?_, ?_⟩
  · intro hp
    exact loopRun_stopped_pc a es _ h0 hp
  · exact successfulSends_stopped a es _ h0
  · unfold sendsInFlight
    split <;> omega
  · rw [loopRun_sentMessages]
    rfl
  · intro hp es2
    exact loopRun_stopped_idle a es2 _ hs hp

set_option maxRecDepth 100000 in
/-- Claim C19 on the two-message task stopped while its first send is in flight: the
send resolves (one Success entry, `sentMessages = 1`), the next check leaves the loop,
and later events change nothing; the same run on the whole process ends with the
counters at `(1, 1)`, the call returned, and one Success entry between two Info
entries. -/
theorem stopped_loop_starts_no_send_witness :
    sendingView.pc.inFlight = true ∧
      (loopRun twoMessageArgs (loopStep twoMessageArgs sendingView (.stopTask (at_ 4)))
        settleThenWake).pc = .done ∧
      (loopRun twoMessageArgs
        (loopRun twoMessageArgs (loopStep twoMessageArgs sendingView (.stopTask (at_ 4)))
          settleThenWake) lateEvents).taskInfo.sentMessages
        = (loopRun twoMessageArgs (loopStep twoMessageArgs sendingView (.stopTask (at_ 4)))
          settleThenWake).taskInfo.sentMessages ∧
      (loopRun twoMessageArgs (loopStep twoMessageArgs sendingView (.stopTask (at_ 4)))
        settleThenWake).taskInfo.sentMessages = 1 ∧
      countersOf (sysRun twoMessageState stoppedInFlightEvents) "s1" = [(1, 1)] ∧
      (sysRun twoMessageState stoppedInFlightEvents).loops.map (fun p => p.pc) = [.done] ∧
      logTypes (sysRun twoMessageState stoppedInFlightEvents) "t1"
        = [.info, .success, .info] :=
  ⟨by decide, by decide,
    ((stopped_loop_starts_no_send twoMessageArgs sendingView (at_ 4) settleThenWake).2.2.2.2.2.2
      (by decide) lateEvents).2.1,
    by decide, by decide, by decide, by decide⟩

/-! ## Group ids -/

theorem includesChars_cons_false (c : Char) (cs sub : List Char)
    (h : includesChars (c :: cs) sub = false) :
    sub.isPrefixOf (c :: cs) = false ∧ includesChars cs sub = false := by
  unfold includesChars at h
  simpa using h

/-- The suffix `@g.us` does not begin inside a string that does not contain it. -/
theorem groupSuffix_not_straddling (cs : List Char)
    (h : "@g.us".data.isPrefixOf cs = false) (hne : cs ≠ []) :
    "@g.us".data.isPrefixOf (cs ++ "@g.us".data) = false := by
  have hd : "@g.us".data = [Char.ofNat 64, Char.ofNat 103, Char.ofNat 46, Char.ofNat 117,
      Char.ofNat 115] := by decide
  rw [hd] at h ⊢
  match cs, hne with
  | [c1], _ => simp [List.isPrefixOf]
  | [c1, c2], _ => simp [List.isPrefixOf]
  | [c1, c2, c3], _ => simp [List.isPrefixOf]
  | [c1, c2, c3, c4], _ => simp [List.isPrefixOf]
  | c1 :: c2 :: c3 :: c4 :: c5 :: rest, _ =>
    simp only [List.isPrefixOf, List.cons_append] at h ⊢
    exact h

theorem removeFirstChars_groupSuffix (cs : List Char)
    (h : includesChars cs "@g.us".data = false) :
    removeFirstChars "@g.us".data (cs ++ "@g.us".data) = cs := by
  induction cs with
  | nil => rfl
  | cons c cs ih =>
    obtain ⟨h1, h2⟩ := includesChars_cons_false c cs _ h
    have h3 := groupSuffix_not_straddling (c :: cs) h1 (by simp)
    rw [List.cons_append] at h3 ⊢
    unfold removeFirstChars
    rw [h3]
    simp only [Bool.false_eq_true, if_false]
    rw [ih h2]

/-- Claim C30: for a group id `x ++ "@g.us"` whose `x` does not contain `@g.us`, the UID
shown by `/get-groups` is `x`, the recipient the loop derives for target `x` (and for
the shown UID) with kind `group` is the group id again, and for every kind other than
`group` the recipient is the target followed by `@s.whatsapp.net`. -/
theorem group_id_round_trip (x : String) (h : jsIncludes x "@g.us" = false) :
    cleanGroupId (x ++ "@g.us") = x ∧
      recipient x "group" = x ++ "@g.us" ∧
      recipient (cleanGroupId (x ++ "@g.us")) "group" = x ++ "@g.us" ∧
      ∀ target targetType : String, targetType ≠ "group" →
        recipient target targetType = target ++ "@s.whatsapp.net" := by
  have hclean : cleanGroupId (x ++ "@g.us") = x := by
    unfold cleanGroupId jsRemoveFirst
    rw [String.data_append, removeFirstChars_groupSuffix x.data h]
  refine ⟨hclean, by simp [recipient], by rw [hclean]; simp [recipient], ?_⟩
  intro target targetType hk
  simp [recipient, hk]

set_option maxRecDepth 100000 in
/-- Claim C30 at the group id `120363025@g.us` and at the user number `9190000000`. -/
theorem group_id_round_trip_witness :
    jsIncludes "120363025" "@g.us" = false ∧
      cleanGroupId "120363025@g.us" = "120363025" ∧
      recipient (cleanGroupId "120363025@g.us") "group" = "120363025@g.us" ∧
      recipient "9190000000" "number" = "9190000000@s.whatsapp.net" :=
  ⟨by decide, by decide,
    (group_id_round_trip "120363025" (by decide)).2.2.1,
    (group_id_round_trip "120363025" (by decide)).2.2.2 "9190000000" "number" (by decide)⟩

/-! ## Failed sends and the connection flag -/

/-- The substring test is exact on characters: `sub` occurs in `s` as a block. -/
theorem includesChars_iff (s sub : List Char) :
    includesChars s sub = true ↔ sub <:+: s := by
  induction s with
  | nil =>
    unfold includesChars
    simp [List.isEmpty_iff]
  | cons c cs ih =>
    unfold includesChars
    rw [Bool.or_eq_true, ih, List.isPrefixOf_iff_prefix, List.infix_cons_iff]

theorem isConnectionIssue_iff (m : String) :
    isConnectionIssue m = true ↔
      ("connection".data <:+: m.data ∨ "socket".data <:+: m.data ∨ "timeout".data <:+: m.data
        ∨ "not connected".data <:+: m.data) := by
  unfold isConnectionIssue jsIncludes
  simp only [Bool.or_eq_true, includesChars_iff]
  tauto

set_option maxRecDepth 100000 in
/-- Failed sends whose message reads `Connection Closed` or `Socket error` are not
classified as connection problems, and the session of the two-message task is still
marked connected after such a failure; the lower-case `timeout` is classified and
marks it not connected.  The statement of C26 fails at the first two messages. -/
theorem capitalised_failure_keeps_session_connected :
    isConnectionIssue "Connection Closed" = false ∧
      isConnectionIssue "Socket error" = false ∧
      isConnectionIssue "timeout" = true ∧
      connectedFlags twoMessageState = [true] ∧
      connectedFlags (sysRun twoMessageState (rejectedWith "Connection Closed")) = [true] ∧
      connectedFlags (sysRun twoMessageState (rejectedWith "Socket error")) = [true] ∧
      connectedFlags (sysRun twoMessageState (rejectedWith "timeout")) = [false] := by
  decide

/-- Claim C26 (amended): a failed send marks the session not connected exactly when its
message text contains, as written in lower case, one of `connection`, `socket`,
`timeout`, `not connected`; for every other message text the connection flag is left
as it was. -/
theorem failure_text_is_matched_case_sensitively (a : LoopArgs) (now : Instant) (m : String)
    (msg : Option String) (ts : String) (mn cy : Nat) (v : LoopView) :
    (("connection".data <:+: m.data ∨ "socket".data <:+: m.data ∨ "timeout".data <:+: m.data
        ∨ "not connected".data <:+: m.data) →
      (loopSendSettled a now (.rejected (some m)) msg ts mn cy v).isConnected = false) ∧
    (¬ ("connection".data <:+: m.data ∨ "socket".data <:+: m.data ∨ "timeout".data <:+: m.data
        ∨ "not connected".data <:+: m.data) →
      (loopSendSettled a now (.rejected (some m)) msg ts mn cy v).isConnected = v.isConnected) := by
  rw [← isConnectionIssue_iff]
  constructor
  · intro h
    simp [loopSendSettled, h]
  · intro h
    simp [loopSendSettled, h]

set_option maxRecDepth 100000 in
/-- The amended C26 at the messages `read timeout` (matched) and `Connection Closed`
(not matched) for the first send of the two-message task. -/
theorem failure_text_is_matched_case_sensitively_witness :
    (loopSendSettled twoMessageArgs (at_ 4) (.rejected (some "read timeout")) (some "Hi a") "T3"
        1 1 sendingView).isConnected = false ∧
      (loopSendSettled twoMessageArgs (at_ 4) (.rejected (some "Connection Closed")) (some "Hi a")
        "T3" 1 1 sendingView).isConnected = sendingView.isConnected :=
  ⟨(failure_text_is_matched_case_sensitively twoMessageArgs (at_ 4) "read timeout" (some "Hi a")
      "T3" 1 1 sendingView).1 (Or.inr (Or.inr (Or.inl ⟨"read ".data, [], by decide⟩))),
    (failure_text_is_matched_case_sensitively twoMessageArgs (at_ 4) "Connection Closed"
      (some "Hi a") "T3" 1 1 sendingView).2
      (by rw [← isConnectionIssue_iff]; decide)⟩

/-! ## Send outcomes and counters -/

set_option maxRecDepth 100000 in
/-- Claim C25 does not hold in the code for a send that rejects with a value carrying no
message text.  A send that resolves, or that rejects with a message text, leaves the
running flag, the end time and the error of the task as they were and the call goes
back to waiting (after a rejection with the same index); but after a rejection without
a message text the task has `isSending = false`, an end time and the recorded error
`Cannot read properties of undefined (reading 'includes')`, and the call has returned
although no stop was requested.  For the first send of the two-message task the status
page then shows the task as completed with nothing sent. -/
theorem rejection_without_message_stops_running_task (a : LoopArgs) (now : Instant)
    (msg : Option String) (ts : String) (mn cy : Nat) (v : LoopView) :
    ((loopSendSettled a now .ok msg ts mn cy v).taskInfo.isSending = v.taskInfo.isSending ∧
        (loopSendSettled a now .ok msg ts mn cy v).taskInfo.stopRequested
          = v.taskInfo.stopRequested ∧
        (loopSendSettled a now .ok msg ts mn cy v).taskInfo.endTime = v.taskInfo.endTime ∧
        (loopSendSettled a now .ok msg ts mn cy v).taskInfo.error = v.taskInfo.error ∧
        (loopSendSettled a now .ok msg ts mn cy v).pc = .delaying) ∧
      (∀ m : String,
        (loopSendSettled a now (.rejected (some m)) msg ts mn cy v).taskInfo = v.taskInfo ∧
        (loopSendSettled a now (.rejected (some m)) msg ts mn cy v).index = v.index ∧
        (loopSendSettled a now (.rejected (some m)) msg ts mn cy v).pc = .delaying) ∧
      ((loopSendSettled a now (.rejected none) msg ts mn cy v).taskInfo.isSending = false ∧
        (loopSendSettled a now (.rejected none) msg ts mn cy v).taskInfo.stopRequested
          = v.taskInfo.stopRequested ∧
        (loopSendSettled a now (.rejected none) msg ts mn cy v).taskInfo.endTime
          = some now.epochMs ∧
        (loopSendSettled a now (.rejected none) msg ts mn cy v).taskInfo.error
          = some includesTypeErrorMessage ∧
        (loopSendSettled a now (.rejected none) msg ts mn cy v).pc = .done) ∧
      (taskOutcomes twoMessageState "s1" = [(true, false, none, none)] ∧
        taskOutcomes (sysRun twoMessageState [.settle 0 (at_ 4) (.rejected none)]) "s1"
          = [(false, false, some 4, some includesTypeErrorMessage)] ∧
        (tasksOf (sysRun twoMessageState [.settle 0 (at_ 4) (.rejected none)]) "s1").map
          (fun t => ((taskRow t).status, (taskRow t).sentMessages)) = [(.completed, 0)] ∧
        textInFlight
          (sysRun twoMessageState [.settle 0 (at_ 4) (.rejected none), .wake 0 (at_ 9)]) 0
          = none) := by
  refine ⟨⟨rfl, rfl, rfl, rfl, rfl⟩, ?_, ⟨rfl, rfl, rfl, rfl, rfl⟩, ?_⟩
  · intro m
    by_cases hc : isConnectionIssue m = true <;> simp [loopSendSettled, hc]
  · exact ⟨by decide, by decide, by decide, by decide⟩

theorem loopCheck_counters (a : LoopArgs) (now : Instant) (v : LoopView) :
    (loopCheck a now v).systemStats.totalMessagesSent = v.systemStats.totalMessagesSent ∧
      (loopCheck a now v).systemStats.totalTasks = v.systemStats.totalTasks := by
  unfold loopCheck loopExit
  split
  · split <;> exact ⟨rfl, rfl⟩
  · dsimp only
    split <;> exact ⟨rfl, rfl⟩

/-- The messages counter grows by one exactly at a send that resolves. -/
theorem loopStep_totalMessagesSent (a : LoopArgs) (v : LoopView) (e : LoopEvent) :
    (loopStep a v e).systemStats.totalMessagesSent
      = v.systemStats.totalMessagesSent + (if isSuccessfulSend v e then 1 else 0) := by
  cases e with
  | connectionUpdate up now => rfl
  | stopTask now => rfl
  | wake now =>
    unfold loopStep
    cases hpc : v.pc with
    | delaying => exact (loopCheck_counters a now v).1
    | sending m t n c => rfl
    | done => rfl
  | sendSettled now outcome =>
    unfold loopStep isSuccessfulSend
    cases hpc : v.pc with
    | delaying => cases outcome <;> rfl
    | done => cases outcome <;> rfl
    | sending m t n c =>
      dsimp only
      unfold loopSendSettled
      cases outcome with
      | ok => rfl
      | rejected em =>
        cases em with
        | none => rfl
        | some msg =>
          dsimp only
          split <;> rfl

theorem loopRun_totalMessagesSent (a : LoopArgs) (es : List LoopEvent) (v : LoopView) :
    (loopRun a v es).systemStats.totalMessagesSent
      = v.systemStats.totalMessagesSent + successfulSends a v es := by
  induction es generalizing v with
  | nil => rfl
  | cons e es ih =>
    show (loopRun a (loopStep a v e) es).systemStats.totalMessagesSent = _
    rw [ih, loopStep_totalMessagesSent, successfulSends]
    omega

theorem commitCheck_stats (s0 : SystemState) (p : LoopProc) (v1 : LoopView) :
    (commitCheck s0 p v1).systemStats = v1.systemStats ∨
      (commitCheck s0 p v1).systemStats = s0.systemStats := by
  unfold commitCheck storeView registerLogs
  cases v1.pc <;> cases s0.clientStore[p.clientRef]? <;> simp

theorem viewOf_stats (s : SystemState) (p : LoopProc) (v : LoopView)
    (hv : viewOf s p = some v) : v.systemStats = s.systemStats := by
  unfold viewOf at hv
  split at hv
  · split at hv
    · cases hv; rfl
    · cases hv
  · cases hv

/-- The first pass of a new call of the loop changes neither `totalMessagesSent` nor
`totalTasks`. -/
theorem sendMessagesLoop_counters (a : LoopArgs) (now : Instant) (s : SystemState) :
    (sendMessagesLoop a now s).systemStats.totalMessagesSent = s.systemStats.totalMessagesSent ∧
      (sendMessagesLoop a now s).systemStats.totalTasks = s.systemStats.totalTasks := by
  unfold sendMessagesLoop
  cases mapGet s.activeClients a.sessionId with
  | none => exact ⟨rfl, rfl⟩
  | some cref =>
    dsimp only
    cases hc : s.clientStore[cref]? with
    | none => exact ⟨rfl, rfl⟩
    | some c =>
      dsimp only
      cases c.tasks.findIdx? (fun t => t.taskId == a.taskId) with
      | none => exact ⟨rfl, rfl⟩
      | some pos =>
        cases hl : mapGet s.taskLogs a.taskId <;>
        · dsimp only
          split
          · exact ⟨rfl, rfl⟩
          · rename_i v hv
            have hstats := viewOf_stats _ _ _ hv
            have hcnt := loopCheck_counters a now { v with index := v.taskInfo.currentMessageIndex }
            dsimp only
            rcases commitCheck_stats _ _ _ with h | h
            · rw [h]
              unfold loopStart
              rw [hcnt.1, hcnt.2, hstats]
              exact ⟨rfl, rfl⟩
            · rw [h]
              exact ⟨rfl, rfl⟩

/-- Claim C29: an accepted `/send-message` with a file of `N` messages adds `N` to
`totalMessagesSent` and 1 to `totalTasks` before the handler returns, while the new
task has `sentMessages = 0`; and for a call of the loop that starts from these
counters, after any events the counter is the value before the submission plus `N`
plus the number of sends that resolved, which is also what `sentMessages` has grown
by.  With zero counters before the submission this is `N + k` after `k` sends. -/
theorem submit_adds_message_count_to_sent_counter (r : SendMessageRequest) (taskId : String)
    (now : Instant) (s : SystemState) (sessionId : String) (cref : Nat) (clientInfo : ClientInfo)
    (target targetType delaySec text : String)
    (hown : mapGet s.userSessions r.userIP = some sessionId) (hsid : sessionId ≠ "")
    (hreg : mapGet s.activeClients sessionId = some cref)
    (hobj : s.clientStore[cref]? = some clientInfo)
    (ht : r.target = some target) (ht0 : target ≠ "")
    (hk : r.targetType = some targetType) (hk0 : targetType ≠ "")
    (hd : r.delaySec = some delaySec) (hd0 : delaySec ≠ "")
    (hfile : r.messageFile = .readable text) (hmsgs : parseMessages text ≠ []) :
    (sendMessageHandler r taskId now s).2.systemStats.totalMessagesSent
        = s.systemStats.totalMessagesSent + (parseMessages text).length ∧
      (sendMessageHandler r taskId now s).2.systemStats.totalTasks
        = s.systemStats.totalTasks + 1 ∧
      (tasksOf (sendMessageHandler r taskId now s).2 sessionId)[clientInfo.tasks.length]?
        = some (newTask taskId target targetType (parseMessages text) delaySec r.pfx now) ∧
      (newTask taskId target targetType (parseMessages text) delaySec r.pfx now).sentMessages
        = 0 ∧
      (∀ (a : LoopArgs) (v : LoopView) (es : List LoopEvent),
        v.systemStats = (sendMessageHandler r taskId now s).2.systemStats →
        (loopRun a v es).systemStats.totalMessagesSent
            = s.systemStats.totalMessagesSent + (parseMessages text).length
              + successfulSends a v es ∧
          (loopRun a v es).taskInfo.sentMessages
            = v.taskInfo.sentMessages + successfulSends a v es) := by
  obtain ⟨_, _, h3, _, _, _⟩ :=
    submit_accepted_state r taskId now s sessionId cref clientInfo target targetType delaySec
      text hown hsid hreg hobj ht ht0 hk hk0 hd hd0 hfile hmsgs
  have hacc := sendMessageHandler_accepted r taskId now s sessionId cref clientInfo target
    targetType delaySec text hown hsid hreg hobj ht ht0 hk hk0 hd hd0 hfile hmsgs
  have hcnt := sendMessagesLoop_counters
    (submitArgs sessionId clientInfo
      (newTask taskId target targetType (parseMessages text) delaySec r.pfx now))
    now
    (registerTask cref clientInfo
      (newTask taskId target targetType (parseMessages text) delaySec r.pfx now) now s)
  have h1 : (sendMessageHandler r taskId now s).2.systemStats.totalMessagesSent
      = s.systemStats.totalMessagesSent + (parseMessages text).length := by
    rw [hacc]
    exact hcnt.1
  have h2 : (sendMessageHandler r taskId now s).2.systemStats.totalTasks
      = s.systemStats.totalTasks + 1 := by
    rw [hacc]
    exact hcnt.2
  refine ⟨h1, h2, h3, rfl, ?_⟩
  intro a v es hv
  rw [loopRun_totalMessagesSent, loopRun_sentMessages, hv, h1]
  exact ⟨rfl, rfl⟩

set_option maxRecDepth 100000 in
/-- Claim C29 for the two-message task submitted to a process with zero counters: the
counter is 2 when the handler returns and 5 after three successful sends, while the
task's `sentMessages` is 3. -/
theorem submit_adds_message_count_to_sent_counter_witness :
    pairedState.systemStats.totalMessagesSent = 0 ∧
      (sendMessageHandler twoMessageRequest "t1" (at_ 3) pairedState).2.systemStats.totalMessagesSent
        = pairedState.systemStats.totalMessagesSent + (parseMessages "a\nb").length ∧
      twoMessageState.systemStats.totalMessagesSent = 2 ∧
      twoMessageState.systemStats.totalTasks = 1 ∧
      (sysRun twoMessageState threeSends).systemStats.totalMessagesSent = 5 ∧
      countersOf (sysRun twoMessageState threeSends) "s1" = [(3, 1)] :=
  ⟨by decide,
    (submit_adds_message_count_to_sent_counter twoMessageRequest "t1" (at_ 3) pairedState "s1" 0
      pairedClient "9190000000" "number" "5" "a\nb" (by decide) (by decide) (by decide)
      (by decide) rfl (by decide) rfl (by decide) rfl (by decide) rfl (by decide)).1,
    by decide, by decide, by decide, by decide⟩

/-! ## Close events and reconnection -/

/-- A close event on the socket of a registered session: what it does to the scheduled
reconnections, and what it leaves alone. -/
theorem connectionUpdate_closed (h : Nat) (statusCode : Option Nat) (now : Instant)
    (s : SystemState) (sock : Socket) (cref : Nat)
    (hs : s.sockets[h]? = some sock)
    (hl : (sock.listener = .pairing ∧ mapGet s.activeClients sock.sessionId = some cref) ∨
      sock.listener = .reconnect cref) :
    connectionUpdate h (.closed statusCode) now s
      = scheduleReconnect sock statusCode (setConnected cref false none s) := by
  unfold connectionUpdate
  rw [hs]
  dsimp only
  rcases hl with ⟨h1, h2⟩ | h1
  · rw [h1]
    dsimp only
    rw [h2]
  · rw [h1]

theorem scheduleReconnect_pending (sock : Socket) (statusCode : Option Nat) (s : SystemState) :
    (statusCode ≠ some 401 →
        (scheduleReconnect sock statusCode s).pendingInits
          = s.pendingInits ++ [reconnectCall sock]) ∧
      (statusCode = some 401 → (scheduleReconnect sock statusCode s).pendingInits = s.pendingInits) ∧
      (scheduleReconnect sock statusCode s).clientStore = s.clientStore ∧
      (scheduleReconnect sock statusCode s).sockets = s.sockets ∧
      (scheduleReconnect sock statusCode s).activeClients = s.activeClients := by
  unfold scheduleReconnect
  by_cases hc : statusCode = some 401
  · simp [hc]
  · simp [hc, reconnectCall]

theorem setConnected_sockets (cref : Nat) (up : Bool) (act : Option Nat) (s : SystemState) :
    (setConnected cref up act s).sockets = s.sockets ∧
      (setConnected cref up act s).activeClients = s.activeClients := by
  unfold setConnected
  cases s.clientStore[cref]? <;> exact ⟨rfl, rfl⟩

/-- Every further non-401 close on the same socket schedules one more reconnection. -/
theorem repeatedClose_pending (h : Nat) (statusCode : Option Nat) (now : Instant)
    (sock : Socket) (cref : Nat) (hcode : statusCode ≠ some 401) (n : Nat) :
    ∀ s : SystemState, s.sockets[h]? = some sock →
      ((sock.listener = .pairing ∧ mapGet s.activeClients sock.sessionId = some cref) ∨
        sock.listener = .reconnect cref) →
      (sysRun s (repeatedClose h statusCode now n)).pendingInits
        = s.pendingInits ++ List.replicate n (reconnectCall sock) := by
  induction n with
  | zero => intro s _ _; simp [repeatedClose, sysRun]
  | succ n ih =>
    intro s hs hl
    have hstep : sysRun s (repeatedClose h statusCode now (n + 1))
        = sysRun (connectionUpdate h (.closed statusCode) now s)
            (repeatedClose h statusCode now n) := rfl
    rw [hstep, connectionUpdate_closed h statusCode now s sock cref hs hl]
    obtain ⟨p1, _, _, p4, p5⟩ :=
      scheduleReconnect_pending sock statusCode (setConnected cref false none s)
    obtain ⟨q1, q2⟩ := setConnected_sockets cref false none s
    obtain ⟨f1, _, _, _⟩ := setConnected_frame cref false none s
    rw [ih _ (by rw [p4, q1]; exact hs) (by rw [p5, q2]; exact hl), p1 hcode, f1,
      List.append_assoc]
    rfl

/-- Claim C21: when the socket of a registered session (the socket whose listener acts
on the registered `clientInfo`) receives a close event, the session's `isConnected`
becomes false and nothing else of the `clientInfo` changes; if the status code is not
401 exactly one call `initializeClient(sessionId, num, sessionPath)` with the socket's
own session id and credential path is scheduled, and if it is 401 none is; the
registry and the sockets are unchanged, and `n` non-401 closes in a row schedule `n`
calls, for every `n`. -/
theorem close_schedules_reconnect_unless_401 (h : Nat) (statusCode : Option Nat)
    (now : Instant) (s : SystemState) (sock : Socket) (cref : Nat) (c : ClientInfo)
    (hs : s.sockets[h]? = some sock)
    (hreg : mapGet s.activeClients sock.sessionId = some cref)
    (hl : sock.listener = .pairing ∨ sock.listener = .reconnect cref)
    (hobj : s.clientStore[cref]? = some c) :
    (connectionUpdate h (.closed statusCode) now s).clientStore[cref]?
        = some { c with isConnected := false } ∧
      (statusCode ≠ some 401 →
        (connectionUpdate h (.closed statusCode) now s).pendingInits
          = s.pendingInits ++ [reconnectCall sock]) ∧
      (statusCode = some 401 →
        (connectionUpdate h (.closed statusCode) now s).pendingInits = s.pendingInits) ∧
      (reconnectCall sock).sessionId = sock.sessionId ∧
      (reconnectCall sock).sessionPath = sock.sessionPath ∧
      (connectionUpdate h (.closed statusCode) now s).activeClients = s.activeClients ∧
      (connectionUpdate h (.closed statusCode) now s).sockets = s.sockets ∧
      (statusCode ≠ some 401 → ∀ n,
        (sysRun s (repeatedClose h statusCode now n)).pendingInits
          = s.pendingInits ++ List.replicate n (reconnectCall sock)) := by
  have hl2 : (sock.listener = .pairing ∧ mapGet s.activeClients sock.sessionId = some cref) ∨
      sock.listener = .reconnect cref := by
    rcases hl with h1 | h1
    · exact Or.inl ⟨h1, hreg⟩
    · exact Or.inr h1
  rw [connectionUpdate_closed h statusCode now s sock cref hs hl2]
  obtain ⟨p1, p2, p3, p4, p5⟩ :=
    scheduleReconnect_pending sock statusCode (setConnected cref false none s)
  obtain ⟨q1, q2⟩ := setConnected_sockets cref false none s
  obtain ⟨f1, _, _, f4⟩ := setConnected_frame cref false none s
  refine ⟨?_, ?_, ?_, rfl, rfl, by rw [p5, q2], by rw [p4, q1], ?_⟩
  · rw [p3]
    exact f4 c hobj
  · intro hc
    rw [p1 hc, f1]
  · intro hc
    rw [p2 hc, f1]
  · intro hc n
    exact repeatedClose_pending h statusCode now sock cref hc n s hs hl2

set_option maxRecDepth 100000 in
/-- Claim C21 on session `s1` with its running two-message task: a close with status
code 428 on its socket marks it not connected and schedules the reconnection, three
such closes schedule three, a close with 401 schedules none, and after three rounds of
close, reconnection and re-opening the third close still schedules a reconnection. -/
theorem close_schedules_reconnect_unless_401_witness :
    twoMessageState.sockets[0]? = some pairingSocket ∧
      mapGet twoMessageState.activeClients pairingSocket.sessionId = some 0 ∧
      twoMessageState.clientStore[0]? = some twoMessageClient ∧
      (connectionUpdate 0 (.closed (some 428)) (at_ 4) twoMessageState).clientStore[0]?
        = some { twoMessageClient with isConnected := false } ∧
      (connectionUpdate 0 (.closed (some 428)) (at_ 4) twoMessageState).pendingInits
        = twoMessageState.pendingInits ++ [reconnectCall pairingSocket] ∧
      (connectionUpdate 0 (.closed (some 401)) (at_ 4) twoMessageState).pendingInits
        = twoMessageState.pendingInits ∧
      (sysRun twoMessageState (repeatedClose 0 none (at_ 4) 3)).pendingInits
        = twoMessageState.pendingInits ++ List.replicate 3 (reconnectCall pairingSocket) ∧
      (sysRun twoMessageState threeReconnects).pendingInits = [reconnectCall pairingSocket] :=
  ⟨by decide, by decide, by decide,
    (close_schedules_reconnect_unless_401 0 (some 428) (at_ 4) twoMessageState pairingSocket 0
      twoMessageClient (by decide) (by decide) (Or.inl (by decide)) (by decide)).1,
    (close_schedules_reconnect_unless_401 0 (some 428) (at_ 4) twoMessageState pairingSocket 0
      twoMessageClient (by decide) (by decide) (Or.inl (by decide)) (by decide)).2.1 (by decide),
    (close_schedules_reconnect_unless_401 0 (some 401) (at_ 4) twoMessageState pairingSocket 0
      twoMessageClient (by decide) (by decide) (Or.inl (by decide)) (by decide)).2.2.1 rfl,
    (close_schedules_reconnect_unless_401 0 none (at_ 4) twoMessageState pairingSocket 0
      twoMessageClient (by decide) (by decide) (Or.inl (by decide)) (by decide)).2.2.2.2.2.2.2
      (by decide) 3,
    by decide⟩

/-! ## The owner index -/

theorem mapHas_false_iff {β : Type} (m : List (String × β)) (k : String) :
    mapHas m k = false ↔ k ∉ m.map Prod.fst := by
  induction m with
  | nil => simp [mapHas]
  | cons x xs ih =>
    obtain ⟨k1, v1⟩ := x
    unfold mapHas at ih ⊢
    rw [List.lookup_cons]
    by_cases hk : k = k1
    · subst hk
      simp
    · have hb : (k == k1) = false := by simpa using hk
      rw [hb]
      simp only [List.map_cons, List.mem_cons, not_or]
      rw [ih]
      exact ⟨fun h => ⟨hk, h⟩, fun h => h.2⟩

theorem keys_subset_mapSet {β : Type} (m : List (String × β)) (k : String) (v : β) :
    k ∈ (mapSet m k v).map Prod.fst ∧ ∀ k2 ∈ m.map Prod.fst, k2 ∈ (mapSet m k v).map Prod.fst := by
  induction m with
  | nil => simp [mapSet]
  | cons x xs ih =>
    obtain ⟨k1, v1⟩ := x
    unfold mapSet
    by_cases hk : k1 = k
    · simp only [hk, if_true]
      refine ⟨by simp, ?_⟩
      intro k2 h2
      simpa using h2
    · simp only [hk, if_false]
      refine ⟨by simp [ih.1], ?_⟩
      intro k2 h2
      simp only [List.map_cons, List.mem_cons] at h2 ⊢
      rcases h2 with h2 | h2
      · exact Or.inl h2
      · exact Or.inr (ih.2 k2 h2)

theorem values_mapSet {β : Type} (m : List (String × β)) (k : String) (v : β) (x : β)
    (h : x ∈ (mapSet m k v).map Prod.snd) : x = v ∨ x ∈ m.map Prod.snd := by
  obtain ⟨e, he, rfl⟩ := List.mem_map.1 h
  rcases mem_mapSet m k v e he with h | h
  · exact Or.inl (by rw [h])
  · exact Or.inr (List.mem_map_of_mem _ h)

theorem nodup_values_mapSet {β : Type} (m : List (String × β)) (k : String) (v : β)
    (h : (m.map Prod.snd).Nodup) (hv : v ∉ m.map Prod.snd) :
    ((mapSet m k v).map Prod.snd).Nodup := by
  induction m with
  | nil => simp [mapSet]
  | cons x xs ih =>
    obtain ⟨k1, v1⟩ := x
    simp only [List.map_cons, List.nodup_cons, List.mem_cons, not_or] at h hv
    unfold mapSet
    by_cases hk : k1 = k
    · simp only [hk, if_true, List.map_cons, List.nodup_cons]
      exact ⟨hv.2, h.2⟩
    · simp only [hk, if_false, List.map_cons, List.nodup_cons]
      refine ⟨?_, ih h.2 hv.2⟩
      intro hmem
      rcases values_mapSet xs k v v1 hmem with h1 | h1
      · exact hv.1 h1.symm
      · exact h.1 h1

theorem deleteFirstOwner_sublist (m : List (String × String)) (sid : String) :
    (deleteFirstOwner m sid).Sublist m := by
  induction m with
  | nil => exact List.Sublist.refl _
  | cons x xs ih =>
    obtain ⟨ip, s1⟩ := x
    unfold deleteFirstOwner
    by_cases hs : s1 = sid
    · simp only [hs, if_true]
      exact List.sublist_cons_self _ _
    · simp only [hs, if_false]
      exact List.Sublist.cons₂ _ ih

theorem deleteFirstOwner_no_value (m : List (String × String)) (sid : String)
    (h : (m.map Prod.snd).Nodup) : sid ∉ (deleteFirstOwner m sid).map Prod.snd := by
  induction m with
  | nil => simp [deleteFirstOwner]
  | cons x xs ih =>
    obtain ⟨ip, s1⟩ := x
    simp only [List.map_cons, List.nodup_cons] at h
    unfold deleteFirstOwner
    by_cases hs : s1 = sid
    · simp only [hs, if_true]
      rw [← hs]
      exact h.1
    · simp only [hs, if_false, List.map_cons, List.mem_cons, not_or]
      exact ⟨fun e => hs e.symm, ih h.2⟩

theorem mem_keys_mapDelete_of_ne {β : Type} (m : List (String × β)) (k k2 : String)
    (h : k2 ∈ m.map Prod.fst) (hne : k2 ≠ k) : k2 ∈ (mapDelete m k).map Prod.fst := by
  obtain ⟨e, he, rfl⟩ := List.mem_map.1 h
  exact List.mem_map_of_mem _ (mem_mapDelete_of_ne m k e he hne)

/-- Deleting a session from the registry together with the first owner entry that
points to it keeps the owner index consistent. -/
theorem ownersOk_remove (s : SystemState) (sid : String) (ho : OwnersOk s) :
    OwnersOk { s with
      activeClients := mapDelete s.activeClients sid
      userSessions := deleteFirstOwner s.userSessions sid } := by
  obtain ⟨h1, h2, h3⟩ := ho
  have hsub := deleteFirstOwner_sublist s.userSessions sid
  refine ⟨(List.Sublist.map _ hsub).nodup h1, (List.Sublist.map _ hsub).nodup h2, ?_⟩
  intro e he
  have he1 : e ∈ deleteFirstOwner s.userSessions sid := he
  have hne : e.2 ≠ sid := by
    intro heq
    have hmem : e.2 ∈ (deleteFirstOwner s.userSessions sid).map Prod.snd :=
      List.mem_map_of_mem _ he1
    rw [heq] at hmem
    exact deleteFirstOwner_no_value s.userSessions sid h2 hmem
  exact mem_keys_mapDelete_of_ne _ _ _ (h3 e (hsub.subset he1)) hne

theorem ownersOk_of_same {s s1 : SystemState} (h : SameRegistry s s1) (ho : OwnersOk s) :
    OwnersOk s1 := by
  obtain ⟨h1, h2, _⟩ := h
  unfold OwnersOk
  rw [h1, h2]
  exact ho

theorem ownersOk_initialState (stats : SystemStats) : OwnersOk (initialState stats) := by
  simp [OwnersOk, initialState]

theorem ownersOk_codeHandler (r : CodeRequest) (now : Instant) (s : SystemState)
    (hf : mapHas s.activeClients r.sessionId = false) (ho : OwnersOk s) :
    OwnersOk (codeHandler r now s).2 := by
  obtain ⟨h1, h2, h3⟩ := ho
  unfold codeHandler
  dsimp only
  split
  · exact ⟨h1, h2, h3⟩
  · split
    · exact ⟨h1, h2, h3⟩
    · split
      · exact ⟨h1, h2, h3⟩
      · refine ⟨nodup_mapSet _ _ _ h1, nodup_values_mapSet _ _ _ h2 ?_, ?_⟩
        · intro hmem
          obtain ⟨e, he, heq⟩ := List.mem_map.1 hmem
          have := h3 e he
          rw [heq] at this
          exact (mapHas_false_iff _ _).1 hf this
        · intro e he
          rcases mem_mapSet _ _ _ e he with h | h
          · rw [h]
            exact (keys_subset_mapSet _ _ _).1
          · exact (keys_subset_mapSet _ _ _).2 _ (h3 e h)

theorem ownersOk_initializeClient (i : Nat) (ok : Bool) (now : Instant) (s : SystemState)
    (ho : OwnersOk s) : OwnersOk (initializeClient i ok now s) := by
  obtain ⟨h1, h2, h3⟩ := ho
  unfold initializeClient
  split
  · exact ⟨h1, h2, h3⟩
  · split
    · exact ⟨h1, h2, h3⟩
    · refine ⟨h1, h2, ?_⟩
      intro e he
      exact (keys_subset_mapSet _ _ _).2 _ (h3 e he)

theorem ownersOk_stopSessionHandler (sid : String) (now : Instant) (s : SystemState)
    (ho : OwnersOk s) : OwnersOk (stopSessionHandler sid now s).2 := by
  unfold stopSessionHandler
  split
  · exact ho
  · exact ownersOk_remove s sid ho

theorem ownersOk_evictIfIdle (now : Nat) (st : SystemState) (e : String × Nat)
    (ho : OwnersOk st) : OwnersOk (evictIfIdle now st e) := by
  unfold evictIfIdle
  split
  · split
    · exact ownersOk_remove st e.1 ho
    · exact ho
  · exact ho

theorem ownersOk_evictFold (now : Nat) (entries : List (String × Nat)) :
    ∀ st : SystemState, OwnersOk st → OwnersOk (entries.foldl (evictIfIdle now) st) := by
  induction entries with
  | nil => intro st h; exact h
  | cons e es ih => intro st h; exact ih _ (ownersOk_evictIfIdle now st e h)

theorem ownersOk_cleanupTick (now : Nat) (s : SystemState) (ho : OwnersOk s) :
    OwnersOk (cleanupTick now s) := by
  have h := ownersOk_evictFold now s.activeClients s ho
  rw [← cleanupSessions_eq] at h
  exact ownersOk_of_same (cleanupLogs_same _) h

theorem ownersOk_sysStep (s : SystemState) (ev : SysEvent) (hf : freshCode s ev = true)
    (ho : OwnersOk s) : OwnersOk (sysStep s ev) := by
  cases ev with
  | code r now =>
    have hf2 : mapHas s.activeClients r.sessionId = false := by simpa [freshCode] using hf
    exact ownersOk_codeHandler r now s hf2 ho
  | sendMessage r taskId now => exact ownersOk_of_same (sendMessageHandler_same r taskId now s) ho
  | stopSession sessionId now => exact ownersOk_stopSessionHandler sessionId now s ho
  | stopTask sessionId taskId now =>
    exact ownersOk_of_same (stopTaskHandler_same sessionId taskId now s) ho
  | cleanup now => exact ownersOk_cleanupTick now s ho
  | monitor => exact ownersOk_of_same (monitorTick_same s) ho
  | connection h u now => exact ownersOk_of_same (connectionUpdate_same h u now s) ho
  | reconnect i ok now => exact ownersOk_initializeClient i ok now s ho
  | wake i now => exact ownersOk_of_same (loopWake_same i now s) ho
  | settle i now o => exact ownersOk_of_same (loopSettle_same i now o s) ho

/-- The owner index is consistent in every state reached by a run whose pairing
requests carry unregistered session ids. -/
theorem ownersOk_sysRun (es : List SysEvent) :
    ∀ s : SystemState, freshRun s es = true → OwnersOk s → OwnersOk (sysRun s es) := by
  induction es with
  | nil => intro s _ h; exact h
  | cons e es ih =>
    intro s hf h
    have hf2 : freshCode s e = true ∧ freshRun (sysStep s e) es = true := by
      simpa [freshRun] using hf
    exact ih _ hf2.2 (ownersOk_sysStep s e hf2.1 h)

/-! ## Resuming tasks on reconnection -/

theorem set_eq_self {α : Type} (xs : List α) (i : Nat) (x : α) (h : xs[i]? = some x) :
    xs.set i x = xs := by
  apply List.ext_getElem?
  intro j
  by_cases hj : i = j
  · subst hj
    rw [List.getElem?_set_self', h]
    rfl
  · rw [List.getElem?_set_ne hj]

theorem findIdx_of_nodup (ts : List TaskInfo) (pos : Nat) (t : TaskInfo)
    (hn : (ts.map (fun x => x.taskId)).Nodup) (ht : ts[pos]? = some t) :
    ts.findIdx? (fun x => x.taskId == t.taskId) = some pos := by
  induction ts generalizing pos with
  | nil => simp at ht
  | cons x xs ih =>
    simp only [List.map_cons, List.nodup_cons] at hn
    cases pos with
    | zero =>
      simp only [List.getElem?_cons_zero, Option.some.injEq] at ht
      subst ht
      simp [List.findIdx?_cons]
    | succ n =>
      simp only [List.getElem?_cons_succ] at ht
      have hmem : t.taskId ∈ xs.map (fun x => x.taskId) :=
        List.mem_map_of_mem _ (List.getElem?_mem ht)
      have hne : x.taskId ≠ t.taskId := by
        intro heq
        exact hn.1 (heq ▸ hmem)
      have hb : (x.taskId == t.taskId) = false := by simpa using hne
      rw [List.findIdx?_cons, hb]
      simp only [Bool.false_eq_true, if_false]
      rw [List.findIdx?_succ, ih n hn.2 ht]
      rfl

/-- The call `sendMessagesLoop(...)` made by the reconnect listener for a running task
of the connected, registered session: one suspended call is added and nothing else
changes. -/
theorem sendMessagesLoop_resume (sessionId : String) (waClient cref pos lref : Nat)
    (c : ClientInfo) (t : TaskInfo) (logs : List LogEntry) (now : Instant) (s : SystemState)
    (hs : mapGet s.activeClients sessionId = some cref)
    (hc : s.clientStore[cref]? = some c) (hcon : c.isConnected = true)
    (hn : (c.tasks.map (fun x => x.taskId)).Nodup)
    (ht : c.tasks[pos]? = some t)
    (hl : mapGet s.taskLogs t.taskId = some lref)
    (hg : s.logStore[lref]? = some logs)
    (hrun : t.isSending = true) (hstop : t.stopRequested = false) :
    sendMessagesLoop (resumeArgs sessionId waClient c t) now s
      = { s with
          loops := s.loops ++ [resumedCall sessionId waClient cref c now s.taskLogs pos t] } := by
  have hp := findIdx_of_nodup c.tasks pos t hn ht
  have hview : viewOf s
      { args := resumeArgs sessionId waClient c t, clientRef := cref, taskPos := pos,
        logsRef := lref, index := 0, pc := .delaying }
      = some (initialView c t logs s.systemStats) := by
    simp [viewOf, hc, hg, ht, initialView]
  have hstart := loopStart_connected (resumeArgs sessionId waClient c t) now
    (initialView c t logs s.systemStats) hrun hstop hcon
  have hargs : (resumeArgs sessionId waClient c t).sessionId = sessionId ∧
      (resumeArgs sessionId waClient c t).taskId = t.taskId := ⟨rfl, rfl⟩
  unfold sendMessagesLoop
  simp only [hargs.1, hargs.2, hs, hc, hp, hl, hview, hstart]
  simp only [commitCheck, storeView, hc, initialView]
  have e1 : c.tasks.set pos t = c.tasks := set_eq_self _ _ _ ht
  have e2 : s.logStore.set lref logs = s.logStore := set_eq_self _ _ _ hg
  have e3 : s.clientStore.set cref c = s.clientStore := set_eq_self _ _ _ hc
  rw [e1, e2]
  rw [show (ClientInfo.mk c.client c.number c.authPath c.isConnected c.tasks c.lastActivity) = c
    from rfl, e3]
  simp only [resumedCall, hl, Option.getD_some]
  rfl

theorem resumedCalls_append (mk : Nat → TaskInfo → LoopProc) (xs ys : List TaskInfo) :
    ∀ pos, resumedCalls mk pos (xs ++ ys)
      = resumedCalls mk pos xs ++ resumedCalls mk (pos + xs.length) ys := by
  induction xs with
  | nil => intro pos; simp [resumedCalls]
  | cons x xs ih =>
    intro pos
    have h := ih (pos + 1)
    rw [show pos + 1 + xs.length = pos + (xs.length + 1) by omega] at h
    show (if resumable x then [mk pos x] else []) ++ resumedCalls mk (pos + 1) (xs ++ ys) = _
    rw [h]
    simp only [resumedCalls, List.length_cons, List.append_assoc]

theorem mem_resumedCalls (mk : Nat → TaskInfo → LoopProc) (ts : List TaskInfo) :
    ∀ pos p, p ∈ resumedCalls mk pos ts →
      ∃ j t, ts[j]? = some t ∧ resumable t = true ∧ p = mk (pos + j) t := by
  induction ts with
  | nil => intro pos p h; simp [resumedCalls] at h
  | cons x xs ih =>
    intro pos p h
    simp only [resumedCalls, List.mem_append] at h
    rcases h with h | h
    · by_cases hr : resumable x = true
      · rw [if_pos hr] at h
        simp only [List.mem_singleton] at h
        exact ⟨0, x, by simp, hr, h⟩
      · rw [if_neg hr] at h
        cases h
    · obtain ⟨j, t, h1, h2, h3⟩ := ih (pos + 1) p h
      refine ⟨j + 1, t, by simpa using h1, h2, ?_⟩
      rw [h3, show pos + 1 + j = pos + (j + 1) by omega]

theorem resumedCalls_ids (mk : Nat → TaskInfo → LoopProc)
    (hmk : ∀ pos t, (mk pos t).args.taskId = t.taskId) (ts : List TaskInfo) :
    ∀ pos, (resumedCalls mk pos ts).map (fun p => p.args.taskId)
      = (ts.filter resumable).map (fun t => t.taskId) := by
  induction ts with
  | nil => intro pos; rfl
  | cons x xs ih =>
    intro pos
    simp only [resumedCalls, List.map_append, ih, List.filter_cons]
    by_cases hr : resumable x = true
    · simp [hr, hmk]
    · simp [hr]

/-- The `forEach` of the reconnect listener over the first `n` tasks of a connected,
registered session whose tasks have distinct ids and registered log arrays. -/
theorem resumeFold (sessionId : String) (waClient cref : Nat) (c : ClientInfo) (now : Instant)
    (s : SystemState)
    (hs : mapGet s.activeClients sessionId = some cref)
    (hc : s.clientStore[cref]? = some c) (hcon : c.isConnected = true)
    (hn : (c.tasks.map (fun x => x.taskId)).Nodup)
    (hlogs : ∀ t ∈ c.tasks, ∃ lref logs,
      mapGet s.taskLogs t.taskId = some lref ∧ s.logStore[lref]? = some logs) :
    ∀ n, n ≤ c.tasks.length →
      (List.range n).foldl
        (fun st pos =>
          match st.clientStore[cref]? with
          | some c =>
            match c.tasks[pos]? with
            | some task =>
              if task.isSending && !task.stopRequested && decide (task.messages.length > 0) then
                sendMessagesLoop
                  { sessionId := sessionId, taskId := task.taskId, messages := task.messages,
                    waClient := waClient, target := task.target, targetType := task.targetType,
                    delaySec := task.delaySec, pfx := task.pfx, senderNumber := c.number }
                  now st
              else st
            | none => st
          | none => st)
        s
      = { s with
          loops := s.loops ++
            resumedCalls (resumedCall sessionId waClient cref c now s.taskLogs) 0
              (c.tasks.take n) } := by
  intro n
  induction n with
  | zero => intro _; simp [resumedCalls]
  | succ n ih =>
    intro hle
    have hlt : n < c.tasks.length := by omega
    rw [List.range_succ, List.foldl_append, ih (by omega)]
    simp only [List.foldl_cons, List.foldl_nil, hc]
    have hget : c.tasks[n]? = some (c.tasks[n]) := List.getElem?_eq_getElem hlt
    rw [hget]
    simp only
    rw [List.take_succ, hget, resumedCalls_append]
    simp only [Option.toList, resumedCalls, List.length_take, Nat.min_eq_left (Nat.le_of_lt hlt),
      Nat.zero_add, List.append_nil]
    by_cases hr : resumable (c.tasks[n]) = true
    · have hr2 := hr
      unfold resumable at hr2
      rw [if_pos hr2, if_pos hr]
      simp only [Bool.and_eq_true, Bool.not_eq_true', decide_eq_true_eq] at hr2
      obtain ⟨lref, logs, hl, hg⟩ := hlogs (c.tasks[n]) (List.getElem_mem hlt)
      have hstep := sendMessagesLoop_resume sessionId waClient cref n lref c (c.tasks[n]) logs now
        { s with
          loops := s.loops ++
            resumedCalls (resumedCall sessionId waClient cref c now s.taskLogs) 0
              (c.tasks.take n) }
        hs hc hcon hn hget hl hg hr2.1.1 hr2.1.2
      unfold resumeArgs at hstep
      rw [hstep]
      simp [List.append_assoc]
    · have hr2 := hr
      unfold resumable at hr2
      rw [if_neg hr2, if_neg hr]
      simp

/-! ## Stopped tasks stay stopped -/

theorem keepsStopped_refl (s : SystemState) : KeepsStopped s s := fun _ _ h => h

theorem keepsStopped_trans {s s1 s2 : SystemState} (h1 : KeepsStopped s s1)
    (h2 : KeepsStopped s1 s2) : KeepsStopped s s2 := fun c p h => h2 c p (h1 c p h)

theorem keepsStopped_of_store_eq {s s1 : SystemState} (h : s1.clientStore = s.clientStore) :
    KeepsStopped s s1 := by
  intro cref pos ⟨c, t, h1, h2, h3⟩
  exact ⟨c, t, by rw [h]; exact h1, h2, h3⟩

theorem keepsStopped_of_store_append {s s1 : SystemState} (xs : List ClientInfo)
    (h : s1.clientStore = s.clientStore ++ xs) : KeepsStopped s s1 := by
  intro cref pos ⟨c, t, h1, h2, h3⟩
  have hlt : cref < s.clientStore.length := by
    by_contra hge
    rw [List.getElem?_eq_none (by omega)] at h1
    cases h1
  exact ⟨c, t, by rw [h, List.getElem?_append_left hlt]; exact h1, h2, h3⟩

theorem keepsStopped_of_store_set {s s1 : SystemState} (r : Nat) (c0 c1 : ClientInfo)
    (h0 : s.clientStore[r]? = some c0) (h : s1.clientStore = s.clientStore.set r c1)
    (htasks : ∀ (pos : Nat) (t : TaskInfo), c0.tasks[pos]? = some t → isStopped t →
      ∃ t1, c1.tasks[pos]? = some t1 ∧ isStopped t1) : KeepsStopped s s1 := by
  intro cref pos ⟨c, t, h1, h2, h3⟩
  by_cases hr : r = cref
  · subst hr
    rw [h0] at h1
    cases h1
    obtain ⟨t1, e1, e2⟩ := htasks pos t h2 h3
    have hlt : r < s.clientStore.length := by
      by_contra hge
      rw [List.getElem?_eq_none (by omega)] at h0
      cases h0
    exact ⟨c1, t1, by rw [h, List.getElem?_set_self hlt], e1, e2⟩
  · exact ⟨c, t, by rw [h, List.getElem?_set_ne hr]; exact h1, h2, h3⟩

theorem loopSendSettled_stopped (a : LoopArgs) (now : Instant) (outcome : SendOutcome)
    (msg : Option String) (ts : String) (mn cy : Nat) (v : LoopView)
    (h : isStopped v.taskInfo) :
    isStopped (loopSendSettled a now outcome msg ts mn cy v).taskInfo := by
  obtain ⟨h1, h2⟩ := h
  unfold loopSendSettled
  cases outcome with
  | ok => exact ⟨h1, h2⟩
  | rejected em =>
    cases em with
    | none => exact ⟨h1, rfl⟩
    | some m =>
      dsimp only
      split
      · exact ⟨h1, h2⟩
      · exact ⟨h1, h2⟩

theorem loopCheck_keeps_stopped (a : LoopArgs) (now : Instant) (v : LoopView)
    (h : isStopped v.taskInfo) : isStopped (loopCheck a now v).taskInfo := by
  rw [loopCheck_stopped a now v h]
  exact ⟨h.1, rfl⟩

theorem storeView_keepsStopped (s : SystemState) (p : LoopProc) (v v1 : LoopView)
    (hv : viewOf s p = some v) (hst : isStopped v.taskInfo → isStopped v1.taskInfo) :
    KeepsStopped s (storeView s p v1) := by
  unfold viewOf at hv
  cases hc : s.clientStore[p.clientRef]? with
  | none => simp [hc] at hv
  | some c =>
    cases hl : s.logStore[p.logsRef]? with
    | none => simp [hc, hl] at hv
    | some logs =>
      cases ht : c.tasks[p.taskPos]? with
      | none => simp [hc, hl, ht] at hv
      | some t0 =>
        simp only [hc, hl, ht, Option.some.injEq] at hv
        subst hv
        refine keepsStopped_of_store_set p.clientRef c _ hc (by simp [storeView, hc]; rfl) ?_
        intro pos t h1 h2
        by_cases hp : p.taskPos = pos
        · subst hp
          rw [ht] at h1
          cases h1
          have hlt : p.taskPos < c.tasks.length := by
            by_contra hge
            rw [List.getElem?_eq_none (by omega)] at ht
            cases ht
          exact ⟨v1.taskInfo, List.getElem?_set_self hlt, hst h2⟩
        · exact ⟨t, by simp only; rw [List.getElem?_set_ne hp]; exact h1, h2⟩

theorem commitCheck_store (s : SystemState) (p : LoopProc) (v1 : LoopView) :
    (commitCheck s p v1).clientStore = (storeView s p v1).clientStore := by
  unfold commitCheck registerLogs
  cases v1.pc <;> rfl

theorem sendMessagesLoop_keepsStopped (a : LoopArgs) (now : Instant) (s : SystemState) :
    KeepsStopped s (sendMessagesLoop a now s) := by
  unfold sendMessagesLoop
  cases mapGet s.activeClients a.sessionId with
  | none => exact keepsStopped_refl s
  | some cref =>
    dsimp only
    cases hc : s.clientStore[cref]? with
    | none => exact keepsStopped_refl s
    | some c =>
      dsimp only
      cases c.tasks.findIdx? (fun t => t.taskId == a.taskId) with
      | none => exact keepsStopped_refl s
      | some pos =>
        cases hl : mapGet s.taskLogs a.taskId <;>
        · dsimp only
          split
          · exact keepsStopped_refl s
          · rename_i v hv
            have h1 := storeView_keepsStopped _ _ v (loopStart a now v) hv
              (fun h => loopCheck_keeps_stopped a now _ h)
            refine keepsStopped_trans (keepsStopped_of_store_eq rfl)
              (keepsStopped_trans h1 (keepsStopped_of_store_eq ?_))
            exact commitCheck_store _ _ _

theorem loopWake_keepsStopped (i : Nat) (now : Instant) (s : SystemState) :
    KeepsStopped s (loopWake i now s) := by
  unfold loopWake
  split
  · exact keepsStopped_refl s
  · split
    · rename_i p _ _ v _ hv
      exact keepsStopped_trans
        (storeView_keepsStopped s _ v (loopCheck _ now v) hv
          (fun h => loopCheck_keeps_stopped _ now v h))
        (keepsStopped_of_store_eq (commitCheck_store _ _ _))
    · exact keepsStopped_refl s

theorem loopSettle_keepsStopped (i : Nat) (now : Instant) (o : SendOutcome) (s : SystemState) :
    KeepsStopped s (loopSettle i now o s) := by
  unfold loopSettle
  split
  · exact keepsStopped_refl s
  · split
    · rename_i p _ _ msg ts mn cy v _ hv
      exact keepsStopped_trans
        (storeView_keepsStopped s _ v (loopSendSettled _ now o msg ts mn cy v) hv
          (fun h => loopSendSettled_stopped _ now o msg ts mn cy v h))
        (keepsStopped_of_store_eq rfl)
    · exact keepsStopped_refl s

theorem setConnected_keepsStopped (cref : Nat) (up : Bool) (act : Option Nat) (s : SystemState) :
    KeepsStopped s (setConnected cref up act s) := by
  unfold setConnected
  cases hc : s.clientStore[cref]? with
  | none => exact keepsStopped_refl s
  | some c =>
    exact keepsStopped_of_store_set cref c _ hc rfl (fun pos t h1 h2 => ⟨t, h1, h2⟩)

theorem scheduleReconnect_keepsStopped (sock : Socket) (code : Option Nat) (s : SystemState) :
    KeepsStopped s (scheduleReconnect sock code s) := by
  unfold scheduleReconnect
  split
  · exact keepsStopped_of_store_eq rfl
  · exact keepsStopped_refl s

theorem foldl_keepsStopped {α : Type} (f : SystemState → α → SystemState)
    (hf : ∀ st x, KeepsStopped st (f st x)) (xs : List α) :
    ∀ s, KeepsStopped s (xs.foldl f s) := by
  induction xs with
  | nil => intro s; exact keepsStopped_refl s
  | cons x xs ih => intro s; exact keepsStopped_trans (hf s x) (ih _)

theorem resumeTasks_keepsStopped (sessionId : String) (waClient cref : Nat) (now : Instant)
    (s : SystemState) : KeepsStopped s (resumeTasks sessionId waClient cref now s) := by
  unfold resumeTasks
  split
  · exact keepsStopped_refl s
  · apply foldl_keepsStopped
    intro st pos
    dsimp only
    split
    · split
      · split
        · exact sendMessagesLoop_keepsStopped _ _ _
        · exact keepsStopped_refl st
      · exact keepsStopped_refl st
    · exact keepsStopped_refl st

theorem connectionUpdate_keepsStopped (h : Nat) (u : ConnUpdate) (now : Instant)
    (s : SystemState) : KeepsStopped s (connectionUpdate h u now s) := by
  unfold connectionUpdate
  split
  · exact keepsStopped_refl s
  · split
    · split
      · exact setConnected_keepsStopped _ _ _ _
      · exact keepsStopped_refl s
    · split
      · exact keepsStopped_trans (setConnected_keepsStopped _ _ _ _)
          (scheduleReconnect_keepsStopped _ _ _)
      · exact keepsStopped_refl s
    · exact keepsStopped_trans (setConnected_keepsStopped _ _ _ _)
        (resumeTasks_keepsStopped _ _ _ _ _)
    · exact keepsStopped_trans (setConnected_keepsStopped _ _ _ _)
        (scheduleReconnect_keepsStopped _ _ _)
    · exact keepsStopped_refl s

theorem initializeClient_keepsStopped (i : Nat) (ok : Bool) (now : Instant) (s : SystemState) :
    KeepsStopped s (initializeClient i ok now s) := by
  unfold initializeClient
  split
  · exact keepsStopped_refl s
  · split
    · exact keepsStopped_refl s
    · rename_i p _ _
      cases hg : mapGet s.activeClients p.sessionId with
      | none =>
        exact keepsStopped_of_store_append
          [{ client := s.sockets.length, number := p.num, authPath := p.sessionPath,
             isConnected := false, tasks := [], lastActivity := now.epochMs }] (by simp [hg])
      | some r =>
        cases hc : s.clientStore[r]? with
        | none => exact keepsStopped_of_store_eq (by simp [hg, hc])
        | some c =>
          exact keepsStopped_of_store_set r c ({ c with client := s.sockets.length }) hc
            (by simp [hg, hc]) (fun pos t h1 h2 => ⟨t, h1, h2⟩)

theorem codeHandler_keepsStopped (r : CodeRequest) (now : Instant) (s : SystemState) :
    KeepsStopped s (codeHandler r now s).2 := by
  unfold codeHandler
  dsimp only
  split
  · exact keepsStopped_refl s
  · split
    · exact keepsStopped_of_store_eq rfl
    · split
      · exact keepsStopped_refl s
      · exact keepsStopped_of_store_append _ rfl

theorem stopSessionHandler_keepsStopped (sid : String) (now : Instant) (s : SystemState) :
    KeepsStopped s (stopSessionHandler sid now s).2 := by
  unfold stopSessionHandler
  split
  · exact keepsStopped_refl s
  · rename_i cref _
    cases hc : s.clientStore[cref]? with
    | none => exact keepsStopped_of_store_eq (by simp [hc])
    | some c =>
      refine keepsStopped_of_store_set cref c _ hc (by simp [hc]; rfl) ?_
      intro pos t h1 _
      exact ⟨stopTaskInfo now t, by simp [h1], rfl, rfl⟩

theorem unshiftTaskLog_store (taskId : String) (e : LogEntry) (s : SystemState) :
    (unshiftTaskLog taskId e s).clientStore = s.clientStore := by
  unfold unshiftTaskLog
  cases mapGet s.taskLogs taskId <;> rfl

theorem stopTaskHandler_keepsStopped (sid taskId : String) (now : Instant) (s : SystemState) :
    KeepsStopped s (stopTaskHandler sid taskId now s).2 := by
  unfold stopTaskHandler
  split
  · exact keepsStopped_refl s
  · rename_i cref _
    split
    · exact keepsStopped_refl s
    · rename_i c hc
      split
      · exact keepsStopped_refl s
      · rename_i pos _
        split
        · exact keepsStopped_refl s
        · rename_i t ht
          refine keepsStopped_trans ?_ (keepsStopped_of_store_eq (unshiftTaskLog_store _ _ _))
          refine keepsStopped_of_store_set cref c _ hc rfl ?_
          intro j tj h1 h2
          by_cases hp : pos = j
          · subst hp
            have hlt : pos < c.tasks.length := by
              by_contra hge
              rw [List.getElem?_eq_none (by omega)] at ht
              cases ht
            exact ⟨stopTaskInfo now t, List.getElem?_set_self hlt, rfl, rfl⟩
          · exact ⟨tj, by simp only; rw [List.getElem?_set_ne hp]; exact h1, h2⟩

theorem sendMessageHandler_keepsStopped (r : SendMessageRequest) (taskId : String)
    (now : Instant) (s : SystemState) : KeepsStopped s (sendMessageHandler r taskId now s).2 := by
  unfold sendMessageHandler
  split
  · exact keepsStopped_refl s
  · split
    · exact keepsStopped_refl s
    · split
      · exact keepsStopped_refl s
      · rename_i cref _
        split
        · exact keepsStopped_refl s
        · rename_i clientInfo hc
          split
          · exact keepsStopped_refl s
          · split
            · exact keepsStopped_of_store_eq rfl
            · dsimp only
              split
              · exact keepsStopped_refl s
              · refine keepsStopped_trans ?_ (sendMessagesLoop_keepsStopped _ _ _)
                refine keepsStopped_of_store_set cref clientInfo _ hc rfl ?_
                intro pos t h1 h2
                have hlt : pos < clientInfo.tasks.length := by
                  by_contra hge
                  rw [List.getElem?_eq_none (by omega)] at h1
                  cases h1
                exact ⟨t, by simp only; rw [List.getElem?_append_left hlt]; exact h1, h2⟩
            · exact keepsStopped_refl s

theorem sysStep_keepsStopped (s : SystemState) (ev : SysEvent) : KeepsStopped s (sysStep s ev) := by
  cases ev with
  | code r now => exact codeHandler_keepsStopped r now s
  | sendMessage r taskId now => exact sendMessageHandler_keepsStopped r taskId now s
  | stopSession sessionId now => exact stopSessionHandler_keepsStopped sessionId now s
  | stopTask sessionId taskId now => exact stopTaskHandler_keepsStopped sessionId taskId now s
  | cleanup now => exact keepsStopped_of_store_eq (cleanupTick_frame now s).1
  | monitor => exact keepsStopped_of_store_eq rfl
  | connection h u now => exact connectionUpdate_keepsStopped h u now s
  | reconnect i ok now => exact initializeClient_keepsStopped i ok now s
  | wake i now => exact loopWake_keepsStopped i now s
  | settle i now o => exact loopSettle_keepsStopped i now o s

/-- A stopped task is stopped in every later state of the process. -/
theorem sysRun_keepsStopped (es : List SysEvent) :
    ∀ s : SystemState, KeepsStopped s (sysRun s es) := by
  induction es with
  | nil => intro s; exact keepsStopped_refl s
  | cons e es ih => intro s; exact keepsStopped_trans (sysStep_keepsStopped s e) (ih _)

/-! ## The reconnect listener resumes running tasks -/

theorem resumeTasks_eq (sessionId : String) (waClient cref : Nat) (c : ClientInfo)
    (now : Instant) (s : SystemState)
    (hs : mapGet s.activeClients sessionId = some cref)
    (hc : s.clientStore[cref]? = some c) (hcon : c.isConnected = true)
    (hn : (c.tasks.map (fun x => x.taskId)).Nodup)
    (hlogs : ∀ t ∈ c.tasks, ∃ lref logs,
      mapGet s.taskLogs t.taskId = some lref ∧ s.logStore[lref]? = some logs) :
    resumeTasks sessionId waClient cref now s
      = { s with
          loops := s.loops ++
            resumedCalls (resumedCall sessionId waClient cref c now s.taskLogs) 0 c.tasks } := by
  unfold resumeTasks
  rw [hc]
  dsimp only
  rw [resumeFold sessionId waClient cref c now s hs hc hcon hn hlogs c.tasks.length
    (Nat.le_refl _), List.take_length]

theorem not_resumable_of_stopped (t : TaskInfo) (h : isStopped t) : resumable t = false := by
  unfold resumable
  rw [h.2]
  rfl

/-- Claim C27: when the socket of a registered session that carries the reconnect
listener opens, the session's `clientInfo` gets `isConnected = true` and the time of the
event as `lastActivity`, and the suspended calls of the process grow by exactly one call
for every task of the session with `isSending`, not `stopRequested` and a non-empty
message list, in task order: each new call holds such a task, carries its id and is
sending the message at the task's cursor; no new call holds a stopped task; and a
stopped task stays stopped under every later sequence of events, so no later reconnect
resumes it.  The tasks of the session have distinct ids and registered log arrays. -/
theorem reconnect_resumes_running_tasks (h : Nat) (now : Instant) (s : SystemState)
    (sock : Socket) (cref : Nat) (c : ClientInfo)
    (hs : s.sockets[h]? = some sock) (hl : sock.listener = .reconnect cref)
    (hreg : mapGet s.activeClients sock.sessionId = some cref)
    (hobj : s.clientStore[cref]? = some c)
    (hn : (c.tasks.map (fun x => x.taskId)).Nodup)
    (hlogs : ∀ t ∈ c.tasks, ∃ lref logs,
      mapGet s.taskLogs t.taskId = some lref ∧ s.logStore[lref]? = some logs) :
    (connectionUpdate h .opened now s).clientStore[cref]?
        = some { c with isConnected := true, lastActivity := now.epochMs } ∧
      (∃ calls, (connectionUpdate h .opened now s).loops = s.loops ++ calls ∧
        calls.map (fun p => p.args.taskId)
          = (c.tasks.filter resumable).map (fun t => t.taskId) ∧
        (∀ p ∈ calls, ∃ t, c.tasks[p.taskPos]? = some t ∧ resumable t = true ∧
          p.clientRef = cref ∧ p.args.taskId = t.taskId ∧ p.args.waClient = h ∧
          p.index = t.currentMessageIndex ∧ p.pc.inFlight = true) ∧
        (∀ (pos : Nat) (t : TaskInfo), c.tasks[pos]? = some t → isStopped t →
          ∀ p ∈ calls, p.taskPos ≠ pos)) ∧
      (∀ (t : TaskInfo), resumable t = true ↔
        (t.isSending = true ∧ t.stopRequested = false ∧ t.messages ≠ [])) ∧
      (∀ (es : List SysEvent) (r pos : Nat), StoppedAt s r pos → StoppedAt (sysRun s es) r pos) := by
  have hlt : cref < s.clientStore.length := by
    by_contra hge
    rw [List.getElem?_eq_none (by omega)] at hobj
    cases hobj
  have hset : setConnected cref true (some now.epochMs) s
      = { s with
          clientStore :=
            s.clientStore.set cref ({ c with isConnected := true, lastActivity := now.epochMs }) } := by
    unfold setConnected
    rw [hobj]
    rfl
  have hupd : connectionUpdate h .opened now s
      = resumeTasks sock.sessionId h cref now (setConnected cref true (some now.epochMs) s) := by
    unfold connectionUpdate
    rw [hs]
    dsimp only
    rw [hl]
  have hres := resumeTasks_eq sock.sessionId h cref
    ({ c with isConnected := true, lastActivity := now.epochMs }) now
    (setConnected cref true (some now.epochMs) s)
    (by rw [hset]; exact hreg)
    (by rw [hset]; exact List.getElem?_set_self hlt) rfl hn
    (by
      intro t ht
      obtain ⟨lref, logs, e1, e2⟩ := hlogs t ht
      exact ⟨lref, logs, by rw [hset]; exact e1, by rw [hset]; exact e2⟩)
  rw [hupd, hres]
  have hmem := mem_resumedCalls
    (resumedCall sock.sessionId h cref ({ c with isConnected := true, lastActivity := now.epochMs })
      now (setConnected cref true (some now.epochMs) s).taskLogs) c.tasks 0
  refine ⟨?_, ⟨resumedCalls
    (resumedCall sock.sessionId h cref ({ c with isConnected := true, lastActivity := now.epochMs })
      now (setConnected cref true (some now.epochMs) s).taskLogs) 0 c.tasks, ?_, ?_, ?_, ?_⟩, ?_, ?_⟩
  · simp only [hset]
    exact List.getElem?_set_self hlt
  · simp only [hset]
  · exact resumedCalls_ids _ (fun _ _ => rfl) c.tasks 0
  · intro p hp
    obtain ⟨j, t, h1, h2, h3⟩ := hmem p hp
    subst h3
    refine ⟨t, ?_, h2, rfl, rfl, rfl, rfl, rfl⟩
    simpa [resumedCall] using h1
  · intro pos t ht hst p hp hpos
    obtain ⟨j, t1, h1, h2, h3⟩ := hmem p hp
    subst h3
    have hj : j = pos := by simpa [resumedCall] using hpos
    subst hj
    rw [ht] at h1
    cases h1
    rw [not_resumable_of_stopped t hst] at h2
    cases h2
  · intro t
    unfold resumable
    simp only [Bool.and_eq_true, Bool.not_eq_true', decide_eq_true_eq]
    constructor
    · rintro ⟨⟨a1, a2⟩, a3⟩
      exact ⟨a1, a2, List.ne_nil_of_length_pos a3⟩
    · rintro ⟨a1, a2, a3⟩
      exact ⟨⟨a1, a2⟩, List.length_pos.2 a3⟩
  · intro es r pos hst
    exact sysRun_keepsStopped es s r pos hst

set_option maxRecDepth 100000 in
/-- Claim C27 on session `s1` after its reconnection: when the new socket opens, the
five-message task (running, cursor 3) gets one new call, which is sending `m3` through
the new socket; when the task was stopped before the reconnection, the opening starts
no call and the task is still stopped. -/
theorem reconnect_resumes_running_tasks_witness :
    beforeReopen.sockets[1]? = some reconnectSocket ∧
      mapGet beforeReopen.activeClients "s1" = some 0 ∧
      beforeReopen.clientStore[0]? = some beforeReopenClient ∧
      (connectionUpdate 1 .opened (at_ 12) beforeReopen).clientStore[0]?
        = some { beforeReopenClient with isConnected := true, lastActivity := 12 } ∧
      (connectionUpdate 1 .opened (at_ 12) beforeReopen).loops.map
          (fun p => (p.args.taskId, p.args.waClient, p.pc.inFlight))
        = [("t1", 0, false), ("t1", 1, true)] ∧
      textInFlight (connectionUpdate 1 .opened (at_ 12) beforeReopen) 1 = some "m3" ∧
      stoppedBeforeReconnect.loops.length = 1 ∧
      taskFlags stoppedBeforeReconnect 0 = [(false, true, some 11)] :=
  ⟨by decide, by decide, by decide,
    (reconnect_resumes_running_tasks 1 (at_ 12) beforeReopen reconnectSocket 0
      beforeReopenClient (by decide) rfl (by decide) (by decide) (by decide)
      (by
        intro t ht
        refine ⟨0, (beforeReopen.logStore[0]?).getD [], ?_, ?_⟩
        · have : t = fiveMessageView.taskInfo := by simpa [beforeReopenClient] using ht
          subst this
          decide
        · decide)).1,
    by decide, by decide, by decide, by decide⟩

/-! ## Owners, second loops and re-registration -/

theorem ownerKeys_sysStep (s : SystemState) (ev : SysEvent)
    (h : (s.userSessions.map Prod.fst).Nodup) :
    ((sysStep s ev).userSessions.map Prod.fst).Nodup := by
  cases ev with
  | code r now =>
    show ((codeHandler r now s).2.userSessions.map Prod.fst).Nodup
    unfold codeHandler
    dsimp only
    split
    · exact h
    · split
      · exact h
      · split
        · exact h
        · exact nodup_mapSet _ _ _ h
  | sendMessage r taskId now =>
    show ((sendMessageHandler r taskId now s).2.userSessions.map Prod.fst).Nodup
    rw [(sendMessageHandler_same r taskId now s).2.1]; exact h
  | stopSession sessionId now =>
    show ((stopSessionHandler sessionId now s).2.userSessions.map Prod.fst).Nodup
    unfold stopSessionHandler
    split
    · exact h
    · exact (List.Sublist.map _ (deleteFirstOwner_sublist _ _)).nodup h
  | stopTask sessionId taskId now =>
    show ((stopTaskHandler sessionId taskId now s).2.userSessions.map Prod.fst).Nodup
    rw [(stopTaskHandler_same sessionId taskId now s).2.1]; exact h
  | cleanup now =>
    show ((cleanupTick now s).userSessions.map Prod.fst).Nodup
    have hfold : ∀ (entries : List (String × Nat)) (st : SystemState),
        (st.userSessions.map Prod.fst).Nodup →
        ((entries.foldl (evictIfIdle now) st).userSessions.map Prod.fst).Nodup := by
      intro entries
      induction entries with
      | nil => intro st hst; exact hst
      | cons e es ih =>
        intro st hst
        refine ih _ ?_
        unfold evictIfIdle
        split
        · split
          · exact (List.Sublist.map _ (deleteFirstOwner_sublist _ _)).nodup hst
          · exact hst
        · exact hst
    exact hfold s.activeClients s h
  | monitor => exact h
  | connection hh u now =>
    show ((connectionUpdate hh u now s).userSessions.map Prod.fst).Nodup
    rw [(connectionUpdate_same hh u now s).2.1]; exact h
  | reconnect i ok now =>
    show ((initializeClient i ok now s).userSessions.map Prod.fst).Nodup
    unfold initializeClient
    split
    · exact h
    · split
      · exact h
      · exact h
  | wake i now =>
    show ((loopWake i now s).userSessions.map Prod.fst).Nodup
    rw [(loopWake_same i now s).2.1]; exact h
  | settle i now o =>
    show ((loopSettle i now o s).userSessions.map Prod.fst).Nodup
    rw [(loopSettle_same i now o s).2.1]; exact h

theorem ownerKeys_sysRun (es : List SysEvent) :
    ∀ s : SystemState, (s.userSessions.map Prod.fst).Nodup →
      ((sysRun s es).userSessions.map Prod.fst).Nodup := by
  induction es with
  | nil => intro s h; exact h
  | cons e es ih => intro s h; exact ih _ (ownerKeys_sysStep s e h)

set_option maxRecDepth 100000 in
/-- After the owner at `10.0.0.1`, who has the registered session `s1`, pairs again, the
owner index maps the address to the new session `s2`, but `s1` is still in the registry
and still listed: the registry holds two sessions created from the same address, which
C22 excludes. -/
theorem repairing_leaves_two_sessions_of_one_owner :
    mapGet pairedState.userSessions "10.0.0.1" = some "s1" ∧
      mapGet repairedState.userSessions "10.0.0.1" = some "s2" ∧
      repairedState.userSessions = [("10.0.0.1", "s2")] ∧
      mapHas repairedState.activeClients "s1" = true ∧
      (listSessions repairedState).map (fun x => x.sessionId) = ["s1", "s2"] := by
  decide

/-- Claim C22 (amended): the owner index holds at most one entry per owner in every
state the process reaches, and an accepted pairing request points the owner's entry at
the new session id and registers that id; the registry is otherwise unchanged: every
session id registered before, the owner's earlier one included, is still registered
with the same `clientInfo`, and the entries of other owners are as before. -/
theorem repairing_overwrites_owner_entry_only (r : CodeRequest) (now : Instant)
    (s : SystemState) (code : String)
    (hok : r.socketOk = true) (hunreg : r.registered = false)
    (hcode : r.pairingCode = some code) :
    (codeHandler r now s).1 = .pairingCode code r.sessionId ∧
      mapGet (codeHandler r now s).2.userSessions r.userIP = some r.sessionId ∧
      mapHas (codeHandler r now s).2.activeClients r.sessionId = true ∧
      (∀ (k : String) (cref : Nat) (c : ClientInfo), k ≠ r.sessionId →
        mapGet s.activeClients k = some cref → s.clientStore[cref]? = some c →
        mapGet (codeHandler r now s).2.activeClients k = some cref ∧
          (codeHandler r now s).2.clientStore[cref]? = some c) ∧
      (∀ (ip sid : String), ip ≠ r.userIP → mapGet s.userSessions ip = some sid →
        mapGet (codeHandler r now s).2.userSessions ip = some sid) ∧
      (∀ (stats : SystemStats) (es : List SysEvent),
        ((sysRun (initialState stats) es).userSessions.map Prod.fst).Nodup) := by
  have hstate : codeHandler r now s =
      (.pairingCode code r.sessionId,
        { s with
          clientStore := s.clientStore ++
            [{ client := s.sockets.length, number := digitsOnly r.number,
               authPath := "temp/" ++ r.sessionId, isConnected := false,
               tasks := [], lastActivity := now.epochMs }]
          activeClients := mapSet s.activeClients r.sessionId s.clientStore.length
          userSessions := mapSet s.userSessions r.userIP r.sessionId
          sockets := s.sockets ++
            [{ sessionId := r.sessionId, num := digitsOnly r.number,
               sessionPath := "temp/" ++ r.sessionId, listener := .pairing }] }) := by
    unfold codeHandler
    simp [hok, hunreg, hcode]
  rw [hstate]
  refine ⟨rfl, mapGet_mapSet_self _ _ _, mapHas_of_mapGet _ _ _ (mapGet_mapSet_self _ _ _),
    ?_, ?_, ?_⟩
  · intro k cref c hk hget hc
    have hlt : cref < s.clientStore.length := by
      by_contra hge
      rw [List.getElem?_eq_none (by omega)] at hc
      cases hc
    exact ⟨by rw [← hget]; exact mapGet_mapSet_ne _ _ _ _ hk,
      by simp only; rw [List.getElem?_append_left hlt]; exact hc⟩
  · intro ip sid hip hget
    rw [← hget]
    exact mapGet_mapSet_ne _ _ _ _ hip
  · intro stats es
    exact ownerKeys_sysRun es _ (by simp [initialState])

set_option maxRecDepth 100000 in
/-- The amended C22 at the second pairing from `10.0.0.1`: the owner entry points at
`s2`, and `s1` is still registered with its `clientInfo`. -/
theorem repairing_overwrites_owner_entry_only_witness :
    mapGet pairedState.activeClients "s1" = some 0 ∧
      pairedState.clientStore[0]? = some pairedClient ∧
      mapGet (codeHandler secondPairingRequest (at_ 5) pairedState).2.userSessions "10.0.0.1"
        = some "s2" ∧
      (mapGet (codeHandler secondPairingRequest (at_ 5) pairedState).2.activeClients "s1"
          = some 0 ∧
        (codeHandler secondPairingRequest (at_ 5) pairedState).2.clientStore[0]?
          = some pairedClient) :=
  ⟨by decide, by decide,
    (repairing_overwrites_owner_entry_only secondPairingRequest (at_ 5) pairedState "ABCD-1234"
      rfl rfl rfl).2.1,
    (repairing_overwrites_owner_entry_only secondPairingRequest (at_ 5) pairedState "ABCD-1234"
      rfl rfl rfl).2.2.2.1 "s1" 0 pairedClient (by decide) (by decide) (by decide)⟩

/-- Claim C28: in every state reached from the empty registry by a run in which each
pairing request carries a session id that is not registered at that moment, no two
owner entries point to the same session id and every owner entry points to a
registered session; hence after `/stop-session`, which deletes only the first owner
entry for the session, no entry points to that session, and after a run of the cleanup
timer every remaining entry points to a session that is still registered. -/
theorem owner_index_stays_consistent (stats : SystemStats) (es : List SysEvent)
    (hfresh : freshRun (initialState stats) es = true) :
    ((sysRun (initialState stats) es).userSessions.map Prod.snd).Nodup ∧
      (∀ e ∈ (sysRun (initialState stats) es).userSessions,
        mapHas (sysRun (initialState stats) es).activeClients e.2 = true) ∧
      (∀ (sessionId : String) (now : Instant),
        ∀ e ∈ (stopSessionHandler sessionId now (sysRun (initialState stats) es)).2.userSessions,
          e.2 ≠ sessionId) ∧
      (∀ (now : Nat), ∀ e ∈ (cleanupTick now (sysRun (initialState stats) es)).userSessions,
        mapHas (cleanupTick now (sysRun (initialState stats) es)).activeClients e.2 = true) := by
  have ho := ownersOk_sysRun es _ hfresh (ownersOk_initialState stats)
  have hr := registryOk_sysRun es _ (registryOk_initialState stats)
  have hhas : ∀ (st : SystemState), OwnersOk st → ∀ e ∈ st.userSessions,
      mapHas st.activeClients e.2 = true := by
    intro st hst e he
    by_contra hne
    have hf : mapHas st.activeClients e.2 = false := by simpa using hne
    exact (mapHas_false_iff _ _).1 hf (hst.2.2 e he)
  refine ⟨ho.2.1, hhas _ ho, ?_, ?_⟩
  · intro sessionId now e he heq
    have ho2 := ownersOk_stopSessionHandler sessionId now _ ho
    have hin := ho2.2.2 e he
    rw [heq] at hin
    revert hin
    unfold stopSessionHandler
    cases hg : mapGet (sysRun (initialState stats) es).activeClients sessionId with
    | none =>
      intro hin
      have hf : mapHas (sysRun (initialState stats) es).activeClients sessionId = false := by
        unfold mapHas
        unfold mapGet at hg
        rw [hg]
        rfl
      exact (mapHas_false_iff _ _).1 hf hin
    | some cref =>
      intro hin
      exact not_mem_keys_mapDelete _ _ hr.1 hin
  · intro now
    exact hhas _ (ownersOk_cleanupTick now _ ho)

set_option maxRecDepth 100000 in
/-- Claim C28 for two owners who pair, the first of them twice, after which the first
session is stopped and the cleanup timer runs: the run uses unregistered ids, and the
owner index ends with one entry per owner, pointing to the registered sessions `s3` and
`s2`. -/
theorem owner_index_stays_consistent_witness :
    freshRun (initialState (freshStats 0)) twoOwnersRun = true ∧
      (sysRun (initialState (freshStats 0)) twoOwnersRun).userSessions
        = [("10.0.0.1", "s3"), ("10.0.0.2", "s2")] ∧
      (sysRun (initialState (freshStats 0)) twoOwnersRun).activeClients.map Prod.fst
        = ["s2", "s3"] ∧
      ((sysRun (initialState (freshStats 0)) twoOwnersRun).userSessions.map Prod.snd).Nodup :=
  ⟨by decide, by decide, by decide,
    (owner_index_stays_consistent (freshStats 0) twoOwnersRun (by decide)).1⟩

set_option maxRecDepth 100000 in
/-- Claim C23 does not hold in the code.  After the five-message task has lost its
connection and the session has reconnected, the task is held by two calls of the loop
that have not returned: the one started by `/send-message`, still waiting for the
connection, and the one started by the reconnect listener.  When the first one wakes,
both are sending `m3`, so the task has two sends in flight; after both resolve,
`sentMessages` is 5 while the cursor is 4. -/
theorem reconnect_starts_second_loop_for_task :
    activeCalls reconnectedState 0 0 = 2 ∧
      reconnectedState.loops.map (fun p => (p.args.taskId, p.args.waClient, p.pc.inFlight))
        = [("t1", 0, false), ("t1", 1, true)] ∧
      sendsInFlightFor (sysRun reconnectedState [.wake 0 (at_ 13)]) 0 0 = 2 ∧
      textInFlight (sysRun reconnectedState [.wake 0 (at_ 13)]) 0 = some "m3" ∧
      textInFlight (sysRun reconnectedState [.wake 0 (at_ 13)]) 1 = some "m3" ∧
      countersOf reconnectedState "s1" = [(3, 3)] ∧
      countersOf
        (sysRun reconnectedState [.wake 0 (at_ 13), .settle 0 (at_ 14) .ok, .settle 1 (at_ 14) .ok])
        "s1" = [(5, 4)] := by
  decide

set_option maxRecDepth 100000 in
/-- Claim C24 does not hold in the code.  Whatever the registry holds, once a call
`initializeClient(sessionId, ...)` that was scheduled by a close event runs and its
socket is created, `sessionId` is registered.  For session `s1` after one reconnection:
`/stop-session` removes it, the close reported by its socket schedules a
reconnection (the reconnect listener does not look at the registry), and when that
runs `s1` is registered and listed again, with a new `clientInfo` without tasks and
without owner entry.  The same happens after an eviction by the cleanup timer when a
reconnection was already scheduled. -/
theorem reconnection_registers_removed_session :
    (∀ (p : PendingInit) (now : Instant) (s : SystemState),
        mapHas (initializeClient s.pendingInits.length true now
          { s with pendingInits := s.pendingInits ++ [p] }).activeClients p.sessionId = true) ∧
      mapHas reconnectedState.activeClients "s1" = true ∧
      mapHas (sysRun reconnectedState [.stopSession "s1" (at_ 13)]).activeClients "s1" = false ∧
      (sysRun reconnectedState
        [.stopSession "s1" (at_ 13), .connection 1 (.closed none) (at_ 14)]).pendingInits.map
          (fun p => p.sessionId) = ["s1"] ∧
      mapHas stoppedThenReconnected.activeClients "s1" = true ∧
      (listSessions stoppedThenReconnected).map (fun x => (x.sessionId, x.taskCount))
        = [("s1", 0)] ∧
      stoppedThenReconnected.userSessions = [] ∧
      mapHas (sysRun twoMessageState
          [.connection 0 (.closed (some 428)) (at_ 4), .cleanup nextDay]).activeClients "s1"
        = false ∧
      mapHas evictedThenReconnected.activeClients "s1" = true := by
  refine ⟨?_, by decide, by decide, by decide, by decide, by decide, by decide, by decide,
    by decide⟩
  intro p now s
  unfold initializeClient
  simp only [List.getElem?_concat_length]
  exact mapHas_of_mapGet _ _ _ (mapGet_mapSet_self _ _ _)

end WhatsappServer
